import Mathlib

/-!
# Secret-chat key negotiation and message codec

A shallow embedding of

* `Telegram/SourceFiles/dh/dh_encryptionkey_exchanger.{h,cpp}`
  (`DhExchangeKey::DHEncryptionKeyExchanger`), and
* `Telegram/SourceFiles/security/security_messages_handler.{h,cpp}`
  (`security::SecurityMessagesHandler`),

followed by theorems about them.

Conventions.  A byte is a `Fin 256`; byte vectors, spans and `QByteArray`s are
`List Byte`.  C++ integers are `Nat`/`Int`, reduced modulo `2^w` where a wrap can
happen.  Hash, cipher, Base64 and the safe-group test are primitives supplied
from outside the two classes; they enter the definitions as parameters.  A
failed `Expects` is the result `none`.
-/

/-- One octet (`bytes::type`, `uchar`, `char`). -/
abbrev Byte := Fin 256

/-! ## Big-number helpers used by the modelled `mtproto_dh_utils` -/

namespace MTP

/-- Big-endian value of a byte vector, the way a big number is read from bytes. -/
def bytesToNat (bs : List Byte) : Nat :=
  bs.foldl (fun acc b => acc * 256 + b.val) 0

/-- Worker of `natToBytes`: peels the low byte `fuel` times at most, stopping at zero. -/
def natToBytesAux : Nat → Nat → List Byte → List Byte
  | 0, _, acc => acc
  | fuel + 1, n, acc =>
    if n = 0 then acc
    else natToBytesAux fuel (n / 256) (Fin.ofNat (n % 256) :: acc)

/-- Shortest big-endian byte vector of a number (no leading zero byte; zero is empty). -/
def natToBytes (n : Nat) : List Byte :=
  natToBytesAux n n []

/-- The byte of weight `256^k` of a number. -/
def byteAt (n k : Nat) : Byte :=
  Fin.ofNat (n / 256 ^ k % 256)

/-- Canonical fixed width: the big-endian bytes of `n` on exactly `width` bytes,
zero-padded on the left, truncated to the low-order bytes when `n` is too large. -/
def toFixedWidth (width n : Nat) : List Byte :=
  (List.range width).map (fun i => byteAt n (width - 1 - i))

/-- Width of the canonical shared secret, in bytes. -/
def kSecretSize : Nat := 256

/-- Modelled from the spec: the external primitive `modpow(base, exponent, modulus)`
(`openssl::BigNum::ModExp`, not among the sources): `base ^ exponent mod modulus`. -/
def ModExp (base : Int) (exponent modulus : Nat) : Nat :=
  ((base ^ exponent) % (modulus : Int)).toNat

/-- Result of the first half of the exchange (`MTP::ModExpFirst`). -/
structure ModExpFirst where
  modexp : List Byte
  randomPower : List Byte
deriving DecidableEq, Repr

/-- Modelled from the spec: `MTP::CreateModExp` (mtproto/mtproto_dh_utils, not among the
sources): "draws a cryptographically secure private exponent of the required size,
computes the public value via modular exponentiation, and returns
{publicValue, privateExponent}" with `publicValue = generator^privateExponent mod modulus`.
The outcome of the draw is the explicit argument `randomPower`. -/
def CreateModExp (g : Int) (primeBytes : List Byte) (_randomSeed : List Byte)
    (randomPower : List Byte) : ModExpFirst :=
  ⟨natToBytes (ModExp g (bytesToNat randomPower) (bytesToNat primeBytes)), randomPower⟩

/-- Modelled from the spec: `MTP::CreateAuthKey` (mtproto/mtproto_dh_utils, not among the
sources): "computes the shared secret as peerPublicValue^privateExponent mod modulus ...
then canonicalizes it to the fixed 256-byte width"; a peer value that is zero, one or
out of range (not below the modulus) is "rejected before exponentiation" and the result
is empty. -/
def CreateAuthKey (firstBytes randomBytes primeBytes : List Byte) : List Byte :=
  let first := bytesToNat firstBytes
  let prime := bytesToNat primeBytes
  if first = 0 ∨ first = 1 ∨ prime ≤ first then []
  else toFixedWidth kSecretSize (ModExp first (bytesToNat randomBytes) prime)

/-- Trial division: no `d` with `2 ≤ d < k` divides `n`. -/
def noDivisorBelow (n : Nat) : Nat → Bool
  | 0 => true
  | k + 1 => noDivisorBelow n k && (k < 2 || n % k != 0)

/-- Primality by trial division. -/
def isPrimeNat (n : Nat) : Bool :=
  decide (2 ≤ n) && noDivisorBelow n n

/-- Modelled from the spec: the external primitive `isSafeGroup(generator, modulus)`
(`MTP::IsPrimeAndGood`, not among the sources), by the glossary's words: "modulus is
prime and modulus minus one over two is also prime"; the generator lies strictly
between 1 and the modulus minus one. -/
def isSafeGroup (primeBytes : List Byte) (g : Int) : Bool :=
  let p := bytesToNat primeBytes
  isPrimeNat p && isPrimeNat ((p - 1) / 2) && decide (1 < g) && decide (g < (p : Int) - 1)

end MTP

/-! ## `DhExchangeKey::DHEncryptionKeyExchanger` -/

namespace DhExchangeKey

/-- The stored group parameters (`struct DhConfig`). -/
structure DhConfig where
  version : Int
  g : Int
  p : List Byte
deriving DecidableEq, Repr

/-- The two alternatives of `MTPmessages_DhConfig`. -/
inductive MTPmessages_DhConfig where
  | dhConfig (g : Int) (p : List Byte) (version : Int) (random : List Byte)
  | dhConfigNotModified (random : List Byte)
deriving DecidableEq, Repr

/-- The exchanger's own state: the owned `DhConfig` (the session pointer is only used
to send requests). -/
structure DHEncryptionKeyExchanger where
  _dhConfig : DhConfig
deriving DecidableEq, Repr

/-- The constructor: `_dhConfig(new DhConfig{0, g, p})`. -/
def DHEncryptionKeyExchanger.new (g : Int) (p : List Byte) : DHEncryptionKeyExchanger :=
  ⟨⟨0, g, p⟩⟩

/-- The lambda `validRandom` of `updateDhConfig`. -/
def validRandom (kRandomPowerSize : Nat) (random : List Byte) : Bool :=
  if random.length ≠ kRandomPowerSize then false else true

/-- Source `DHEncryptionKeyExchanger::updateDhConfig`.  `IsPrimeAndGood` is `MTP::IsPrimeAndGood`
and `kRandomPowerSize` is `MTP::ModExpFirst::kRandomPowerSize`.  The result is the state
after the call and the returned span (`{}` is the empty list). -/
def DHEncryptionKeyExchanger.updateDhConfig (IsPrimeAndGood : List Byte → Int → Bool)
    (kRandomPowerSize : Nat) (self : DHEncryptionKeyExchanger)
    (data : MTPmessages_DhConfig) : DHEncryptionKeyExchanger × List Byte :=
  match data with
  | .dhConfig g p version random =>
    let primeBytes := p
    if !IsPrimeAndGood primeBytes g then (self, [])
    else if !validRandom kRandomPowerSize random then (self, [])
    else (⟨⟨version, g, primeBytes⟩⟩, random)
  | .dhConfigNotModified random =>
    if self._dhConfig.g == 0 || self._dhConfig.p.isEmpty then (self, [])
    else if !validRandom kRandomPowerSize random then (self, [])
    else (self, random)

/-- Source `DHEncryptionKeyExchanger::ñreateModExp` (the source spells the first letter `ñ`):
`MTP::CreateModExp(_dhConfig->g, _dhConfig->p, randomKey)`. -/
def DHEncryptionKeyExchanger.createModExp (self : DHEncryptionKeyExchanger)
    (randomKey : List Byte) (randomPower : List Byte) : MTP.ModExpFirst :=
  MTP.CreateModExp self._dhConfig.g self._dhConfig.p randomKey randomPower

/-- Source `DHEncryptionKeyExchanger::ñreateEncryptionKey` (the source spells the first letter
`ñ`). -/
def DHEncryptionKeyExchanger.createEncryptionKey (self : DHEncryptionKeyExchanger)
    (g_a secretKey : List Byte) : List Byte :=
  let computedEncryptionKey := MTP.CreateAuthKey g_a secretKey self._dhConfig.p
  if computedEncryptionKey.isEmpty then []
  else computedEncryptionKey

/-- Size the fingerprinted key must have (`kFingerprintDataSize`). -/
def kFingerprintDataSize : Nat := 256

/-- Source `DHEncryptionKeyExchanger::computeFingerprint`.  `Sha1` is `openssl::Sha1`, its
20-byte digest indexed by position.  Every shifted byte stays below `2^64`, so the
`uint64` arithmetic does not wrap.  A violated `Expects` gives `none`. -/
def computeFingerprint (Sha1 : List Byte → Fin 20 → Byte) (encryptionKey : List Byte) :
    Option Nat :=
  if encryptionKey.length ≠ kFingerprintDataSize then none
  else
    let hash := Sha1 encryptionKey
    some (((hash 19).val <<< 56)
      ||| ((hash 18).val <<< 48)
      ||| ((hash 17).val <<< 40)
      ||| ((hash 16).val <<< 32)
      ||| ((hash 15).val <<< 24)
      ||| ((hash 14).val <<< 16)
      ||| ((hash 13).val <<< 8)
      ||| (hash 12).val)

/-- Conversion of a `uint64` to `int64` (two's complement). -/
def toInt64 (n : Nat) : Int :=
  if n % 2 ^ 64 < 2 ^ 63 then ((n % 2 ^ 64 : Nat) : Int)
  else ((n % 2 ^ 64 : Nat) : Int) - 2 ^ 64

/-- The 64-bit pattern of an `int64`. -/
def bits64 (c : Int) : Nat :=
  (c % 2 ^ 64).toNat

/-- Source `DHEncryptionKeyExchanger::isEncryptionKeyValid`: the computed `uint64` is stored
in an `int64` and compared with the `int64` argument. -/
def isEncryptionKeyValid (Sha1 : List Byte → Fin 20 → Byte) (fingerprint : Int)
    (encryptionKey : List Byte) : Option Bool :=
  match computeFingerprint Sha1 encryptionKey with
  | none => none
  | some fp =>
    let currentFingeprint : Int := toInt64 fp
    some (currentFingeprint == fingerprint)

end DhExchangeKey

/-! ### Values for concrete evaluation -/

namespace DhExchangeKey.Sample

/-- A stand-in digest: byte `i` is `200 + i` plus the input length, modulo 256. -/
def sha1 : List Byte → Fin 20 → Byte :=
  fun data i => Fin.ofNat (200 + i.val + data.length)

/-- A key of 256 zero bytes. -/
def zeroKey : List Byte := List.replicate 256 0

/-- An exchanger holding the group `g = 5`, `p = 23`. -/
def exchanger : DHEncryptionKeyExchanger := DHEncryptionKeyExchanger.new 5 [23]

/-- A 256-byte big-endian exponent with the given low byte. -/
def exponent (low : Byte) : List Byte := List.replicate 255 0 ++ [low]

/-- A seed of 256 zero bytes. -/
def seed : List Byte := List.replicate 256 0

end DhExchangeKey.Sample

/-! ## `security::SecurityMessagesHandler` -/

namespace security

/-- Source `sizeof(mtpPrime)`: a word of the wire format is a 32-bit integer. -/
def sizeofMtpPrime : Nat := 4

/-- Source `SecurityMessagesHandler::kMessageKeyPosition`. -/
def kMessageKeyPosition : Nat := 0

/-- Source `SecurityMessagesHandler::kExternalHeaderIntsCount`. -/
def kExternalHeaderIntsCount : Nat := 4

/-- What the handler calls and does not define itself: `QByteArray` Base64, OpenSSL
SHA-256, `MTP::AuthKey`, the raw AES-IGE routines, `SerializedRequest` and the TL
string reader.  Buffers of words are given by their bytes (little-endian host). -/
structure Externals where
  /-- Source `QByteArray::toBase64(QByteArray::Base64Encoding)`. -/
  toBase64 : List Byte → List Byte
  /-- Source `QByteArray::fromBase64`. -/
  fromBase64 : List Byte → List Byte
  /-- Source `SHA256_Init` / `SHA256_Update` / `SHA256_Final` over the concatenated input. -/
  SHA256 : List Byte → Fin 32 → Byte
  /-- Source `AuthKey::FillData`: the key material of an `AuthKey` made from key bytes. -/
  FillData : List Byte → List Byte
  /-- Source `AuthKey::partForMsgKey(send)`: the 32 bytes the hash reads at the returned pointer. -/
  partForMsgKey : List Byte → Bool → List Byte
  /-- Source `AuthKey::prepareAES(msgKey, aesKey, aesIV, send)`: the pair `(aesKey, aesIV)`. -/
  prepareAES : List Byte → List Byte → Bool → List Byte × List Byte
  /-- Source `aesIgeEncryptRaw(src, dst, len, key, iv)`: the bytes written to `dst`. -/
  aesIgeEncryptRaw : List Byte → List Byte → List Byte → List Byte
  /-- Source `aesIgeDecryptRaw(src, dst, len, key, iv)`: the bytes written to `dst`. -/
  aesIgeDecryptRaw : List Byte → List Byte → List Byte → List Byte
  /-- Source `SerializedRequest::kMessageLengthPosition`, in words. -/
  kMessageLengthPosition : Nat
  /-- Source `SerializedRequest::kMessageBodyPosition`, in words. -/
  kMessageBodyPosition : Nat
  /-- Source `SerializedRequest::Serialize(message)`: the request buffer. -/
  Serialize : List Byte → List Byte
  /-- Source `SerializedRequest::setMsgId(msgId)` on a request buffer. -/
  setMsgId : List Byte → Nat → List Byte
  /-- Source `SerializedRequest::addPadding(false, false)` on a request buffer; the second
  argument is the source of the random padding bytes. -/
  addPadding : List Byte → (Nat → Byte) → List Byte
  /-- Source `MTPString::read(from, end)` over the bytes between `from` and `end`: the string
  read, or `none` when it returns `false`. -/
  read : List Byte → Option (List Byte)

/-- The part of `EncryptionChatData` the handler reads. -/
structure EncryptionChatData where
  encryptionKey : List Byte
deriving DecidableEq, Repr

/-- The handler's state: `_encryptionKey`, `none` for the null pointer, otherwise the
key material of the `AuthKey`. -/
structure SecurityMessagesHandler where
  _encryptionKey : Option (List Byte)
deriving DecidableEq, Repr

/-- The constructor; `none` is the null `encryptionData`. -/
def SecurityMessagesHandler.new (E : Externals) (encryptionData : Option EncryptionChatData) :
    SecurityMessagesHandler :=
  match encryptionData with
  | none => ⟨none⟩
  | some d =>
    if !d.encryptionKey.isEmpty then ⟨some (E.FillData d.encryptionKey)⟩
    else ⟨none⟩

/-- Reduction of a size to `uint32`. -/
def u32 (n : Nat) : Nat := n % 2 ^ 32

/-- Conversion of a 32-bit pattern to `int32` (two's complement). -/
def toInt32 (n : Nat) : Int :=
  if n % 2 ^ 32 < 2 ^ 31 then ((n % 2 ^ 32 : Nat) : Int)
  else ((n % 2 ^ 32 : Nat) : Int) - 2 ^ 32

/-- The byte at offset `i` from the start of a buffer; past the buffer's end the read
falls into whatever follows it in memory, `heap`. -/
def memAt (buf : List Byte) (heap : Nat → Byte) (i : Nat) : Byte :=
  if h : i < buf.length then buf[i] else heap (i - buf.length)

/-- The `len` bytes at offset `start` from the start of a buffer. -/
def memSlice (buf : List Byte) (heap : Nat → Byte) (start len : Nat) : List Byte :=
  (List.range len).map (fun i => memAt buf heap (start + i))

/-- The `int32` stored in word `w` of a buffer (little-endian). -/
def wordAt (buf : List Byte) (heap : Nat → Byte) (w : Nat) : Int :=
  toInt32 ((memAt buf heap (4 * w)).val
    + (memAt buf heap (4 * w + 1)).val * 2 ^ 8
    + (memAt buf heap (4 * w + 2)).val * 2 ^ 16
    + (memAt buf heap (4 * w + 3)).val * 2 ^ 24)

/-- A destination buffer of `n` bytes after a primitive has written its output there:
the primitives write exactly `n` bytes; a shorter output leaves the zero fill. -/
def intoBuffer (n : Nat) (out : List Byte) : List Byte :=
  (out ++ List.replicate (n - out.length) 0).take n

/-- Source `SecurityMessagesHandler::computeMsgKey(constData, dataLen)`; `data` is the
`dataLen * sizeof(mtpPrime)` bytes at `constData`.  The key is bytes 8..23 of the
digest. -/
def computeMsgKey (E : Externals) (key : List Byte) (data : List Byte) : List Byte :=
  let encryptedSHA256 := E.SHA256 (E.partForMsgKey key true ++ data)
  List.ofFn (fun i : Fin 16 => encryptedSHA256 ⟨8 + i.val, by omega⟩)

/-- The private `SecurityMessagesHandler::encryptMessage(src, dst, len, msgKey)`: the
bytes written to `dst`; `src` is the `len * sizeof(mtpPrime)` bytes to encrypt. -/
def encryptRaw (E : Externals) (key : List Byte) (src : List Byte) (msgKey : List Byte) :
    List Byte :=
  let aes := E.prepareAES key msgKey false
  E.aesIgeEncryptRaw src aes.1 aes.2

/-- Modelled from the spec: `aesIgeDecrypt(src, dst, len, authKey, msgKey)`
(mtproto/mtproto_auth_key.h, not among the sources): "derive the one-time key/IV from
(SharedSecret, envelope.messageKey, direction=inbound), decrypt envelope.ciphertext";
inbound is `send = false`. -/
def aesIgeDecrypt (E : Externals) (src : List Byte) (authKey : List Byte) (msgKey : List Byte) :
    List Byte :=
  let aes := E.prepareAES authKey msgKey false
  E.aesIgeDecryptRaw src aes.1 aes.2

/-- Source `x & ~0x03U` on `uint32`. -/
def clearLowTwoBits (x : Nat) : Nat := x &&& 0xFFFFFFFC

/-- The public `SecurityMessagesHandler::encryptMessage`.  `randomNum` is the value
`getRandomNum()` returns and `padding` the random bytes `addPadding` draws. -/
def SecurityMessagesHandler.encryptMessage (E : Externals) (self : SecurityMessagesHandler)
    (randomNum : Nat) (padding : Nat → Byte) (message : List Byte) : List Byte :=
  match self._encryptionKey with
  | none => message
  | some key =>
    let request := E.Serialize message
    let msgId := randomNum % 2 ^ 64
    let request := E.setMsgId request msgId
    let request := E.addPadding request padding
    let fullSize := u32 (request.length / sizeofMtpPrime)
    let src := request.take (fullSize * sizeofMtpPrime)
    let msgKey := computeMsgKey E key src
    let dst := intoBuffer (fullSize * sizeofMtpPrime) (encryptRaw E key src msgKey)
    let packet := msgKey ++ dst
    E.toBase64 packet

/-- The exits of `decryptMessage`, one per `return`. -/
inductive DecryptExit where
  /-- Logs "attempt to decrypt message when the encryption key is not created." -/
  | keyNotCreated
  /-- Logs "size of encrypted message is to small." (the header check). -/
  | headerTooSmall
  /-- Logs "size of encrypted message is to small." (the body check). -/
  | bodyTooSmall
  /-- Logs "checking of the message key failed." -/
  | msgKeyFailed
  /-- Logs "can not deserialize the decrypted data to the MTPString." -/
  | cannotDeserialize
  /-- Source `return result`. -/
  | result (value : List Byte)
deriving DecidableEq, Repr

/-- The local values of `decryptMessage` once both size checks have passed. -/
structure DecryptLocals where
  intsCount : Nat
  encryptedIntsCount : Nat
  encryptedBytesCount : Nat
  msgKey : List Byte
  decryptedBuffer : List Byte
  messageLength : Int
deriving DecidableEq, Repr

/-- The statements of `decryptMessage` from `fromBase64` to `messageLength`, for a
handler holding `key`: the local values, or the exit taken by one of the two size
checks. -/
def decryptLocals (E : Externals) (key : List Byte) (heap : Nat → Byte) (message : List Byte) :
    Except DecryptExit DecryptLocals :=
  let encryptedMessage := E.fromBase64 message
  let intsCount := u32 (encryptedMessage.length / u32 sizeofMtpPrime)
  if intsCount ≤ kExternalHeaderIntsCount then .error .headerTooSmall
  else
    let encryptedInts := encryptedMessage.drop (kExternalHeaderIntsCount * sizeofMtpPrime)
    let encryptedIntsCount := clearLowTwoBits (intsCount - kExternalHeaderIntsCount)
    let encryptedBytesCount := u32 (encryptedIntsCount * sizeofMtpPrime)
    let msgKey := (encryptedMessage.drop (kMessageKeyPosition * sizeofMtpPrime)).take 16
    if encryptedIntsCount ≤ E.kMessageBodyPosition then .error .bodyTooSmall
    else
      let decryptedBuffer := intoBuffer encryptedBytesCount
        (aesIgeDecrypt E (encryptedInts.take encryptedBytesCount) key msgKey)
      let messageLength := wordAt decryptedBuffer heap E.kMessageLengthPosition
      .ok ⟨intsCount, encryptedIntsCount, encryptedBytesCount, msgKey, decryptedBuffer,
        messageLength⟩

/-- The message key `decryptMessage` recomputes:
`computeMsgKey(decryptedInts, intsCount - kExternalHeaderIntsCount)`. -/
def recomputedMsgKey (E : Externals) (key : List Byte) (heap : Nat → Byte)
    (l : DecryptLocals) : List Byte :=
  computeMsgKey E key
    (memSlice l.decryptedBuffer heap 0 ((l.intsCount - kExternalHeaderIntsCount) * sizeofMtpPrime))

/-- The bytes between `srcFrom = decryptedMessageBody` and
`srcEnd = srcFrom + messageLength` (nothing when `srcEnd` is not past `srcFrom`). -/
def readRegion (E : Externals) (heap : Nat → Byte) (l : DecryptLocals) : List Byte :=
  memSlice l.decryptedBuffer heap (E.kMessageBodyPosition * sizeofMtpPrime)
    (l.messageLength.toNat * sizeofMtpPrime)

/-- Source `SecurityMessagesHandler::decryptMessage`, with the exit taken.  `heap` is the
memory after `decryptedBuffer`, where reads past its end land. -/
def SecurityMessagesHandler.decryptExit (E : Externals) (self : SecurityMessagesHandler)
    (heap : Nat → Byte) (message : List Byte) : DecryptExit :=
  match self._encryptionKey with
  | none => .keyNotCreated
  | some key =>
    match decryptLocals E key heap message with
    | .error exit => exit
    | .ok l =>
      if l.msgKey ≠ recomputedMsgKey E key heap l then .msgKeyFailed
      else
        match E.read (readRegion E heap l) with
        | none => .cannotDeserialize
        | some result => .result result

/-- Source `SecurityMessagesHandler::decryptMessage`: the returned `MTPString`. -/
def SecurityMessagesHandler.decryptMessage (E : Externals) (self : SecurityMessagesHandler)
    (heap : Nat → Byte) (message : List Byte) : List Byte :=
  match self.decryptExit E heap message with
  | .result value => value
  | _ => message

end security

/-! ## Contracts of the external primitives

The handler's guarantees rest on what its collaborators promise.  Each promise is a
proposition about an `Externals`; the theorems below name the ones they use. -/

namespace security

/-- Base64 decoding undoes Base64 encoding. -/
def Base64Contract (E : Externals) : Prop :=
  ∀ x : List Byte, E.fromBase64 (E.toBase64 x) = x

/-- On whole cipher blocks, raw AES-IGE encryption keeps the length and raw decryption
under the same key and IV undoes it. -/
def AesIgeContract (E : Externals) : Prop :=
  ∀ src key iv : List Byte, src.length % 16 = 0 →
    (E.aesIgeEncryptRaw src key iv).length = src.length ∧
    E.aesIgeDecryptRaw (E.aesIgeEncryptRaw src key iv) key iv = src

/-- The framed plaintext of one `encryptMessage` call: `Serialize`, `setMsgId`,
`addPadding(false, false)`. -/
def framedPlaintext (E : Externals) (randomNum : Nat) (padding : Nat → Byte)
    (message : List Byte) : List Byte :=
  E.addPadding (E.setMsgId (E.Serialize message) (randomNum % 2 ^ 64)) padding

/-- What `SerializedRequest` and the TL string reader promise for one message: the
framed plaintext is a header of `kMessageBodyPosition` words, then the serialized
message, then padding up to a whole number of cipher blocks; it fits a byte array
together with the 16-byte key; the length field covers the serialized message; and
the reader gets the message back from its serialization whatever follows it. -/
def FrameContract (E : Externals) (randomNum : Nat) (padding : Nat → Byte)
    (message : List Byte) : Prop :=
  ∃ header body pad : List Byte,
    framedPlaintext E randomNum padding message = header ++ body ++ pad ∧
    header.length = E.kMessageBodyPosition * sizeofMtpPrime ∧
    0 < body.length ∧
    (header ++ body ++ pad).length % 16 = 0 ∧
    (header ++ body ++ pad).length + 16 < 2 ^ 31 ∧
    (∀ heap : Nat → Byte, body.length ≤
      (wordAt (header ++ body ++ pad) heap E.kMessageLengthPosition).toNat * sizeofMtpPrime) ∧
    ∀ rest : List Byte, E.read (body ++ rest) = some message

end security

/-! ## A small instance of the primitives, for concrete evaluation -/

namespace security.Sample

/-- Little-endian bytes of a number on `n` bytes. -/
def leBytes (n x : Nat) : List Byte :=
  (List.range n).map (fun i => MTP.byteAt x i)

/-- A byte summary of some bytes. -/
def checksum (bs : List Byte) : Byte :=
  bs.foldl (fun acc b => acc * 31 + b) 7

/-- Serialization of a short string: one length byte, the bytes, zero fill to a word. -/
def writeString (v : List Byte) : List Byte :=
  let raw := (Fin.ofNat v.length : Byte) :: v
  raw ++ List.replicate ((4 - raw.length % 4) % 4) 0

/-- Reader of a short string from the bytes up to `end`. -/
def readString (region : List Byte) : Option (List Byte) :=
  match region with
  | [] => none
  | l :: rest =>
    if l.val < 254 ∧ (l.val / 4 + 1) * 4 ≤ region.length then some (rest.take l.val)
    else none

/-- Padding words appended to a request of `requestSize` words: to a multiple of four
words counted with the eight header words, and twelve bytes at least. -/
def paddingWords (requestSize : Nat) : Nat :=
  let r := (4 - (8 + requestSize) % 4) % 4
  if r < 3 then r + 4 else r

/-- The instance: reversal for Base64, a byte summary for SHA-256, a byte shift for
AES-IGE, and the MTProto frame layout (eight header words, byte length in word 7). -/
def externals : Externals where
  toBase64 := List.reverse
  fromBase64 := List.reverse
  SHA256 := fun data i => checksum data + Fin.ofNat i.val
  FillData := fun k => List.replicate (256 - k.length) 0 ++ k
  partForMsgKey := fun key send => (key.drop (88 + if send then 0 else 8)).take 32
  prepareAES := fun key msgKey send =>
    (msgKey ++ (key.drop (if send then 0 else 8)).take 16, msgKey ++ msgKey)
  aesIgeEncryptRaw := fun src key iv => src.map (fun b => b + checksum (key ++ iv))
  aesIgeDecryptRaw := fun src key iv => src.map (fun b => b - checksum (key ++ iv))
  kMessageLengthPosition := 7
  kMessageBodyPosition := 8
  Serialize := fun message =>
    let body := writeString message
    List.replicate 28 0 ++ leBytes 4 body.length ++ body
  setMsgId := fun request msgId => request.take 16 ++ leBytes 8 msgId ++ request.drop 24
  addPadding := fun request rnd =>
    request ++ (List.range (4 * paddingWords (request.length / 4 - 8))).map rnd
  read := readString

/-- The bytes of "ping". -/
def ping : List Byte := [112, 105, 110, 103]

/-- A key of three bytes. -/
def keyBytes : List Byte := [1, 2, 3]

/-- Memory filled with one byte value. -/
def heap : Nat → Byte := fun _ => 170

/-- Padding bytes counting up from 1. -/
def padding : Nat → Byte := fun i => Fin.ofNat (i + 1)

/-- The key material of a handler made from `keyBytes`. -/
def key : List Byte := externals.FillData keyBytes

/-- A forged envelope: 64 zero bytes as Base64 text. -/
def forged : List Byte := List.replicate 64 0

/-- The local values of `decryptMessage` on `forged`. -/
def forgedLocals : DecryptLocals :=
  ⟨16, 12, 48, List.replicate 16 0, List.replicate 48 249, -101058055⟩

end security.Sample

/-! ## Runs of the exchanger, and further contracts and sample values -/

namespace DhExchangeKey

/-- The state after a sequence of `updateDhConfig` calls, one per response, in order. -/
def DHEncryptionKeyExchanger.run (IsPrimeAndGood : List Byte → Int → Bool)
    (kRandomPowerSize : Nat) (self : DHEncryptionKeyExchanger)
    (responses : List MTPmessages_DhConfig) : DHEncryptionKeyExchanger :=
  responses.foldl (fun s data => (s.updateDhConfig IsPrimeAndGood kRandomPowerSize data).1) self

end DhExchangeKey

namespace security

/-- Modelled from the spec: `SerializedRequest::addPadding` (mtproto/details, not among
the sources) appends "padding to the cipher block size": the framed plaintext of a
message is a whole number of 16-byte blocks, and with the 16-byte key in front it fits
a byte array. -/
def PaddedFrame (E : Externals) (randomNum : Nat) (padding : Nat → Byte)
    (message : List Byte) : Prop :=
  (framedPlaintext E randomNum padding message).length % 16 = 0 ∧
  (framedPlaintext E randomNum padding message).length + 16 < 2 ^ 31

/-- The envelope text for a framed plaintext `F` under `key`: Base64 of the message key
of `F` followed by the encryption of `F`. -/
def sealFrame (E : Externals) (key F : List Byte) : List Byte :=
  E.toBase64 (computeMsgKey E key F ++ encryptRaw E key F (computeMsgKey E key F))

end security

namespace security.Sample

/-- A frame of 64 bytes whose length field (word 7) declares 100 words, followed by
the serialized string "ping" and 24 padding bytes. -/
def oversizedFrame : List Byte :=
  List.replicate 28 0 ++ [100, 0, 0, 0] ++ [4, 112, 105, 110, 103, 0, 0, 0]
    ++ (List.range 24).map padding

/-- The envelope of `oversizedFrame` under `key`. -/
def oversizedEnvelope : List Byte := sealFrame externals key oversizedFrame

/-- An envelope whose payload after the 16-byte key is 13 words: 68 zero bytes as
Base64 text. -/
def unaligned : List Byte := List.replicate 68 0

/-- Memory filled with zero bytes. -/
def zeroHeap : Nat → Byte := fun _ => 0

/-- The local values of `decryptMessage` on `unaligned`. -/
def unalignedLocals : DecryptLocals :=
  ⟨17, 12, 48, List.replicate 16 0, List.replicate 48 249, -101058055⟩

/-- The local values of `decryptMessage` on `oversizedEnvelope`. -/
def oversizedLocals : DecryptLocals :=
  ⟨20, 16, 64, computeMsgKey externals key oversizedFrame, oversizedFrame, 100⟩

/-- An envelope with no room after the 16-byte key: 16 zero bytes as Base64 text. -/
def headerOnly : List Byte := List.replicate 16 0

end security.Sample

/-! ## `Export::Output::JsonDataBuilder` and `JsonEncryptionDataWriter` -/

namespace Export.Output

/-- The value of a byte read as `char` (signed, as on the x86 targets of the
application): bytes from 128 up are negative. -/
def charValue (b : Byte) : Int :=
  if b.val < 128 then (b.val : Int) else (b.val : Int) - 256

/-- The bytes appended by one pass of the loop of `SerializeString`, for the byte `ch`
at `p` and the bytes `rest` after it (`p + 2 < end` holds when `rest` has two bytes at
least, which are then `*(p + 1)` and `*(p + 2)`). -/
def escapeChar (ch : Byte) (rest : List Byte) : List Byte :=
  if ch = 10 then [92, 110]
  else if ch = 13 then [92, 114]
  else if ch = 9 then [92, 116]
  else if ch = 34 then [92, 34]
  else if ch = 92 then [92, 92]
  else if 0 ≤ charValue ch ∧ charValue ch < 32 then
    let left := ch.val &&& 0x0F
    [92, 120, Fin.ofNat (48 + (ch.val >>> 4)),
      if left ≥ 10 then Fin.ofNat (65 + (left - 10)) else Fin.ofNat (48 + left)]
  else
    match rest with
    | b1 :: b2 :: _ =>
      if ch = 0xE2 ∧ b1 = 0x80 then
        if b2 = 0xA8 then [92, 117, 50, 48, 50, 56]
        else if b2 = 0xA9 then [92, 117, 50, 48, 50, 57]
        else [ch]
      else [ch]
    | _ => [ch]

/-- The loop of `SerializeString`: `p` runs over every byte, advancing by one. -/
def escapeLoop : List Byte → List Byte
  | [] => []
  | ch :: rest => escapeChar ch rest ++ escapeLoop rest

/-- Source `JsonDataBuilder::SerializeString`. -/
def JsonDataBuilder.SerializeString (value : List Byte) : List Byte :=
  [34] ++ escapeLoop value ++ [34]

/-- Source `JsonDataBuilder::Indentation(int size)`: `size` spaces. -/
def JsonDataBuilder.Indentation (size : Nat) : List Byte :=
  List.replicate size 32

/-- Source `JsonContext::kObject`. -/
def kObject : Bool := true

/-- Source `JsonContext::kArray`. -/
def kArray : Bool := false

/-- The state of a `JsonDataBuilder`: the nesting stack of its context (last element
on top) and `_currentNestingHadItem`. -/
structure JsonDataBuilder where
  nesting : List Bool
  _currentNestingHadItem : Bool
deriving DecidableEq, Repr

/-- The constructor: an empty context and `_currentNestingHadItem = false`. -/
def JsonDataBuilder.new : JsonDataBuilder := ⟨[], false⟩

/-- Source `JsonDataBuilder::pushNesting`: the state after the call and the text. -/
def JsonDataBuilder.pushNesting (self : JsonDataBuilder) (type : Bool) :
    JsonDataBuilder × List Byte :=
  (⟨self.nesting ++ [type], false⟩, if type = kObject then [123] else [91])

/-- Source `JsonDataBuilder::prepareObjectItemStart`. -/
def JsonDataBuilder.prepareObjectItemStart (self : JsonDataBuilder) (key : List Byte) :
    JsonDataBuilder × List Byte :=
  (⟨self.nesting, true⟩,
    (if self._currentNestingHadItem then [44, 10] else [10])
      ++ JsonDataBuilder.Indentation self.nesting.length
      ++ JsonDataBuilder.SerializeString key
      ++ [58, 32])

/-- Source `JsonDataBuilder::prepareArrayItemStart`. -/
def JsonDataBuilder.prepareArrayItemStart (self : JsonDataBuilder) :
    JsonDataBuilder × List Byte :=
  (⟨self.nesting, true⟩,
    (if self._currentNestingHadItem then [44, 10] else [10])
      ++ JsonDataBuilder.Indentation self.nesting.length)

/-- Source `JsonDataBuilder::popNesting`; `none` when `Expects` fails on an empty stack. -/
def JsonDataBuilder.popNesting (self : JsonDataBuilder) : Option (JsonDataBuilder × List Byte) :=
  match self.nesting.getLast? with
  | none => none
  | some type =>
    let nesting := self.nesting.dropLast
    some (⟨nesting, true⟩,
      [10] ++ JsonDataBuilder.Indentation nesting.length
        ++ (if type = kObject then [125] else [93]))

/-- Source `JsonDataBuilder::isContextNestingEmpty`. -/
def JsonDataBuilder.isContextNestingEmpty (self : JsonDataBuilder) : Bool :=
  self.nesting.isEmpty

/-- The body of the loop of the static `SerializeObject` for one pair, on the pair
`(first, result)`; `next` is the line break and indentation of an item. -/
def serializeObjectStep (next : List Byte) (state : Bool × List Byte)
    (pair : List Byte × List Byte) : Bool × List Byte :=
  if pair.2.isEmpty then state
  else
    let result := if state.1 then state.2 else state.2 ++ [44]
    (false, result ++ next ++ JsonDataBuilder.SerializeString pair.1 ++ [58, 32] ++ pair.2)

/-- Source static `JsonDataBuilder::SerializeObject(context, values)`: the nesting stack
of the context when it returns (the push undone by the guard) and the text. -/
def JsonDataBuilder.SerializeObject (nesting : List Bool)
    (values : List (List Byte × List Byte)) : List Bool × List Byte :=
  let indent := JsonDataBuilder.Indentation nesting.length
  let pushed := nesting ++ [kObject]
  let next := [10] ++ JsonDataBuilder.Indentation pushed.length
  let result := (values.foldl (serializeObjectStep next) (true, [123])).2
  (pushed.dropLast, result ++ [10] ++ indent ++ [125])

end Export.Output

/-! ### Base64 of `QByteArray` and the encryption-data writer -/

namespace Qt

/-- The Base64 alphabet: character of a 6-bit value. -/
def base64Char (n : Nat) : Byte :=
  if n < 26 then Fin.ofNat (65 + n)
  else if n < 52 then Fin.ofNat (97 + (n - 26))
  else if n < 62 then Fin.ofNat (48 + (n - 52))
  else if n = 62 then 43
  else 47

/-- Standard Base64 with padding, as `QByteArray::toBase64(QByteArray::Base64Encoding)`
produces it. -/
def toBase64 : List Byte → List Byte
  | [] => []
  | [a] => [base64Char (a.val / 4), base64Char (a.val % 4 * 16), 61, 61]
  | [a, b] =>
    [base64Char (a.val / 4), base64Char (a.val % 4 * 16 + b.val / 16),
      base64Char (b.val % 16 * 4), 61]
  | a :: b :: c :: rest =>
    [base64Char (a.val / 4), base64Char (a.val % 4 * 16 + b.val / 16),
      base64Char (b.val % 16 * 4 + c.val / 64), base64Char (c.val % 64)] ++ toBase64 rest

end Qt

namespace Export.Data

/-- The fields of `Export::Data::UserEncryptionData` that `writeDataToCache` reads. -/
structure UserEncryptionData where
  user_id : Int
  g : Int
  p : List Byte
  g_a : List Byte
  g_b : List Byte
  secretKey : List Byte
  encryptionKey : List Byte
  encryptionChatId : Int
  dhConfigVersion : Int
deriving DecidableEq, Repr

/-- Decimal digits of a natural number, as bytes. -/
def decimalDigits (n : Nat) : List Byte :=
  (Nat.toDigits 10 n).map (fun c => Fin.ofNat c.toNat)

/-- A decimal rendering of an integer for concrete evaluation, in the place of
`Data::NumberToString`. -/
def decimalString (value : Int) : List Byte :=
  if value < 0 then [45] ++ decimalDigits value.natAbs else decimalDigits value.natAbs

end Export.Data

namespace Export.Output

/-- The bytes of an ASCII literal of the source. -/
def ascii (s : String) : List Byte :=
  s.toList.map (fun c => Fin.ofNat c.toNat)

/-- The key and value pairs `writeDataToCache` passes to `SerializeObject` for one
record.  `toBase64` is `QByteArray::toBase64` and `NumberToString` is
`Data::NumberToString`. -/
def encryptionDataPairs (toBase64 : List Byte → List Byte) (NumberToString : Int → List Byte)
    (userItem : Data.UserEncryptionData) : List (List Byte × List Byte) :=
  [ (ascii "user_id", NumberToString userItem.user_id),
    (ascii "g", NumberToString userItem.g),
    (ascii "p", JsonDataBuilder.SerializeString (toBase64 userItem.p)),
    (ascii "g_a", JsonDataBuilder.SerializeString (toBase64 userItem.g_a)),
    (ascii "g_b", JsonDataBuilder.SerializeString (toBase64 userItem.g_b)),
    (ascii "secretKey", JsonDataBuilder.SerializeString (toBase64 userItem.secretKey)),
    (ascii "encryptionKey", JsonDataBuilder.SerializeString (toBase64 userItem.encryptionKey)),
    (ascii "encryptionChatId", NumberToString userItem.encryptionChatId),
    (ascii "dhConfigVersion", NumberToString userItem.dhConfigVersion) ]

/-- The body of the loop of `writeDataToCache` for one record, on the builder and the
block so far. -/
def writeDataStep (toBase64 : List Byte → List Byte) (NumberToString : Int → List Byte)
    (state : JsonDataBuilder × List Byte) (userItem : Data.UserEncryptionData) :
    JsonDataBuilder × List Byte :=
  let start := state.1.prepareArrayItemStart
  let object := JsonDataBuilder.SerializeObject start.1.nesting
    (encryptionDataPairs toBase64 NumberToString userItem)
  (⟨object.1, start.1._currentNestingHadItem⟩, state.2 ++ start.2 ++ object.2)

/-- Source `JsonEncryptionDataWriter::writeDataToCache`, on the writer's `_dataBuilder`:
the builder afterwards and the block handed to `writeBlock`; `none` when an `Expects`
or the closing `Assert` fails. -/
def JsonEncryptionDataWriter.writeDataToCache (toBase64 : List Byte → List Byte)
    (NumberToString : Int → List Byte) (_dataBuilder : JsonDataBuilder)
    (cacheData : List Data.UserEncryptionData) : Option (JsonDataBuilder × List Byte) :=
  let root := _dataBuilder.pushNesting kObject
  let item := root.1.prepareObjectItemStart (ascii "encData_list")
  let array := item.1.pushNesting kArray
  let filled := cacheData.foldl (writeDataStep toBase64 NumberToString)
    (array.1, root.2 ++ item.2 ++ array.2)
  match filled.1.popNesting with
  | none => none
  | some closedArray =>
    match closedArray.1.popNesting with
    | none => none
    | some closedRoot =>
      if closedRoot.1.isContextNestingEmpty then
        some (closedRoot.1, filled.2 ++ closedArray.2 ++ closedRoot.2)
      else none

end Export.Output

namespace Export.Sample

/-- A record with one-byte keys. -/
def record : Data.UserEncryptionData :=
  ⟨7, 5, [23], [8], [2], [6], [1], 42, 3⟩

/-- The same record with another `encryptionKey`. -/
def recordOtherKey : Data.UserEncryptionData :=
  { record with encryptionKey := [2] }

/-- The same record with another `secretKey`. -/
def recordOtherSecret : Data.UserEncryptionData :=
  { record with secretKey := [15] }

end Export.Sample

/-! ## `requestEncryption` and its transport replies -/

namespace DhExchangeKey

/-- The alternatives of `MTPEncryptedChat` (their fields are not read). -/
inductive MTPEncryptedChat where
  | encryptedChatEmpty
  | encryptedChatWaiting
  | encryptedChatRequested
  | encryptedChat
  | encryptedChatDiscarded
deriving DecidableEq, Repr

/-- What `requestEncryption` reads of an `RPCError`. -/
structure RPCError where
  type : String
  code : Int
deriving DecidableEq, Repr

/-- The answer of the transport to one request: `done` or `fail`. -/
inductive Reply where
  | done (result : MTPEncryptedChat)
  | fail (error : RPCError)
deriving DecidableEq, Repr

/-- One `MTPmessages_RequestEncryption` handed to the session: the random identifier
and the public value. -/
structure RequestEncryption where
  random_id : Int
  g_a : List Byte
deriving DecidableEq, Repr

/-- The arguments of one call `userData->setDataOfEncryptionChat(g_a, secretKey,
encryptionChatId)`. -/
structure EncryptionChatSetup where
  g_a : List Byte
  secretKey : List Byte
  encryptionChatId : Int
deriving DecidableEq, Repr

/-- What a run of `requestEncryption` does: the requests sent, in order, and the call
of `setDataOfEncryptionChat`, if one is made. -/
structure RequestTrace where
  sent : List RequestEncryption
  stored : Option EncryptionChatSetup
deriving DecidableEq, Repr

/-- The test of the `fail` handler: `error.type() == qstr("RANDOM_ID_DUPLICATE") &&
error.code() == 400`. -/
def isRandomIdDuplicate (error : RPCError) : Bool :=
  error.type == "RANDOM_ID_DUPLICATE" && error.code == 400

/-- Source `DHEncryptionKeyExchanger::requestEncryption`, run against the replies that
arrive, in order.  `getRandomNum n` is the value of the `n`-th call of `getRandomNum`
and `draw` the number of calls made before.  With no reply left the request stays
pending. -/
def requestEncryption (modExpFirst : MTP.ModExpFirst) (getRandomNum : Nat → Int) (draw : Nat) :
    List Reply → RequestTrace
  | [] => ⟨[⟨getRandomNum draw, modExpFirst.modexp⟩], none⟩
  | .done result :: _ =>
    match result with
    | .encryptedChatWaiting =>
      ⟨[⟨getRandomNum draw, modExpFirst.modexp⟩],
        some ⟨modExpFirst.modexp, modExpFirst.randomPower, getRandomNum draw⟩⟩
    | _ => ⟨[⟨getRandomNum draw, modExpFirst.modexp⟩], none⟩
  | .fail error :: replies =>
    if isRandomIdDuplicate error then
      let again := requestEncryption modExpFirst getRandomNum (draw + 1) replies
      ⟨⟨getRandomNum draw, modExpFirst.modexp⟩ :: again.sent, again.stored⟩
    else ⟨[⟨getRandomNum draw, modExpFirst.modexp⟩], none⟩

/-- The number of requests re-issued in a run: all the requests sent but the first. -/
def reissued (trace : RequestTrace) : Nat :=
  trace.sent.length - 1

/-- Source `DHEncryptionKeyExchanger::computeFingerprint` as the member function it is:
the object it is called on is not read. -/
def DHEncryptionKeyExchanger.computeFingerprint (_self : DHEncryptionKeyExchanger)
    (Sha1 : List Byte → Fin 20 → Byte) (encryptionKey : List Byte) : Option Nat :=
  DhExchangeKey.computeFingerprint Sha1 encryptionKey

end DhExchangeKey

namespace DhExchangeKey.Sample

/-- The duplicate-identifier failure. -/
def duplicate : Reply := .fail ⟨"RANDOM_ID_DUPLICATE", 400⟩

/-- A source of identifiers: the `n`-th draw is `1000 + n`. -/
def randomNum : Nat → Int := fun n => 1000 + n

/-- A first half of an exchange. -/
def modExpFirst : MTP.ModExpFirst := ⟨[8], exponent 6⟩

end DhExchangeKey.Sample

/-! ## Calls on a handler -/

namespace security

/-- A call of one of the two public member functions of a handler, with its inputs. -/
inductive HandlerCall where
  | encryptMessage (randomNum : Nat) (padding : Nat → Byte) (message : List Byte)
  | decryptMessage (heap : Nat → Byte) (message : List Byte)

/-- The handler after a call and the string the call returns.  Both member functions
are declared `const` and only read `_encryptionKey`. -/
def SecurityMessagesHandler.perform (E : Externals) (self : SecurityMessagesHandler)
    (call : HandlerCall) : SecurityMessagesHandler × List Byte :=
  match call with
  | .encryptMessage randomNum padding message =>
    (self, self.encryptMessage E randomNum padding message)
  | .decryptMessage heap message => (self, self.decryptMessage E heap message)

/-- The handler after a sequence of calls. -/
def SecurityMessagesHandler.performAll (E : Externals) (self : SecurityMessagesHandler)
    (calls : List HandlerCall) : SecurityMessagesHandler :=
  calls.foldl (fun h call => (h.perform E call).1) self

end security

/-! ## Tokens of a serialized string, and duplicate replies -/

namespace Export.Output

/-- An upper-case hexadecimal digit. -/
def isHexDigit (b : Byte) : Bool :=
  (decide (48 ≤ b.val) && decide (b.val ≤ 57)) || (decide (65 ≤ b.val) && decide (b.val ≤ 70))

/-- The tokens of the interior of a serialized string: one of the escapes `\n`, `\r`,
`\t`, `\"`, `\\`, `\xHH`, `\u2028`, `\u2029`, or a single byte that is not a double
quote, not a backslash and not below 32. -/
def isToken (t : List Byte) : Bool :=
  t == [92, 110] || t == [92, 114] || t == [92, 116] || t == [92, 34] || t == [92, 92]
    || t == [92, 117, 50, 48, 50, 56] || t == [92, 117, 50, 48, 50, 57]
    || (match t with
        | [a, x, h1, h2] => a == 92 && x == 120 && isHexDigit h1 && isHexDigit h2
        | [b] => b != 34 && b != 92 && decide (32 ≤ b.val)
        | _ => false)

/-- The tokens the loop of `SerializeString` appends, one per input byte. -/
def escapeTokens : List Byte → List (List Byte)
  | [] => []
  | ch :: rest => escapeChar ch rest :: escapeTokens rest

/-- The value of a hexadecimal digit. -/
def hexValue (b : Byte) : Nat :=
  if b.val ≤ 57 then b.val - 48 else b.val - 55

/-- Reading one token back: the input byte it stands for and the text after it. -/
def decodeToken (out : List Byte) : Option (Byte × List Byte) :=
  match out with
  | [] => none
  | b :: rest =>
    if b = 92 then
      match rest with
      | [] => none
      | c :: rest1 =>
        if c = 110 then some (10, rest1)
        else if c = 114 then some (13, rest1)
        else if c = 116 then some (9, rest1)
        else if c = 34 then some (34, rest1)
        else if c = 92 then some (92, rest1)
        else if c = 120 then
          match rest1 with
          | h1 :: h2 :: rest2 => some (Fin.ofNat (16 * hexValue h1 + hexValue h2), rest2)
          | _ => none
        else if c = 117 then
          match rest1 with
          | _ :: _ :: _ :: _ :: rest2 => some (0xE2, rest2)
          | _ => none
        else none
    else some (b, rest)

end Export.Output

namespace DhExchangeKey

/-- A reply is the duplicate-identifier failure. -/
def Reply.isDuplicate : Reply → Bool
  | .fail error => isRandomIdDuplicate error
  | .done _ => false

end DhExchangeKey

/-! ## The texts of the serializers, as described -/

namespace Export.Output

/-- The item described for one pair at depth `d`: a newline, `d + 1` spaces, the
serialized key, a colon and a space, and the value. -/
def objectItem (d : Nat) (pair : List Byte × List Byte) : List Byte :=
  [10] ++ List.replicate (d + 1) 32 ++ JsonDataBuilder.SerializeString pair.1 ++ [58, 32] ++ pair.2

/-- The object described for a list of pairs at depth `d`: an opening brace, the items
of the pairs with a non-empty value, in input order and separated by commas, a newline,
`d` spaces and a closing brace. -/
def objectText (d : Nat) (values : List (List Byte × List Byte)) : List Byte :=
  [123] ++ (List.intersperse [44]
      ((values.filter (fun pair => !pair.2.isEmpty)).map (objectItem d))).flatten
    ++ [10] ++ List.replicate d 32 ++ [125]

/-- The object described for one record of the cache: all nine pairs, none left out, at
depth 2. -/
def recordObject (toBase64 : List Byte → List Byte) (NumberToString : Int → List Byte)
    (userItem : Data.UserEncryptionData) : List Byte :=
  [123] ++ (List.intersperse [44]
      ((encryptionDataPairs toBase64 NumberToString userItem).map (objectItem 2))).flatten
    ++ [10] ++ List.replicate 2 32 ++ [125]

/-- The block described for the cache: a root object whose single key `encData_list`
holds an array with one object per record, in input order. -/
def cacheBlock (toBase64 : List Byte → List Byte) (NumberToString : Int → List Byte)
    (cacheData : List Data.UserEncryptionData) : List Byte :=
  [123] ++ [10] ++ List.replicate 1 32 ++ JsonDataBuilder.SerializeString (ascii "encData_list")
    ++ [58, 32] ++ [91]
    ++ (List.intersperse [44]
        (cacheData.map (fun userItem =>
          [10] ++ List.replicate 2 32 ++ recordObject toBase64 NumberToString userItem))).flatten
    ++ [10] ++ List.replicate 1 32 ++ [93]
    ++ [10] ++ [125]

end Export.Output

/-! ## Sequences of calls on a `JsonDataBuilder` -/

namespace Export.Output

/-- A call of one of the four member functions of `JsonDataBuilder` that write the
structure of the document. -/
inductive BuilderCall where
  | pushNesting (type : Bool)
  | prepareObjectItemStart (key : List Byte)
  | prepareArrayItemStart
  | popNesting
deriving DecidableEq, Repr

/-- The builder after a call and the text the call returns; `none` when the `Expects`
of `popNesting` fails. -/
def JsonDataBuilder.call (self : JsonDataBuilder) :
    BuilderCall → Option (JsonDataBuilder × List Byte)
  | .pushNesting type => some (self.pushNesting type)
  | .prepareObjectItemStart key => some (self.prepareObjectItemStart key)
  | .prepareArrayItemStart => some self.prepareArrayItemStart
  | .popNesting => self.popNesting

/-- The texts returned by a sequence of calls, in order; `none` when an `Expects`
fails on the way. -/
def JsonDataBuilder.run (self : JsonDataBuilder) : List BuilderCall → Option (List (List Byte))
  | [] => some []
  | call :: rest =>
    match self.call call with
    | none => none
    | some next =>
      match next.1.run rest with
      | none => none
      | some texts => some (next.2 :: texts)

/-- A container that is open, as the claim counts: its type and the number of children
introduced in it so far. -/
structure OpenContainer where
  type : Bool
  children : Nat
deriving DecidableEq, Repr

/-- The open containers after a call, innermost first: `pushNesting` opens a container
with no child, a `prepare` call introduces one more child of the innermost container,
`popNesting` closes the innermost container. -/
def trackCall (containers : List OpenContainer) : BuilderCall → List OpenContainer
  | .pushNesting type => ⟨type, 0⟩ :: containers
  | .popNesting => containers.tail
  | _ =>
    match containers with
    | [] => []
    | inner :: outer => ⟨inner.type, inner.children + 1⟩ :: outer

/-- The call keeps the discipline of the claim: a container opened inside another one
is a child of it and comes right after the `prepare` call that introduces it
(`introduced`); items are prepared, and containers closed, only inside a container. -/
def allowedCall (containers : List OpenContainer) (introduced : Bool) : BuilderCall → Bool
  | .pushNesting _ => containers.isEmpty || introduced
  | _ => !containers.isEmpty

/-- Whether a call introduces a child. -/
def introducesChild : BuilderCall → Bool
  | .prepareObjectItemStart _ => true
  | .prepareArrayItemStart => true
  | _ => false

/-- The discipline of the claim along a sequence of calls. -/
def disciplined (containers : List OpenContainer) (introduced : Bool) : List BuilderCall → Bool
  | [] => true
  | call :: rest =>
    allowedCall containers introduced call
      && disciplined (trackCall containers call) (introducesChild call) rest

/-- The separator the claim describes before an item of the innermost container: a comma
exactly when the item is not the first child, then a newline and one space for each open
container. -/
def itemSeparator (containers : List OpenContainer) : List Byte :=
  let comma : List Byte :=
    match containers with
    | [] => []
    | inner :: _ => if inner.children = 0 then [] else [44]
  comma ++ [10] ++ List.replicate containers.length 32

/-- The text the claim describes for a call. -/
def expectedText (containers : List OpenContainer) : BuilderCall → List Byte
  | .pushNesting type => if type = kObject then [123] else [91]
  | .prepareObjectItemStart key =>
    itemSeparator containers ++ JsonDataBuilder.SerializeString key ++ [58, 32]
  | .prepareArrayItemStart => itemSeparator containers
  | .popNesting =>
    match containers with
    | [] => []
    | inner :: outer =>
      [10] ++ List.replicate outer.length 32 ++ (if inner.type = kObject then [125] else [93])

/-- The texts the claim describes for a sequence of calls. -/
def expectedTexts (containers : List OpenContainer) : List BuilderCall → List (List Byte)
  | [] => []
  | call :: rest => expectedText containers call :: expectedTexts (trackCall containers call) rest

/-- The builder agrees with the open containers: the nesting stack lists their types,
every container that holds an open container has a child, and inside a container
`_currentNestingHadItem` says whether the innermost container has a child. -/
def Tracks (self : JsonDataBuilder) (containers : List OpenContainer) (introduced : Bool) :
    Prop :=
  self.nesting = (containers.map (fun c => c.type)).reverse ∧
  (∀ c ∈ containers.tail, 0 < c.children) ∧
  (∀ c, containers.head? = some c →
    (self._currentNestingHadItem = true ↔ 0 < c.children) ∧
    (introduced = true → 0 < c.children))

end Export.Output

/-! ## `Export::Output::JsonWriter`: the lists of dialogs -/

namespace Export.Output

/-- Source `enum class DialogsMode` of `JsonWriter`. -/
inductive DialogsMode where
  | None
  | Chats
  | Left
deriving DecidableEq, Repr

/-- The texts of `Environment` that the modelled member functions read. -/
structure Environment where
  aboutTelegram : List Byte
  aboutChats : List Byte
  aboutLeftChats : List Byte
deriving DecidableEq, Repr

/-- The outcome `Result` of a member function of the writer: `Result::Success()` or an
error of the file. -/
inductive Result where
  | success
  | error
deriving DecidableEq, Repr

/-- The state of a `JsonWriter`: `_environment`, `_dataBuilder`, `_dialogsMode`, and
`_output`, which is `none` for `nullptr` and otherwise the blocks handed to
`File::writeBlock` so far. -/
structure JsonWriter where
  _environment : Environment
  _dataBuilder : JsonDataBuilder
  _dialogsMode : DialogsMode
  _output : Option (List (List Byte))
deriving DecidableEq, Repr

/-- A writer as constructed: no file, `_dialogsMode = DialogsMode::None`. -/
def JsonWriter.new : JsonWriter :=
  ⟨⟨[], [], []⟩, JsonDataBuilder.new, DialogsMode.None, none⟩

/-- Source `_output->writeBlock(block)`.  `fileWrite blocks block` is the outcome of
`File::writeBlock` for `block` on a file that was handed `blocks` before. -/
def JsonWriter.writeBlock (fileWrite : List (List Byte) → List Byte → Result)
    (self : JsonWriter) (block : List Byte) : Option (JsonWriter × Result) :=
  match self._output with
  | none => none
  | some blocks => some ({ self with _output := some (blocks ++ [block]) }, fileWrite blocks block)

/-- Source `JsonWriter::start`, with `path` for `settings.path`; `none` when an
`Expects` fails. -/
def JsonWriter.start (fileWrite : List (List Byte) → List Byte → Result) (self : JsonWriter)
    (path : List Char) (environment : Environment) : Option (JsonWriter × Result) :=
  if self._output.isSome then none
  else if path.getLast? ≠ some '/' then none
  else
    let root := self._dataBuilder.pushNesting kObject
    let about := root.1.prepareObjectItemStart (ascii "about")
    let block := root.2 ++ about.2 ++ JsonDataBuilder.SerializeString environment.aboutTelegram
    JsonWriter.writeBlock fileWrite
      { self with _environment := environment, _output := some [], _dataBuilder := about.1 } block

/-- Source `JsonWriter::writeDialogsStart`. -/
def JsonWriter.writeDialogsStart (self : JsonWriter) : Option (JsonWriter × Result) :=
  some (self, Result.success)

/-- Source `JsonWriter::writeChatsStart`. -/
def JsonWriter.writeChatsStart (fileWrite : List (List Byte) → List Byte → Result)
    (self : JsonWriter) (listName about : List Byte) : Option (JsonWriter × Result) :=
  if self._output.isNone then none
  else
    let name := self._dataBuilder.prepareObjectItemStart listName
    let object := name.1.pushNesting kObject
    let aboutItem := object.1.prepareObjectItemStart (ascii "about")
    let list := aboutItem.1.prepareObjectItemStart (ascii "list")
    let array := list.1.pushNesting kArray
    JsonWriter.writeBlock fileWrite { self with _dataBuilder := array.1 }
      (name.2 ++ object.2 ++ aboutItem.2 ++ JsonDataBuilder.SerializeString about ++ list.2
        ++ array.2)

/-- Source `JsonWriter::writeChatsEnd`: two calls of `popNesting`. -/
def JsonWriter.writeChatsEnd (fileWrite : List (List Byte) → List Byte → Result)
    (self : JsonWriter) : Option (JsonWriter × Result) :=
  if self._output.isNone then none
  else
    match self._dataBuilder.popNesting with
    | none => none
    | some first =>
      match first.1.popNesting with
      | none => none
      | some second =>
        JsonWriter.writeBlock fileWrite { self with _dataBuilder := second.1 }
          (first.2 ++ second.2)

/-- Source `JsonWriter::validateDialogsMode`. -/
def JsonWriter.validateDialogsMode (fileWrite : List (List Byte) → List Byte → Result)
    (self : JsonWriter) (isLeftChannel : Bool) : Option (JsonWriter × Result) :=
  let mode := if isLeftChannel then DialogsMode.Left else DialogsMode.Chats
  let start := fun (writer : JsonWriter) =>
    JsonWriter.writeChatsStart fileWrite { writer with _dialogsMode := mode }
      (if isLeftChannel then ascii "left_chats" else ascii "chats")
      (if isLeftChannel then writer._environment.aboutLeftChats
        else writer._environment.aboutChats)
  if self._dialogsMode = mode then some (self, Result.success)
  else if self._dialogsMode ≠ DialogsMode.None then
    match self.writeChatsEnd fileWrite with
    | none => none
    | some closed => if closed.2 = Result.error then some closed else start closed.1
  else start self

/-- Source `Data::DialogInfo::Type`. -/
inductive DialogType where
  | Unknown
  | Self
  | Personal
  | Bot
  | PrivateGroup
  | PrivateSupergroup
  | PublicSupergroup
  | PrivateChannel
  | PublicChannel
deriving DecidableEq, Repr

/-- The fields of `Data::DialogInfo` that `writeDialogStart` reads. -/
structure DialogInfo where
  type : DialogType
  name : List Byte
  peerId : Int
  isLeftChannel : Bool
deriving DecidableEq, Repr

/-- Source `StringAllowNull`. -/
def StringAllowNull (data : List Byte) : List Byte :=
  if data.isEmpty then ascii "null" else JsonDataBuilder.SerializeString data

/-- Source `StringAllowEmpty`. -/
def StringAllowEmpty (data : List Byte) : List Byte :=
  if data.isEmpty then data else JsonDataBuilder.SerializeString data

/-- The lambda `TypeString` of `writeDialogStart`. -/
def DialogType.TypeString : DialogType → List Byte
  | .Unknown => []
  | .Self => ascii "saved_messages"
  | .Personal => ascii "personal_chat"
  | .Bot => ascii "bot_chat"
  | .PrivateGroup => ascii "private_group"
  | .PrivateSupergroup => ascii "private_supergroup"
  | .PublicSupergroup => ascii "public_supergroup"
  | .PrivateChannel => ascii "private_channel"
  | .PublicChannel => ascii "public_channel"

/-- Source `JsonWriter::writeDialogStart`; `NumberToString` is `Data::NumberToString`. -/
def JsonWriter.writeDialogStart (fileWrite : List (List Byte) → List Byte → Result)
    (NumberToString : Int → List Byte) (self : JsonWriter) (data : DialogInfo) :
    Option (JsonWriter × Result) :=
  if self._output.isNone then none
  else
    match self.validateDialogsMode fileWrite data.isLeftChannel with
    | none => none
    | some validated =>
      if validated.2 = Result.error then some validated
      else
        let item := validated.1._dataBuilder.prepareArrayItemStart
        let object := item.1.pushNesting kObject
        let name :=
          if data.type ≠ DialogType.Self then
            let start := object.1.prepareObjectItemStart (ascii "name")
            (start.1, start.2 ++ StringAllowNull data.name)
          else (object.1, [])
        let type := name.1.prepareObjectItemStart (ascii "type")
        let id := type.1.prepareObjectItemStart (ascii "id")
        let messages := id.1.prepareObjectItemStart (ascii "messages")
        let array := messages.1.pushNesting kArray
        JsonWriter.writeBlock fileWrite { validated.1 with _dataBuilder := array.1 }
          (item.2 ++ object.2 ++ name.2 ++ (type.2 ++ StringAllowNull data.type.TypeString)
            ++ (id.2 ++ NumberToString data.peerId) ++ messages.2 ++ array.2)

/-- Source `JsonWriter::writeDialogEnd`: two calls of `popNesting`. -/
def JsonWriter.writeDialogEnd (fileWrite : List (List Byte) → List Byte → Result)
    (self : JsonWriter) : Option (JsonWriter × Result) :=
  if self._output.isNone then none
  else
    match self._dataBuilder.popNesting with
    | none => none
    | some first =>
      match first.1.popNesting with
      | none => none
      | some second =>
        JsonWriter.writeBlock fileWrite { self with _dataBuilder := second.1 }
          (first.2 ++ second.2)

/-- Source `JsonWriter::writeDialogsEnd`: `return writeChatsEnd();`. -/
def JsonWriter.writeDialogsEnd (fileWrite : List (List Byte) → List Byte → Result)
    (self : JsonWriter) : Option (JsonWriter × Result) :=
  self.writeChatsEnd fileWrite

/-- Source `JsonWriter::finish`; `none` when the `Expects` of `popNesting` or the
`Assert` fails. -/
def JsonWriter.finish (fileWrite : List (List Byte) → List Byte → Result)
    (self : JsonWriter) : Option (JsonWriter × Result) :=
  if self._output.isNone then none
  else
    match self._dataBuilder.popNesting with
    | none => none
    | some closed =>
      if closed.1.isContextNestingEmpty then
        JsonWriter.writeBlock fileWrite { self with _dataBuilder := closed.1 } closed.2
      else none


/-- The state between two dialogs that the claim describes: with no list open the
nesting is the root object, with a list open it is the root object, the list object and
the list array. -/
def JsonWriter.ListsConsistent (self : JsonWriter) : Prop :=
  (self._dialogsMode = DialogsMode.None ∧ self._dataBuilder.nesting = [kObject]) ∨
  (self._dialogsMode ≠ DialogsMode.None ∧
    self._dataBuilder.nesting = [kObject, kObject, kArray])

/-- The text that opens a list of dialogs under the root object: the key of the list,
an object, its `about` text and the key `list` with an array; `had` says whether the
root object has an item already. -/
def listOpening (had : Bool) (listName about : List Byte) : List Byte :=
  (if had then [44, 10] else [10]) ++ List.replicate 1 32
    ++ JsonDataBuilder.SerializeString listName ++ [58, 32] ++ [123]
    ++ [10] ++ List.replicate 2 32 ++ JsonDataBuilder.SerializeString (ascii "about") ++ [58, 32]
    ++ JsonDataBuilder.SerializeString about
    ++ [44, 10] ++ List.replicate 2 32 ++ JsonDataBuilder.SerializeString (ascii "list")
    ++ [58, 32] ++ [91]

/-- The text that closes a list of dialogs: the end of the array and of the object. -/
def listClosing : List Byte :=
  [10] ++ List.replicate 2 32 ++ [93] ++ [10] ++ List.replicate 1 32 ++ [125]

end Export.Output

namespace Export.Sample

/-- A file on which every write succeeds. -/
def fileWrite : List (List Byte) → List Byte → Output.Result := fun _ _ => Output.Result.success

/-- A file on which every write fails. -/
def fileFails : List (List Byte) → List Byte → Output.Result := fun _ _ => Output.Result.error

/-- An environment. -/
def environment : Output.Environment :=
  ⟨Output.ascii "About", Output.ascii "Chats", Output.ascii "Left chats"⟩

/-- A dialog with one user. -/
def dialog : Output.DialogInfo := ⟨Output.DialogType.Personal, Output.ascii "Ann", 7, false⟩

/-- A writer between two dialogs of the list `chats`. -/
def writerInChats : Output.JsonWriter :=
  ⟨environment, ⟨[Output.kObject, Output.kObject, Output.kArray], true⟩,
    Output.DialogsMode.Chats, some []⟩

end Export.Sample

/-! ## `SerializeText` and `SerializeMessage` -/

namespace Export.Data

/-- Source `Data::TextPart::Type`. -/
inductive TextPartType where
  | Text
  | Unknown
  | Mention
  | Hashtag
  | BotCommand
  | Url
  | Email
  | Bold
  | Italic
  | Code
  | Pre
  | TextUrl
  | MentionName
  | Phone
  | Cashtag
  | Underline
  | Strike
  | Blockquote
deriving DecidableEq, Repr

/-- Source `Data::TextPart`. -/
structure TextPart where
  type : TextPartType
  text : List Byte
  additional : List Byte
deriving DecidableEq, Repr

/-- Source `Data::File::SkipReason`. -/
inductive SkipReason where
  | None
  | Unavailable
  | FileSize
  | FileType
deriving DecidableEq, Repr

/-- The fields of `Data::File` that the serializers read; `relativePath` is the UTF-8
text of the path. -/
structure File where
  relativePath : List Byte
  skipReason : SkipReason
  content : List Byte
deriving DecidableEq, Repr

/-- The fields of `Data::Image` that the serializers read. -/
structure Image where
  file : File
  width : Int
  height : Int
deriving DecidableEq, Repr

/-- The fields of `Data::Document` that `SerializeMessage` reads. -/
structure Document where
  file : File
  thumb : Image
  isSticker : Bool
  stickerEmoji : List Byte
  isVideoMessage : Bool
  isVoiceMessage : Bool
  isAnimated : Bool
  isVideoFile : Bool
  isAudioFile : Bool
  songPerformer : List Byte
  songTitle : List Byte
  mime : List Byte
  duration : Int
  width : Int
  height : Int
deriving DecidableEq, Repr

/-- The fields of `Data::ContactInfo` that `SerializeMessage` reads. -/
structure ContactInfo where
  firstName : List Byte
  lastName : List Byte
  phoneNumber : List Byte
deriving DecidableEq, Repr

/-- Source `Data::SharedContact`. -/
structure SharedContact where
  info : ContactInfo
  vcard : File
deriving DecidableEq, Repr

/-- A `double`, kept as the value it is printed from. -/
structure Double where
  bits : Nat
deriving DecidableEq, Repr

/-- Source `Data::GeoPoint`. -/
structure GeoPoint where
  latitude : Double
  longitude : Double
  valid : Bool
deriving DecidableEq, Repr

/-- Source `Data::Venue`. -/
structure Venue where
  point : GeoPoint
  title : List Byte
  address : List Byte
deriving DecidableEq, Repr

/-- The fields of `Data::Game` that `SerializeMessage` reads. -/
structure Game where
  title : List Byte
  description : List Byte
  botId : Int
  shortName : List Byte
deriving DecidableEq, Repr

/-- The fields of `Data::Invoice` that `SerializeMessage` reads. -/
structure Invoice where
  title : List Byte
  description : List Byte
  amount : Int
  currency : List Byte
  receiptMsgId : Int
deriving DecidableEq, Repr

/-- Source `Data::Poll::Answer`. -/
structure PollAnswer where
  text : List Byte
  votes : Int
  my : Bool
deriving DecidableEq, Repr

/-- The fields of `Data::Poll` that `SerializeMessage` reads. -/
structure Poll where
  question : List Byte
  answers : List PollAnswer
  totalVotes : Int
  closed : Bool
deriving DecidableEq, Repr

/-- The alternatives of `message.media.content`; `std::nullopt` is `none` of the option
in `Media`. -/
inductive MediaContent where
  | Photo (image : Image)
  | Document (data : Document)
  | SharedContact (data : SharedContact)
  | GeoPoint (data : GeoPoint)
  | Venue (data : Venue)
  | Game (data : Game)
  | Invoice (data : Invoice)
  | Poll (data : Poll)
  | UnsupportedMedia
deriving DecidableEq, Repr

/-- Source `Data::Media`: the content and `ttl`. -/
structure Media where
  content : Option MediaContent
  ttl : Int
deriving DecidableEq, Repr

/-- Source `ActionPhoneCall::DiscardReason`; `Unknown` is a value outside the four
cases of the `switch`. -/
inductive DiscardReason where
  | Unknown
  | Missed
  | Disconnect
  | Hangup
  | Busy
deriving DecidableEq, Repr

/-- Source `ActionSecureValuesSent::Type`. -/
inductive SecureValueType where
  | PersonalDetails
  | Passport
  | DriverLicense
  | IdentityCard
  | InternalPassport
  | Address
  | UtilityBill
  | BankStatement
  | RentalAgreement
  | PassportRegistration
  | TemporaryRegistration
  | Phone
  | Email
deriving DecidableEq, Repr

/-- The alternatives of `message.action.content` with the fields `SerializeMessage`
reads; `std::nullopt` is `none` of the option in `Message`. -/
inductive ServiceAction where
  | ActionChatCreate (title : List Byte) (userIds : List Int)
  | ActionChatEditTitle (title : List Byte)
  | ActionChatEditPhoto (image : Image)
  | ActionChatDeletePhoto
  | ActionChatAddUser (userIds : List Int)
  | ActionChatDeleteUser (userId : Int)
  | ActionChatJoinedByLink (inviterId : Int)
  | ActionChannelCreate (title : List Byte)
  | ActionChatMigrateTo
  | ActionChannelMigrateFrom (title : List Byte)
  | ActionPinMessage
  | ActionHistoryClear
  | ActionGameScore (score : Int)
  | ActionPaymentSent (amount : Int) (currency : List Byte)
  | ActionPhoneCall (duration : Int) (discardReason : DiscardReason)
  | ActionScreenshotTaken
  | ActionCustomAction (message : List Byte)
  | ActionBotAllowed (domain : List Byte)
  | ActionSecureValuesSent (types : List SecureValueType)
  | ActionContactSignUp
  | ActionPhoneNumberRequest
deriving DecidableEq, Repr

/-- The fields of `Data::Message` that `SerializeMessage` reads. -/
structure Message where
  id : Int
  date : Int
  edited : Int
  fromId : Int
  forwardedFromId : Int
  forwardedFromName : List Byte
  savedFromChatId : Int
  signature : List Byte
  viaBotId : Int
  replyToMsgId : Int
  action : Option ServiceAction
  media : Media
  text : List TextPart
deriving DecidableEq, Repr

end Export.Data

namespace Export.Output

/-- The code outside the repository sources that `SerializeMessage` calls:
`Data::NumberToString` on integers and on `double`, the ISO text of a date
(`QDateTime::fromTime_t(date).toString(Qt::ISODate).toUtf8()`), and
`Data::FormatPhoneNumber`. -/
structure Formats where
  NumberToString : Int → List Byte
  NumberToStringDouble : Data.Double → List Byte
  isoDate : Int → List Byte
  FormatPhoneNumber : List Byte → List Byte

/-- What `SerializeMessage` reads of the map `peers` through its lambdas `peer` and
`user`: `peer(peerId).name()`, `user(userId).name()`, `user(userId).isBot` and
`user(userId).username`. -/
structure Peers where
  peerName : Int → List Byte
  userName : Int → List Byte
  userIsBot : Int → Bool
  userUsername : Int → List Byte

/-- Source `JsonDataBuilder::SerializeDate`. -/
def JsonDataBuilder.SerializeDate (E : Formats) (date : Int) : List Byte :=
  JsonDataBuilder.SerializeString (E.isoDate date)

/-- The body of the loop of the static `SerializeArray` for one value, on the pair
`(first, result)`. -/
def serializeArrayStep (next : List Byte) (state : Bool × List Byte) (value : List Byte) :
    Bool × List Byte :=
  let result := if state.1 then state.2 else state.2 ++ [44]
  (false, result ++ next ++ value)

/-- Source static `JsonDataBuilder::SerializeArray(context, values)`: the nesting stack
of the context when it returns and the text. -/
def JsonDataBuilder.SerializeArray (nesting : List Bool) (values : List (List Byte)) :
    List Bool × List Byte :=
  let indent := JsonDataBuilder.Indentation nesting.length
  let next := [10] ++ JsonDataBuilder.Indentation (nesting.length + 1)
  let result := (values.foldl (serializeArrayStep next) (true, [91])).2
  (nesting, result ++ [10] ++ indent ++ [93])

/-- The lambda `typeString` of `SerializeText`. -/
def typeString : Data.TextPartType → List Byte
  | .Text => []
  | .Unknown => ascii "unknown"
  | .Mention => ascii "mention"
  | .Hashtag => ascii "hashtag"
  | .BotCommand => ascii "bot_command"
  | .Url => ascii "link"
  | .Email => ascii "email"
  | .Bold => ascii "bold"
  | .Italic => ascii "italic"
  | .Code => ascii "code"
  | .Pre => ascii "pre"
  | .TextUrl => ascii "text_link"
  | .MentionName => ascii "mention_name"
  | .Phone => ascii "phone"
  | .Cashtag => ascii "cashtag"
  | .Underline => ascii "underline"
  | .Strike => ascii "strikethrough"
  | .Blockquote => ascii "blockquote"

/-- The transformation of one part in `SerializeText`, on the nesting stack and the
texts so far. -/
def serializeTextStep (state : List Bool × List (List Byte)) (part : Data.TextPart) :
    List Bool × List (List Byte) :=
  if part.type = Data.TextPartType.Text then
    (state.1, state.2 ++ [JsonDataBuilder.SerializeString part.text])
  else
    let additionalName :=
      if part.type = Data.TextPartType.MentionName then ascii "user_id"
      else if part.type = Data.TextPartType.Pre then ascii "language"
      else if part.type = Data.TextPartType.TextUrl then ascii "href"
      else ascii "none"
    let additionalValue :=
      if part.type = Data.TextPartType.MentionName then part.additional
      else if part.type = Data.TextPartType.Pre ∨ part.type = Data.TextPartType.TextUrl then
        JsonDataBuilder.SerializeString part.additional
      else []
    let object := JsonDataBuilder.SerializeObject state.1
      [ (ascii "type", JsonDataBuilder.SerializeString (typeString part.type)),
        (ascii "text", JsonDataBuilder.SerializeString part.text),
        (additionalName, additionalValue) ]
    (object.1, state.2 ++ [object.2])

/-- Source `SerializeText(context, data)`: the nesting stack of the context when it
returns and the text. -/
def SerializeText (nesting : List Bool) (data : List Data.TextPart) : List Bool × List Byte :=
  if data.isEmpty then (nesting, JsonDataBuilder.SerializeString [])
  else
    let pushed := nesting ++ [kArray]
    let text := data.foldl serializeTextStep (pushed, [])
    let popped := text.1.dropLast
    match data, text.2 with
    | [part], first :: _ =>
      if part.type = Data.TextPartType.Text then (popped, first)
      else JsonDataBuilder.SerializeArray popped text.2
    | _, _ => JsonDataBuilder.SerializeArray popped text.2

/-- Source `FormatUsername`. -/
def FormatUsername (username : List Byte) : List Byte :=
  if username.isEmpty then username else [64] ++ username

/-- Source `FormatFilePath`. -/
def FormatFilePath (file : Data.File) : List Byte :=
  file.relativePath

/-- The lambda `pushBare` of `SerializeMessage`: the pairs it appends to `values`. -/
def pushBare (key value : List Byte) : List (List Byte × List Byte) :=
  if !value.isEmpty then [(key, value)] else []

/-- The lambda `push` of `SerializeMessage` on an arithmetic value. -/
def pushNumber (E : Formats) (key : List Byte) (value : Int) : List (List Byte × List Byte) :=
  pushBare key (E.NumberToString value)

/-- The lambda `push` of `SerializeMessage` on a byte string. -/
def push (key value : List Byte) : List (List Byte × List Byte) :=
  if !value.isEmpty then pushBare key (JsonDataBuilder.SerializeString value) else []

/-- The lambda `wrapPeerName`. -/
def wrapPeerName (peers : Peers) (peerId : Int) : List Byte :=
  StringAllowNull (peers.peerName peerId)

/-- The lambda `wrapUserName`. -/
def wrapUserName (peers : Peers) (userId : Int) : List Byte :=
  StringAllowNull (peers.userName userId)

/-- The lambda `pushFrom`. -/
def pushFrom (E : Formats) (peers : Peers) (message : Data.Message) (label : List Byte) :
    List (List Byte × List Byte) :=
  if message.fromId ≠ 0 then
    pushBare label (wrapUserName peers message.fromId)
      ++ pushBare (label ++ ascii "_id") (E.NumberToString message.fromId)
  else []

/-- The lambda `pushReplyToMsgId`. -/
def pushReplyToMsgId (E : Formats) (message : Data.Message) (label : List Byte) :
    List (List Byte × List Byte) :=
  if message.replyToMsgId ≠ 0 then pushNumber E label message.replyToMsgId else []

/-- The lambda `pushUserNames`: the nesting stack after the call of `SerializeArray`
and the pairs appended. -/
def pushUserNames (peers : Peers) (nesting : List Bool) (data : List Int) (label : List Byte) :
    List Bool × List (List Byte × List Byte) :=
  let list := data.map (wrapUserName peers)
  let array := JsonDataBuilder.SerializeArray nesting list
  (array.1, pushBare label array.2)

/-- The lambda `pushActor`. -/
def pushActor (E : Formats) (peers : Peers) (message : Data.Message) :
    List (List Byte × List Byte) :=
  pushFrom E peers message (ascii "actor")

/-- The lambda `pushAction`. -/
def pushAction (action : List Byte) : List (List Byte × List Byte) :=
  push (ascii "action") action

/-- The lambda `pushTTL`. -/
def pushTTL (E : Formats) (message : Data.Message) (label : List Byte) :
    List (List Byte × List Byte) :=
  if message.media.ttl ≠ 0 then pushNumber E label message.media.ttl else []

/-- The lambda `pushPath`; `none` when its `Expects` fails. -/
def pushPath (file : Data.File) (label name : List Byte) :
    Option (List (List Byte × List Byte)) :=
  if !file.relativePath.isEmpty || file.skipReason ≠ Data.SkipReason.None then
    let pre := if name.isEmpty then [] else name ++ [32]
    some (push label
      (match file.skipReason with
        | .Unavailable => pre ++ ascii "(File unavailable, please try again later)"
        | .FileSize =>
          pre ++ ascii "(File exceeds maximum size. Change data exporting settings to download.)"
        | .FileType =>
          pre ++ ascii "(File not included. Change data exporting settings to download.)"
        | .None => FormatFilePath file))
  else none

/-- The lambda `pushPhoto`; `none` when the `Expects` of `pushPath` fails. -/
def pushPhoto (E : Formats) (image : Data.Image) : Option (List (List Byte × List Byte)) :=
  match pushPath image.file (ascii "photo") [] with
  | none => none
  | some path =>
    some (path ++
      (if image.width ≠ 0 ∧ image.height ≠ 0 then
        pushNumber E (ascii "width") image.width ++ pushNumber E (ascii "height") image.height
      else []))

/-- The text of a discard reason in the branch of `ActionPhoneCall`. -/
def discardReasonText : Data.DiscardReason → List Byte
  | .Busy => ascii "busy"
  | .Disconnect => ascii "disconnect"
  | .Hangup => ascii "hangup"
  | .Missed => ascii "missed"
  | .Unknown => []

/-- The text of a secure value type in the branch of `ActionSecureValuesSent`. -/
def secureValueText : Data.SecureValueType → List Byte
  | .PersonalDetails => ascii "personal_details"
  | .Passport => ascii "passport"
  | .DriverLicense => ascii "driver_license"
  | .IdentityCard => ascii "identity_card"
  | .InternalPassport => ascii "internal_passport"
  | .Address => ascii "address_information"
  | .UtilityBill => ascii "utility_bill"
  | .BankStatement => ascii "bank_statement"
  | .RentalAgreement => ascii "rental_agreement"
  | .PassportRegistration => ascii "passport_registration"
  | .TemporaryRegistration => ascii "temporary_registration"
  | .Phone => ascii "phone_number"
  | .Email => ascii "email"

/-- The visitor of `message.action.content` in `SerializeMessage`: the nesting stack
afterwards and the pairs appended to `values`; `none` when an `Expects` fails. -/
def serializeAction (E : Formats) (peers : Peers) (nesting : List Bool)
    (message : Data.Message) : Option (List Bool × List (List Byte × List Byte)) :=
  match message.action with
  | some (.ActionChatCreate title userIds) =>
    let names := pushUserNames peers nesting userIds (ascii "members")
    some (names.1, pushActor E peers message ++ pushAction (ascii "create_group")
      ++ push (ascii "title") title ++ names.2)
  | some (.ActionChatEditTitle title) =>
    some (nesting, pushActor E peers message ++ pushAction (ascii "edit_group_title")
      ++ push (ascii "title") title)
  | some (.ActionChatEditPhoto image) =>
    match pushPhoto E image with
    | none => none
    | some photo =>
      some (nesting, pushActor E peers message ++ pushAction (ascii "edit_group_photo") ++ photo)
  | some .ActionChatDeletePhoto =>
    some (nesting, pushActor E peers message ++ pushAction (ascii "delete_group_photo"))
  | some (.ActionChatAddUser userIds) =>
    let names := pushUserNames peers nesting userIds (ascii "members")
    some (names.1, pushActor E peers message ++ pushAction (ascii "invite_members") ++ names.2)
  | some (.ActionChatDeleteUser userId) =>
    let names := pushUserNames peers nesting [userId] (ascii "members")
    some (names.1, pushActor E peers message ++ pushAction (ascii "remove_members") ++ names.2)
  | some (.ActionChatJoinedByLink inviterId) =>
    some (nesting, pushActor E peers message ++ pushAction (ascii "join_group_by_link")
      ++ pushBare (ascii "inviter") (wrapUserName peers inviterId))
  | some (.ActionChannelCreate title) =>
    some (nesting, pushActor E peers message ++ pushAction (ascii "create_channel")
      ++ push (ascii "title") title)
  | some .ActionChatMigrateTo =>
    some (nesting, pushActor E peers message ++ pushAction (ascii "migrate_to_supergroup"))
  | some (.ActionChannelMigrateFrom title) =>
    some (nesting, pushActor E peers message ++ pushAction (ascii "migrate_from_group")
      ++ push (ascii "title") title)
  | some .ActionPinMessage =>
    some (nesting, pushActor E peers message ++ pushAction (ascii "pin_message")
      ++ pushReplyToMsgId E message (ascii "message_id"))
  | some .ActionHistoryClear =>
    some (nesting, pushActor E peers message ++ pushAction (ascii "clear_history"))
  | some (.ActionGameScore score) =>
    some (nesting, pushActor E peers message ++ pushAction (ascii "score_in_game")
      ++ pushReplyToMsgId E message (ascii "game_message_id")
      ++ pushNumber E (ascii "score") score)
  | some (.ActionPaymentSent amount currency) =>
    some (nesting, pushAction (ascii "send_payment") ++ pushNumber E (ascii "amount") amount
      ++ push (ascii "currency") currency
      ++ pushReplyToMsgId E message (ascii "invoice_message_id"))
  | some (.ActionPhoneCall duration discardReason) =>
    some (nesting, pushActor E peers message ++ pushAction (ascii "phone_call")
      ++ (if duration ≠ 0 then pushNumber E (ascii "duration_seconds") duration else [])
      ++ push (ascii "discard_reason") (discardReasonText discardReason))
  | some .ActionScreenshotTaken =>
    some (nesting, pushActor E peers message ++ pushAction (ascii "take_screenshot"))
  | some (.ActionCustomAction text) =>
    some (nesting, pushActor E peers message ++ push (ascii "information_text") text)
  | some (.ActionBotAllowed domain) =>
    some (nesting, pushAction (ascii "allow_sending_messages")
      ++ push (ascii "reason_domain") domain)
  | some (.ActionSecureValuesSent types) =>
    let list := types.map (fun type => JsonDataBuilder.SerializeString (secureValueText type))
    let array := JsonDataBuilder.SerializeArray nesting list
    some (array.1, pushAction (ascii "send_passport_values")
      ++ pushBare (ascii "values") array.2)
  | some .ActionContactSignUp =>
    some (nesting, pushActor E peers message ++ pushAction (ascii "joined_telegram"))
  | some .ActionPhoneNumberRequest =>
    some (nesting, pushActor E peers message ++ pushAction (ascii "requested_phone_number"))
  | none => some (nesting, [])

/-- The block `if (!message.action.content)` of `SerializeMessage`: the pairs appended
for a message that is not a service message. -/
def serializeHeader (E : Formats) (peers : Peers) (message : Data.Message) :
    List (List Byte × List Byte) :=
  if message.action.isNone then
    pushFrom E peers message (ascii "from")
      ++ push (ascii "author") message.signature
      ++ (if message.forwardedFromId ≠ 0 then
            pushBare (ascii "forwarded_from") (wrapPeerName peers message.forwardedFromId)
          else if !message.forwardedFromName.isEmpty then
            pushBare (ascii "forwarded_from") (StringAllowNull message.forwardedFromName)
          else [])
      ++ (if message.savedFromChatId ≠ 0 then
            pushBare (ascii "saved_from") (wrapPeerName peers message.savedFromChatId)
          else [])
      ++ pushReplyToMsgId E message (ascii "reply_to_message_id")
      ++ (if message.viaBotId ≠ 0 then
            let username := FormatUsername (peers.userUsername message.viaBotId)
            if !username.isEmpty then push (ascii "via_bot") username else []
          else [])
  else []

/-- The pairs of the object `location_information`. -/
def locationPairs (E : Formats) (point : Data.GeoPoint) : List (List Byte × List Byte) :=
  [ (ascii "latitude", E.NumberToStringDouble point.latitude),
    (ascii "longitude", E.NumberToStringDouble point.longitude) ]

/-- The branch of `Document` in the visitor of `message.media.content`. -/
def serializeDocument (E : Formats) (message : Data.Message) (data : Data.Document) :
    Option (List (List Byte × List Byte)) :=
  match pushPath data.file (ascii "file") [] with
  | none => none
  | some file =>
    match (if data.thumb.width > 0 then pushPath data.thumb.file (ascii "thumbnail") []
        else some []) with
    | none => none
    | some thumbnail =>
      some (file ++ thumbnail
        ++ (if data.isSticker then
              push (ascii "media_type") (ascii "sticker")
                ++ push (ascii "sticker_emoji") data.stickerEmoji
            else if data.isVideoMessage then push (ascii "media_type") (ascii "video_message")
            else if data.isVoiceMessage then push (ascii "media_type") (ascii "voice_message")
            else if data.isAnimated then push (ascii "media_type") (ascii "animation")
            else if data.isVideoFile then push (ascii "media_type") (ascii "video_file")
            else if data.isAudioFile then
              push (ascii "media_type") (ascii "audio_file")
                ++ push (ascii "performer") data.songPerformer
                ++ push (ascii "title") data.songTitle
            else [])
        ++ (if !data.isSticker then push (ascii "mime_type") data.mime else [])
        ++ (if data.duration ≠ 0 then pushNumber E (ascii "duration_seconds") data.duration
            else [])
        ++ (if data.width ≠ 0 ∧ data.height ≠ 0 then
              pushNumber E (ascii "width") data.width
                ++ pushNumber E (ascii "height") data.height
            else [])
        ++ pushTTL E message (ascii "self_destruct_period_seconds"))

/-- The transformation of one answer in the branch of `Poll`, on the nesting stack and
the texts so far: a push of `kArray`, `SerializeObject`, and a pop. -/
def serializeAnswerStep (E : Formats) (state : List Bool × List (List Byte))
    (answer : Data.PollAnswer) : List Bool × List (List Byte) :=
  let pushed := state.1 ++ [kArray]
  let result := JsonDataBuilder.SerializeObject pushed
    [ (ascii "text", JsonDataBuilder.SerializeString answer.text),
      (ascii "voters", E.NumberToString answer.votes),
      (ascii "chosen", if answer.my then ascii "true" else ascii "false") ]
  (result.1.dropLast, state.2 ++ [result.2])

/-- The branch of `Poll` in the visitor of `message.media.content`. -/
def serializePoll (E : Formats) (nesting : List Bool) (data : Data.Poll) :
    List Bool × List (List Byte × List Byte) :=
  let pushed := nesting ++ [kObject]
  let answers := data.answers.foldl (serializeAnswerStep E) (pushed, [])
  let serialized := JsonDataBuilder.SerializeArray answers.1 answers.2
  let popped := serialized.1.dropLast
  let object := JsonDataBuilder.SerializeObject popped
    [ (ascii "question", JsonDataBuilder.SerializeString data.question),
      (ascii "closed", if data.closed then ascii "true" else ascii "false"),
      (ascii "total_voters", E.NumberToString data.totalVotes),
      (ascii "answers", serialized.2) ]
  (object.1, pushBare (ascii "poll") object.2)

/-- The visitor of `message.media.content` in `SerializeMessage`: the nesting stack
afterwards and the pairs appended to `values`; `none` when an `Expects` fails or
`Unexpected` is reached. -/
def serializeMedia (E : Formats) (peers : Peers) (internalLinksDomain : List Byte)
    (nesting : List Bool) (message : Data.Message) :
    Option (List Bool × List (List Byte × List Byte)) :=
  match message.media.content with
  | some (.Photo image) =>
    match pushPhoto E image with
    | none => none
    | some photo => some (nesting, photo ++ pushTTL E message (ascii "self_destruct_period_seconds"))
  | some (.Document data) =>
    match serializeDocument E message data with
    | none => none
    | some values => some (nesting, values)
  | some (.SharedContact data) =>
    let object := JsonDataBuilder.SerializeObject nesting
      [ (ascii "first_name", JsonDataBuilder.SerializeString data.info.firstName),
        (ascii "last_name", JsonDataBuilder.SerializeString data.info.lastName),
        (ascii "phone_number",
          JsonDataBuilder.SerializeString (E.FormatPhoneNumber data.info.phoneNumber)) ]
    if !data.vcard.content.isEmpty then
      match pushPath data.vcard (ascii "contact_vcard") [] with
      | none => none
      | some vcard => some (object.1, pushBare (ascii "contact_information") object.2 ++ vcard)
    else some (object.1, pushBare (ascii "contact_information") object.2)
  | some (.GeoPoint data) =>
    let location :=
      if data.valid then JsonDataBuilder.SerializeObject nesting (locationPairs E data)
      else (nesting, ascii "null")
    some (location.1, pushBare (ascii "location_information") location.2
      ++ pushTTL E message (ascii "live_location_period_seconds"))
  | some (.Venue data) =>
    let location :=
      if data.point.valid then
        let object := JsonDataBuilder.SerializeObject nesting (locationPairs E data.point)
        (object.1, pushBare (ascii "location_information") object.2)
      else (nesting, [])
    some (location.1, push (ascii "place_name") data.title ++ push (ascii "address") data.address
      ++ location.2)
  | some (.Game data) =>
    some (nesting, push (ascii "game_title") data.title
      ++ push (ascii "game_description") data.description
      ++ (if data.botId ≠ 0 ∧ ¬ data.shortName.isEmpty then
            if peers.userIsBot data.botId ∧ ¬ (peers.userUsername data.botId).isEmpty then
              push (ascii "game_link")
                (internalLinksDomain ++ peers.userUsername data.botId ++ ascii "?game="
                  ++ data.shortName)
            else []
          else []))
  | some (.Invoice data) =>
    let object := JsonDataBuilder.SerializeObject nesting
      [ (ascii "title", JsonDataBuilder.SerializeString data.title),
        (ascii "description", JsonDataBuilder.SerializeString data.description),
        (ascii "amount", E.NumberToString data.amount),
        (ascii "currency", JsonDataBuilder.SerializeString data.currency),
        (ascii "receipt_message_id",
          if data.receiptMsgId ≠ 0 then E.NumberToString data.receiptMsgId else []) ]
    some (object.1, push (ascii "invoice_information") object.2)
  | some (.Poll data) => some (serializePoll E nesting data)
  | some .UnsupportedMedia => none
  | none => some (nesting, [])

/-- Source `SerializeMessage(context, message, peers, internalLinksDomain)`: the nesting
stack of the context when it returns and the text; `none` when an `Expects` fails. -/
def SerializeMessage (E : Formats) (peers : Peers) (internalLinksDomain : List Byte)
    (nesting : List Bool) (message : Data.Message) : Option (List Bool × List Byte) :=
  if message.media.content = some Data.MediaContent.UnsupportedMedia then
    some (JsonDataBuilder.SerializeObject nesting
      [ (ascii "id", E.NumberToString message.id),
        (ascii "type", JsonDataBuilder.SerializeString (ascii "unsupported")) ])
  else
    let values :=
      [ (ascii "id", E.NumberToString message.id),
        (ascii "type", JsonDataBuilder.SerializeString
          (if message.action.isSome then ascii "service" else ascii "message")),
        (ascii "date", JsonDataBuilder.SerializeDate E message.date),
        (ascii "edited", JsonDataBuilder.SerializeDate E message.edited) ]
    let pushed := nesting ++ [kObject]
    match serializeAction E peers pushed message with
    | none => none
    | some action =>
      let header := serializeHeader E peers message
      match serializeMedia E peers internalLinksDomain action.1 message with
      | none => none
      | some media =>
        let text := SerializeText media.1 message.text
        JsonDataBuilder.SerializeObject text.1.dropLast
          (values ++ action.2 ++ header ++ media.2 ++ pushBare (ascii "text") text.2)

/-- The `Expects` of `pushPath` holds for a file. -/
def pathExpected (file : Data.File) : Bool :=
  !file.relativePath.isEmpty || file.skipReason ≠ Data.SkipReason.None

/-- Every `Expects` that `SerializeMessage` evaluates for a message holds: none for a
message with unsupported media, otherwise that of `pushPath` for the photo of an
`ActionChatEditPhoto`, for the photo of a `Photo`, for the file of a `Document` and for
its thumbnail of positive width, and for the vcard with content of a `SharedContact`. -/
def expectsHold (message : Data.Message) : Bool :=
  if message.media.content = some Data.MediaContent.UnsupportedMedia then true
  else
    (match message.action with
      | some (.ActionChatEditPhoto image) => pathExpected image.file
      | _ => true)
    && (match message.media.content with
      | some (.Photo image) => pathExpected image.file
      | some (.Document data) =>
        pathExpected data.file && (decide (data.thumb.width ≤ 0) || pathExpected data.thumb.file)
      | some (.SharedContact data) => data.vcard.content.isEmpty || pathExpected data.vcard
      | _ => true)

end Export.Output

namespace Export.Sample

/-- The record with an empty `p`. -/
def recordEmptyField : Data.UserEncryptionData :=
  { record with p := [] }

/-- An object with a value, an array of two values and one more value. -/
def calls : List Output.BuilderCall :=
  [ .pushNesting Output.kObject, .prepareObjectItemStart (Output.ascii "a"),
    .prepareObjectItemStart (Output.ascii "list"), .pushNesting Output.kArray,
    .prepareArrayItemStart, .prepareArrayItemStart, .popNesting,
    .prepareObjectItemStart (Output.ascii "b"), .popNesting ]

/-- The calls of an export with one dialog: `start`, `writeDialogStart`,
`writeDialogEnd`, `writeDialogsEnd`, `finish`. -/
def oneDialogRun : Option (Output.JsonWriter × Output.Result) :=
  ((((Output.JsonWriter.new.start fileWrite ['/'] environment).bind
    (fun started => started.1.writeDialogStart fileWrite Data.decimalString dialog)).bind
    (fun opened => opened.1.writeDialogEnd fileWrite)).bind
    (fun closed => closed.1.writeDialogsEnd fileWrite)).bind
    (fun ended => ended.1.finish fileWrite)

/-- The calls of an export with one dialog up to the end of the dialogs: `start`,
`writeDialogStart`, `writeDialogEnd`, `writeDialogsEnd`. -/
def dialogsEndRun : Option (Output.JsonWriter × Output.Result) :=
  (((Output.JsonWriter.new.start fileWrite ['/'] environment).bind
    (fun started => started.1.writeDialogStart fileWrite Data.decimalString dialog)).bind
    (fun opened => opened.1.writeDialogEnd fileWrite)).bind
    (fun closed => closed.1.writeDialogsEnd fileWrite)

/-- Decimal numbers and dates, and phone numbers as they are. -/
def formats : Output.Formats :=
  ⟨Data.decimalString, fun value => Data.decimalString value.bits, Data.decimalString, id⟩

/-- A map of peers in which every user is called Ann. -/
def peers : Output.Peers :=
  ⟨fun _ => Output.ascii "Peer", fun _ => Output.ascii "Ann", fun _ => false, fun _ => []⟩

/-- A message with a poll of two answers and a text of two parts. -/
def pollMessage : Data.Message :=
  ⟨1, 2, 0, 7, 0, [], 0, [], 0, 0, none,
    ⟨some (.Poll ⟨Output.ascii "Q",
      [⟨Output.ascii "a", 1, true⟩, ⟨Output.ascii "b", 0, false⟩], 1, false⟩), 0⟩,
    [⟨.Text, Output.ascii "hi", []⟩, ⟨.Bold, Output.ascii "b", []⟩]⟩

/-- The message with unsupported media. -/
def unsupportedMessage : Data.Message :=
  { pollMessage with media := ⟨some .UnsupportedMedia, 0⟩ }

/-- The message with a photo whose file has no path and no skip reason. -/
def photoMessage : Data.Message :=
  { pollMessage with media := ⟨some (.Photo ⟨⟨[], .None, []⟩, 1, 1⟩), 0⟩ }

end Export.Sample

set_option maxRecDepth 20000

/-! ## Theorems: key negotiation -/

namespace MTP

theorem foldl_bytes (bs : List Byte) (init : Nat) :
    bs.foldl (fun acc b => acc * 256 + b.val) init
      = init * 256 ^ bs.length + bs.foldl (fun acc b => acc * 256 + b.val) 0 := by
  induction bs generalizing init with
  | nil => simp
  | cons b bs ih =>
    simp only [List.foldl_cons, List.length_cons]
    rw [ih (init * 256 + b.val), ih (0 * 256 + b.val)]
    ring

theorem bytesToNat_cons (b : Byte) (bs : List Byte) :
    bytesToNat (b :: bs) = b.val * 256 ^ bs.length + bytesToNat bs := by
  unfold bytesToNat
  rw [List.foldl_cons, foldl_bytes]
  simp

theorem bytesToNat_natToBytesAux (fuel n : Nat) (acc : List Byte) (h : n ≤ fuel) :
    bytesToNat (natToBytesAux fuel n acc) = n * 256 ^ acc.length + bytesToNat acc := by
  induction fuel generalizing n acc with
  | zero =>
    have : n = 0 := by omega
    subst this
    simp [natToBytesAux]
  | succ fuel ih =>
    unfold natToBytesAux
    split
    · next h0 => subst h0; simp
    · next h0 =>
      rw [ih (n / 256) _ (by omega), bytesToNat_cons]
      have hmod : (Fin.ofNat (n % 256) : Byte).val = n % 256 := by
        simp [Fin.ofNat, Nat.mod_mod]
      rw [hmod, List.length_cons, pow_succ]
      have hn : n = 256 * (n / 256) + n % 256 := (Nat.div_add_mod n 256).symm
      generalize 256 ^ acc.length = q
      generalize n / 256 = d at hn ⊢
      generalize n % 256 = r at hn ⊢
      subst hn
      ring

theorem bytesToNat_natToBytes (n : Nat) : bytesToNat (natToBytes n) = n := by
  unfold natToBytes
  rw [bytesToNat_natToBytesAux n n [] (le_refl n)]
  simp [bytesToNat]

theorem length_toFixedWidth (w n : Nat) : (toFixedWidth w n).length = w := by
  simp [toFixedWidth]

theorem modExp_lt (base : Int) (e m : Nat) (hm : 0 < m) : ModExp base e m < m := by
  unfold ModExp
  have h1 : 0 ≤ (base ^ e) % (m : Int) := Int.emod_nonneg _ (by omega)
  have h2 : (base ^ e) % (m : Int) < m := Int.emod_lt_of_pos _ (by omega)
  omega

theorem modExp_modExp (g : Int) (a b m : Nat) (hm : 0 < m) :
    ModExp (ModExp g a m : Nat) b m = ModExp g (a * b) m := by
  unfold ModExp
  have h1 : 0 ≤ (g ^ a) % (m : Int) := Int.emod_nonneg _ (by omega)
  rw [Int.toNat_of_nonneg h1, pow_mul]
  congr 1
  exact (Int.mod_modEq (g ^ a) m).pow b

end MTP

namespace DhExchangeKey

open MTP

theorem or_eq_add_of_dvd (a b k : Nat) (ha : 2 ^ k ∣ a) (hb : b < 2 ^ k) : a ||| b = a + b := by
  obtain ⟨c, rfl⟩ := ha
  exact (Nat.mul_add_lt_is_or hb c).symm

theorem fingerprint_or_eq_sum (h12 h13 h14 h15 h16 h17 h18 h19 : Nat)
    (b12 : h12 < 256) (b13 : h13 < 256) (b14 : h14 < 256) (b15 : h15 < 256)
    (b16 : h16 < 256) (b17 : h17 < 256) (b18 : h18 < 256) :
    (h19 <<< 56) ||| (h18 <<< 48) ||| (h17 <<< 40) ||| (h16 <<< 32) ||| (h15 <<< 24)
      ||| (h14 <<< 16) ||| (h13 <<< 8) ||| h12
    = h12 + h13 * 2 ^ 8 + h14 * 2 ^ 16 + h15 * 2 ^ 24 + h16 * 2 ^ 32 + h17 * 2 ^ 40
      + h18 * 2 ^ 48 + h19 * 2 ^ 56 := by
  simp only [Nat.shiftLeft_eq]
  rw [or_eq_add_of_dvd (h19 * 2 ^ 56) (h18 * 2 ^ 48) 56 (by omega) (by omega)]
  rw [or_eq_add_of_dvd (_ + h18 * 2 ^ 48) (h17 * 2 ^ 40) 48 (by omega) (by omega)]
  rw [or_eq_add_of_dvd (_ + h17 * 2 ^ 40) (h16 * 2 ^ 32) 40 (by omega) (by omega)]
  rw [or_eq_add_of_dvd (_ + h16 * 2 ^ 32) (h15 * 2 ^ 24) 32 (by omega) (by omega)]
  rw [or_eq_add_of_dvd (_ + h15 * 2 ^ 24) (h14 * 2 ^ 16) 24 (by omega) (by omega)]
  rw [or_eq_add_of_dvd (_ + h14 * 2 ^ 16) (h13 * 2 ^ 8) 16 (by omega) (by omega)]
  rw [or_eq_add_of_dvd (_ + h13 * 2 ^ 8) h12 8 (by omega) (by omega)]
  omega

end DhExchangeKey

namespace DhExchangeKey

open MTP

theorem computeFingerprint_eq (Sha1 : List Byte → Fin 20 → Byte) (S : List Byte)
    (hS : S.length = 256) :
    computeFingerprint Sha1 S = some
      ((Sha1 S 12).val + (Sha1 S 13).val * 2 ^ 8 + (Sha1 S 14).val * 2 ^ 16
        + (Sha1 S 15).val * 2 ^ 24 + (Sha1 S 16).val * 2 ^ 32 + (Sha1 S 17).val * 2 ^ 40
        + (Sha1 S 18).val * 2 ^ 48 + (Sha1 S 19).val * 2 ^ 56) := by
  unfold computeFingerprint
  rw [if_neg (by simp [hS, kFingerprintDataSize])]
  simp only []
  rw [fingerprint_or_eq_sum _ _ _ _ _ _ _ _ (Sha1 S 12).isLt (Sha1 S 13).isLt (Sha1 S 14).isLt
    (Sha1 S 15).isLt (Sha1 S 16).isLt (Sha1 S 17).isLt (Sha1 S 18).isLt]

theorem computeFingerprint_lt (Sha1 : List Byte → Fin 20 → Byte) (S : List Byte) (fp : Nat)
    (h : computeFingerprint Sha1 S = some fp) : fp < 2 ^ 64 := by
  by_cases hS : S.length = 256
  · rw [computeFingerprint_eq Sha1 S hS] at h
    have b12 := (Sha1 S 12).isLt
    have b13 := (Sha1 S 13).isLt
    have b14 := (Sha1 S 14).isLt
    have b15 := (Sha1 S 15).isLt
    have b16 := (Sha1 S 16).isLt
    have b17 := (Sha1 S 17).isLt
    have b18 := (Sha1 S 18).isLt
    have b19 := (Sha1 S 19).isLt
    simp only [Option.some.injEq] at h
    omega
  · unfold computeFingerprint at h
    rw [if_pos (by simpa [kFingerprintDataSize] using hS)] at h
    cases h

theorem toInt64_eq_iff (n : Nat) (c : Int) (hn : n < 2 ^ 64) (h1 : -2 ^ 63 ≤ c)
    (h2 : c < 2 ^ 63) : toInt64 n = c ↔ bits64 c = n := by
  unfold toInt64 bits64
  rw [Nat.mod_eq_of_lt hn]
  have hn' : n < 18446744073709551616 := by simpa using hn
  norm_num at h1 h2 ⊢
  split <;> omega

/-- C6. For a 256-byte secret `S`, `computeFingerprint` returns the 64-bit value
assembled little-endian from bytes 12..19 of the SHA-1 digest `h` of `S`, the sum over
`i = 0..7` of `h[12+i] * 2^(8i)`. -/
theorem computeFingerprint_little_endian (Sha1 : List Byte → Fin 20 → Byte) (S : List Byte)
    (hS : S.length = 256) :
    computeFingerprint Sha1 S
      = some (∑ i : Fin 8, (Sha1 S ⟨12 + i.val, by omega⟩).val * 2 ^ (8 * i.val)) := by
  rw [computeFingerprint_eq Sha1 S hS, Fin.sum_univ_eight]
  have e0 : (⟨12 + (0 : Fin 8).val, by omega⟩ : Fin 20) = 12 := rfl
  have e1 : (⟨12 + (1 : Fin 8).val, by omega⟩ : Fin 20) = 13 := rfl
  have e2 : (⟨12 + (2 : Fin 8).val, by omega⟩ : Fin 20) = 14 := rfl
  have e3 : (⟨12 + (3 : Fin 8).val, by omega⟩ : Fin 20) = 15 := rfl
  have e4 : (⟨12 + (4 : Fin 8).val, by omega⟩ : Fin 20) = 16 := rfl
  have e5 : (⟨12 + (5 : Fin 8).val, by omega⟩ : Fin 20) = 17 := rfl
  have e6 : (⟨12 + (6 : Fin 8).val, by omega⟩ : Fin 20) = 18 := rfl
  have e7 : (⟨12 + (7 : Fin 8).val, by omega⟩ : Fin 20) = 19 := rfl
  rw [e0, e1, e2, e3, e4, e5, e6, e7]
  simp only [show ((0 : Fin 8) : Nat) = 0 from rfl, show ((1 : Fin 8) : Nat) = 1 from rfl,
    show ((2 : Fin 8) : Nat) = 2 from rfl, show ((3 : Fin 8) : Nat) = 3 from rfl,
    show ((4 : Fin 8) : Nat) = 4 from rfl, show ((5 : Fin 8) : Nat) = 5 from rfl,
    show ((6 : Fin 8) : Nat) = 6 from rfl, show ((7 : Fin 8) : Nat) = 7 from rfl]
  norm_num

/-- C6, at the zero key with the stand-in digest. -/
theorem computeFingerprint_little_endian_witness :
    Sample.zeroKey.length = 256 ∧
    computeFingerprint Sample.sha1 Sample.zeroKey
      = some (∑ i : Fin 8,
          (Sample.sha1 Sample.zeroKey ⟨12 + i.val, by omega⟩).val * 2 ^ (8 * i.val)) :=
  ⟨List.length_replicate 256 0,
    computeFingerprint_little_endian Sample.sha1 Sample.zeroKey (List.length_replicate 256 0)⟩

end DhExchangeKey

namespace DhExchangeKey

open MTP

/-- C7. For a 256-byte secret `S`, passing `computeFingerprint(S)` through the signed
64-bit parameter of `isEncryptionKeyValid` together with `S` gives `true`, whatever the
top bit of the fingerprint. -/
theorem isEncryptionKeyValid_computeFingerprint (Sha1 : List Byte → Fin 20 → Byte)
    (S : List Byte) (hS : S.length = 256) :
    (computeFingerprint Sha1 S).bind (fun fp => isEncryptionKeyValid Sha1 (toInt64 fp) S)
      = some true := by
  have h := computeFingerprint_eq Sha1 S hS
  simp [isEncryptionKeyValid, h]

/-- C7, at the zero key with the stand-in digest: the fingerprint has its top bit set
and the signed argument is negative. -/
theorem isEncryptionKeyValid_computeFingerprint_witness :
    Sample.zeroKey.length = 256 ∧
    (computeFingerprint Sample.sha1 Sample.zeroKey).bind
      (fun fp => isEncryptionKeyValid Sample.sha1 (toInt64 fp) Sample.zeroKey) = some true :=
  ⟨List.length_replicate 256 0,
    isEncryptionKeyValid_computeFingerprint Sample.sha1 Sample.zeroKey
      (List.length_replicate 256 0)⟩

/-- C8. For a 256-byte secret `S` and a claimed `int64` fingerprint `c`,
`isEncryptionKeyValid(c, S)` returns, and returns `true` exactly when the 64-bit pattern
of `c` is the value `computeFingerprint(S)`. -/
theorem isEncryptionKeyValid_iff (Sha1 : List Byte → Fin 20 → Byte) (S : List Byte) (c : Int)
    (hS : S.length = 256) (hlo : -2 ^ 63 ≤ c) (hhi : c < 2 ^ 63) :
    ∃ fp, computeFingerprint Sha1 S = some fp ∧
      isEncryptionKeyValid Sha1 c S = some (decide (bits64 c = fp)) := by
  have h := computeFingerprint_eq Sha1 S hS
  generalize hfp : (Sha1 S 12).val + (Sha1 S 13).val * 2 ^ 8 + (Sha1 S 14).val * 2 ^ 16
    + (Sha1 S 15).val * 2 ^ 24 + (Sha1 S 16).val * 2 ^ 32 + (Sha1 S 17).val * 2 ^ 40
    + (Sha1 S 18).val * 2 ^ 48 + (Sha1 S 19).val * 2 ^ 56 = fp at h
  refine ⟨fp, h, ?_⟩
  have hlt := computeFingerprint_lt Sha1 S fp h
  have hiff := toInt64_eq_iff fp c hlt hlo hhi
  simp only [isEncryptionKeyValid, h]
  congr 1
  by_cases hb : bits64 c = fp
  · rw [decide_eq_true hb]
    exact beq_iff_eq.mpr (hiff.mpr hb)
  · rw [decide_eq_false hb]
    exact beq_eq_false_iff_ne.mpr (fun he => hb (hiff.mp he))

/-- C8, at the zero key with the stand-in digest and the claimed value `-1`. -/
theorem isEncryptionKeyValid_iff_witness :
    Sample.zeroKey.length = 256 ∧ (-2 ^ 63 ≤ (-1 : Int)) ∧ ((-1 : Int) < 2 ^ 63) ∧
    ∃ fp, computeFingerprint Sample.sha1 Sample.zeroKey = some fp ∧
      isEncryptionKeyValid Sample.sha1 (-1) Sample.zeroKey = some (decide (bits64 (-1) = fp)) :=
  ⟨List.length_replicate 256 0, by decide, by decide,
    isEncryptionKeyValid_iff Sample.sha1 Sample.zeroKey (-1) (List.length_replicate 256 0)
      (by decide) (by decide)⟩

/-- C9. With a positive required size, `updateDhConfig` on a fresh-parameters response
returns a non-empty span exactly when `(g, p)` passes `IsPrimeAndGood` and `random` has
`kRandomPowerSize` bytes; then the span is `random`, and otherwise it is empty. -/
theorem updateDhConfig_fresh_result (IsPrimeAndGood : List Byte → Int → Bool)
    (kRandomPowerSize : Nat) (self : DHEncryptionKeyExchanger) (g version : Int)
    (p random : List Byte) (hk : 0 < kRandomPowerSize) :
    let r := (self.updateDhConfig IsPrimeAndGood kRandomPowerSize
      (.dhConfig g p version random)).2
    (r ≠ [] ↔ (IsPrimeAndGood p g = true ∧ random.length = kRandomPowerSize)) ∧
    ((IsPrimeAndGood p g = true ∧ random.length = kRandomPowerSize) → r = random) ∧
    (¬ (IsPrimeAndGood p g = true ∧ random.length = kRandomPowerSize) → r = []) := by
  intro r
  simp only [r, DHEncryptionKeyExchanger.updateDhConfig, validRandom]
  by_cases hg : IsPrimeAndGood p g = true
  · by_cases hr : random.length = kRandomPowerSize
    · have hne : random ≠ [] := by
        intro h0
        rw [h0] at hr
        simp at hr
        omega
      simp [hg, hr, hne]
    · simp [hg, hr]
  · simp [hg]

/-- C9, at the stand-in group with the seed of 256 bytes. -/
theorem updateDhConfig_fresh_result_witness :
    (0 < 256) ∧
    let r := (Sample.exchanger.updateDhConfig isSafeGroup 256
      (.dhConfig 5 [23] 3 Sample.seed)).2
    (r ≠ [] ↔ (isSafeGroup [23] 5 = true ∧ Sample.seed.length = 256)) ∧
    ((isSafeGroup [23] 5 = true ∧ Sample.seed.length = 256) → r = Sample.seed) ∧
    (¬ (isSafeGroup [23] 5 = true ∧ Sample.seed.length = 256) → r = []) :=
  ⟨by decide, updateDhConfig_fresh_result isSafeGroup 256 Sample.exchanger 5 3 [23] Sample.seed
    (by decide)⟩

/-- C10. With a positive required size, a call of `updateDhConfig` that returns the empty
span, on a fresh or a not-modified response, leaves the exchanger's stored parameters
as they were. -/
theorem updateDhConfig_empty_unchanged (IsPrimeAndGood : List Byte → Int → Bool)
    (kRandomPowerSize : Nat) (self : DHEncryptionKeyExchanger) (data : MTPmessages_DhConfig)
    (hk : 0 < kRandomPowerSize)
    (hempty : (self.updateDhConfig IsPrimeAndGood kRandomPowerSize data).2 = []) :
    (self.updateDhConfig IsPrimeAndGood kRandomPowerSize data).1._dhConfig = self._dhConfig := by
  cases data with
  | dhConfig g p version random =>
    simp only [DHEncryptionKeyExchanger.updateDhConfig, validRandom] at hempty ⊢
    by_cases hg : IsPrimeAndGood p g = true
    · by_cases hr : random.length = kRandomPowerSize
      · simp [hg, hr] at hempty
        rw [hempty] at hr
        simp at hr
        omega
      · simp [hg, hr]
    · simp [hg]
  | dhConfigNotModified random =>
    simp only [DHEncryptionKeyExchanger.updateDhConfig]
    split
    · rfl
    · split <;> rfl

/-- C10, at a fresh response whose random seed is one byte short. -/
theorem updateDhConfig_empty_unchanged_witness :
    (0 < 256) ∧
    (Sample.exchanger.updateDhConfig isSafeGroup 256 (.dhConfig 7 [47] 3 [0])).2 = [] ∧
    (Sample.exchanger.updateDhConfig isSafeGroup 256 (.dhConfig 7 [47] 3 [0])).1._dhConfig
      = Sample.exchanger._dhConfig :=
  ⟨by decide, by decide,
    updateDhConfig_empty_unchanged isSafeGroup 256 Sample.exchanger (.dhConfig 7 [47] 3 [0])
      (by decide) (by decide)⟩

end DhExchangeKey

namespace DhExchangeKey

open MTP

theorem isPrimeNat_pos (n : Nat) (h : isPrimeNat n = true) : 0 < n := by
  unfold isPrimeNat at h
  simp only [Bool.and_eq_true, decide_eq_true_eq] at h
  omega

theorem isSafeGroup_pos (p : List Byte) (g : Int) (h : isSafeGroup p g = true) :
    0 < bytesToNat p := by
  unfold isSafeGroup at h
  simp only [Bool.and_eq_true] at h
  exact isPrimeNat_pos _ h.1.1.1

theorem createEncryptionKey_of_valid (self : DHEncryptionKeyExchanger) (g_a secretKey : List Byte)
    (h1 : 1 < bytesToNat g_a) (h2 : bytesToNat g_a < bytesToNat self._dhConfig.p) :
    self.createEncryptionKey g_a secretKey
      = toFixedWidth kSecretSize
          (ModExp (bytesToNat g_a) (bytesToNat secretKey) (bytesToNat self._dhConfig.p)) := by
  have hcond : ¬ (bytesToNat g_a = 0 ∨ bytesToNat g_a = 1
      ∨ bytesToNat self._dhConfig.p ≤ bytesToNat g_a) := by omega
  have hne : toFixedWidth kSecretSize
      (ModExp (bytesToNat g_a) (bytesToNat secretKey) (bytesToNat self._dhConfig.p)) ≠ [] := by
    intro h0
    have := length_toFixedWidth kSecretSize
      (ModExp (bytesToNat g_a) (bytesToNat secretKey) (bytesToNat self._dhConfig.p))
    rw [h0] at this
    simp [kSecretSize] at this
  simp only [DHEncryptionKeyExchanger.createEncryptionKey, CreateAuthKey, if_neg hcond]
  simp [hne]

/-- C5. `ñreateEncryptionKey` returns the empty vector when the peer public value is 0,
is 1, or is not below the stored modulus, whatever the private exponent. -/
theorem createEncryptionKey_rejects (self : DHEncryptionKeyExchanger) (g_a secretKey : List Byte)
    (h : bytesToNat g_a = 0 ∨ bytesToNat g_a = 1
      ∨ bytesToNat self._dhConfig.p ≤ bytesToNat g_a) :
    self.createEncryptionKey g_a secretKey = [] := by
  simp only [DHEncryptionKeyExchanger.createEncryptionKey, CreateAuthKey, if_pos h]
  rfl

/-- C5, at the peer value 1 for the stand-in group. -/
theorem createEncryptionKey_rejects_witness :
    (bytesToNat [1] = 0 ∨ bytesToNat [1] = 1
      ∨ bytesToNat Sample.exchanger._dhConfig.p ≤ bytesToNat [1]) ∧
    Sample.exchanger.createEncryptionKey [1] (Sample.exponent 6) = [] :=
  ⟨by decide, createEncryptionKey_rejects Sample.exchanger [1] (Sample.exponent 6) (by decide)⟩

/-- C2 as stated fails: for the safe group `g = 5`, `p = 23` and the private exponents
`a = 6`, `b = 22`, the public value of `b` is 1, so `ñreateEncryptionKey(B, a)` is empty
while `ñreateEncryptionKey(A, b)` is a 256-byte secret. -/
theorem createEncryptionKey_exponent_counterexample :
    isSafeGroup Sample.exchanger._dhConfig.p Sample.exchanger._dhConfig.g = true ∧
    (Sample.exchanger.createModExp Sample.seed (Sample.exponent 22)).modexp = [1] ∧
    Sample.exchanger.createEncryptionKey
      (Sample.exchanger.createModExp Sample.seed (Sample.exponent 22)).modexp
      (Sample.exchanger.createModExp Sample.seed (Sample.exponent 6)).randomPower = [] ∧
    Sample.exchanger.createEncryptionKey
      (Sample.exchanger.createModExp Sample.seed (Sample.exponent 6)).modexp
      (Sample.exchanger.createModExp Sample.seed (Sample.exponent 22)).randomPower ≠ [] := by
  refine ⟨by decide, by decide, by decide, ?_⟩
  decide

/-- C2, amended. For a stored `(g, p)` that passes the safe-group check and two private
exponents `a`, `b` whose public values `A`, `B` are both greater than 1,
`ñreateEncryptionKey(B, a)` and `ñreateEncryptionKey(A, b)` are the same non-empty byte
sequence, the 256-byte encoding of `g^(ab) mod p`. -/
theorem createEncryptionKey_agree (self : DHEncryptionKeyExchanger)
    (seedA seedB a b : List Byte)
    (hsafe : isSafeGroup self._dhConfig.p self._dhConfig.g = true)
    (hA : 1 < bytesToNat (self.createModExp seedA a).modexp)
    (hB : 1 < bytesToNat (self.createModExp seedB b).modexp) :
    self.createEncryptionKey (self.createModExp seedB b).modexp
        (self.createModExp seedA a).randomPower
      = toFixedWidth 256
          (ModExp self._dhConfig.g (bytesToNat a * bytesToNat b) (bytesToNat self._dhConfig.p)) ∧
    self.createEncryptionKey (self.createModExp seedA a).modexp
        (self.createModExp seedB b).randomPower
      = toFixedWidth 256
          (ModExp self._dhConfig.g (bytesToNat a * bytesToNat b) (bytesToNat self._dhConfig.p)) ∧
    toFixedWidth 256
      (ModExp self._dhConfig.g (bytesToNat a * bytesToNat b) (bytesToNat self._dhConfig.p))
      ≠ [] := by
  have hp := isSafeGroup_pos _ _ hsafe
  have eA : bytesToNat (self.createModExp seedA a).modexp
      = ModExp self._dhConfig.g (bytesToNat a) (bytesToNat self._dhConfig.p) := by
    simp [DHEncryptionKeyExchanger.createModExp, CreateModExp, bytesToNat_natToBytes]
  have eB : bytesToNat (self.createModExp seedB b).modexp
      = ModExp self._dhConfig.g (bytesToNat b) (bytesToNat self._dhConfig.p) := by
    simp [DHEncryptionKeyExchanger.createModExp, CreateModExp, bytesToNat_natToBytes]
  have ra : (self.createModExp seedA a).randomPower = a := rfl
  have rb : (self.createModExp seedB b).randomPower = b := rfl
  refine ⟨?_, ?_, ?_⟩
  · rw [createEncryptionKey_of_valid self _ _ hB (by rw [eB]; exact modExp_lt _ _ _ hp),
      eB, ra, modExp_modExp _ _ _ _ hp, Nat.mul_comm]
    rfl
  · rw [createEncryptionKey_of_valid self _ _ hA (by rw [eA]; exact modExp_lt _ _ _ hp),
      eA, rb, modExp_modExp _ _ _ _ hp]
    rfl
  · intro h0
    have := length_toFixedWidth 256
      (ModExp self._dhConfig.g (bytesToNat a * bytesToNat b) (bytesToNat self._dhConfig.p))
    rw [h0] at this
    simp at this

/-- C2 amended, at the stand-in group with the exponents 6 and 15. -/
theorem createEncryptionKey_agree_witness :
    isSafeGroup Sample.exchanger._dhConfig.p Sample.exchanger._dhConfig.g = true ∧
    1 < bytesToNat (Sample.exchanger.createModExp Sample.seed (Sample.exponent 6)).modexp ∧
    1 < bytesToNat (Sample.exchanger.createModExp Sample.seed (Sample.exponent 15)).modexp ∧
    Sample.exchanger.createEncryptionKey
        (Sample.exchanger.createModExp Sample.seed (Sample.exponent 15)).modexp
        (Sample.exchanger.createModExp Sample.seed (Sample.exponent 6)).randomPower
      = Sample.exchanger.createEncryptionKey
        (Sample.exchanger.createModExp Sample.seed (Sample.exponent 6)).modexp
        (Sample.exchanger.createModExp Sample.seed (Sample.exponent 15)).randomPower :=
  ⟨by decide, by decide, by decide,
    (createEncryptionKey_agree Sample.exchanger Sample.seed Sample.seed (Sample.exponent 6)
      (Sample.exponent 15) (by decide) (by decide) (by decide)).1.trans
    (createEncryptionKey_agree Sample.exchanger Sample.seed Sample.seed (Sample.exponent 6)
      (Sample.exponent 15) (by decide) (by decide) (by decide)).2.1.symm⟩

end DhExchangeKey

/-! ## Theorems: message codec -/

namespace security

theorem clearLowTwoBits_eq (x : Nat) (h4 : x % 4 = 0) (hlt : x < 2 ^ 32) :
    clearLowTwoBits x = x := by
  unfold clearLowTwoBits
  apply Nat.eq_of_testBit_eq
  intro i
  rw [Nat.testBit_and]
  have hmask : (0xFFFFFFFC : Nat) = (2 ^ 30 - 1) <<< 2 := by decide
  rw [hmask, Nat.testBit_shiftLeft, Nat.testBit_two_pow_sub_one]
  by_cases hi : 2 ≤ i
  · by_cases hi2 : i < 32
    · have : i - 2 < 30 := by omega
      simp [hi, this]
    · have hx : x.testBit i = false := by
        apply Nat.testBit_lt_two_pow
        calc x < 2 ^ 32 := hlt
          _ ≤ 2 ^ i := Nat.pow_le_pow_right (by decide) (by omega)
      simp [hx]
  · have hx : x.testBit i = false := by
      obtain ⟨c, hc⟩ : 4 ∣ x := Nat.dvd_of_mod_eq_zero h4
      have hi' : i = 0 ∨ i = 1 := by omega
      rcases hi' with rfl | rfl
      · simp [Nat.testBit_zero, hc]; omega
      · rw [Nat.testBit_succ, Nat.testBit_zero]
        have : x / 2 = 2 * c := by omega
        simp [this]
    simp [hx]

theorem intoBuffer_eq (n : Nat) (out : List Byte) (h : out.length = n) :
    intoBuffer n out = out := by
  unfold intoBuffer
  rw [h, Nat.sub_self]
  simp [← h]

theorem length_intoBuffer (n : Nat) (out : List Byte) : (intoBuffer n out).length = n := by
  unfold intoBuffer
  simp
  omega

theorem length_computeMsgKey (E : Externals) (key data : List Byte) :
    (computeMsgKey E key data).length = 16 := by
  simp [computeMsgKey]

theorem length_memSlice (buf : List Byte) (heap : Nat → Byte) (s n : Nat) :
    (memSlice buf heap s n).length = n := by
  simp [memSlice]

theorem memSlice_covers (pre mid post : List Byte) (heap : Nat → Byte) (n : Nat)
    (hn : mid.length ≤ n) :
    ∃ rest, memSlice (pre ++ mid ++ post) heap pre.length n = mid ++ rest := by
  refine ⟨(memSlice (pre ++ mid ++ post) heap pre.length n).drop mid.length, ?_⟩
  have htake : (memSlice (pre ++ mid ++ post) heap pre.length n).take mid.length = mid := by
    apply List.ext_getElem
    · simp [length_memSlice]; omega
    · intro i h1 h2
      have hi : i < n := by omega
      simp only [memSlice, List.getElem_take, List.getElem_map, List.getElem_range, memAt]
      have hlt : pre.length + i < (pre ++ mid ++ post).length := by
        simp; omega
      rw [dif_pos hlt]
      simp only [List.append_assoc]
      rw [List.getElem_append_right (by omega)]
      simp [List.getElem_append_left h2]
  conv_lhs => rw [← List.take_append_drop mid.length (memSlice (pre ++ mid ++ post) heap pre.length n)]
  rw [htake]

theorem memSlice_all (buf : List Byte) (heap : Nat → Byte) :
    memSlice buf heap 0 buf.length = buf := by
  obtain ⟨rest, h⟩ := memSlice_covers [] buf [] heap buf.length (le_refl _)
  simp only [List.nil_append, List.append_nil, List.length_nil] at h
  have hl := congrArg List.length h
  simp [length_memSlice] at hl
  rw [h, hl]
  simp

end security

namespace security

/-- The packet `encryptMessage` hands to Base64 for a framed plaintext `F`. -/
theorem encryptMessage_packet (E : Externals) (key : List Byte) (randomNum : Nat)
    (padding : Nat → Byte) (message : List Byte) (hAes : AesIgeContract E)
    (h16 : (framedPlaintext E randomNum padding message).length % 16 = 0)
    (hsize : (framedPlaintext E randomNum padding message).length + 16 < 2 ^ 31) :
    SecurityMessagesHandler.encryptMessage E ⟨some key⟩ randomNum padding message
      = E.toBase64
          (computeMsgKey E key (framedPlaintext E randomNum padding message)
            ++ encryptRaw E key (framedPlaintext E randomNum padding message)
                (computeMsgKey E key (framedPlaintext E randomNum padding message))) := by
  unfold SecurityMessagesHandler.encryptMessage
  simp only []
  change E.toBase64 _ = _
  have hF : E.addPadding (E.setMsgId (E.Serialize message) (randomNum % 2 ^ 64)) padding
      = framedPlaintext E randomNum padding message := rfl
  rw [hF]
  generalize framedPlaintext E randomNum padding message = F at h16 hsize ⊢
  have hfull : u32 (F.length / sizeofMtpPrime) * sizeofMtpPrime = F.length := by
    unfold u32 sizeofMtpPrime
    rw [Nat.mod_eq_of_lt (by omega)]
    omega
  rw [hfull, List.take_length]
  rw [intoBuffer_eq]
  exact (hAes F _ _ h16).1

end security

namespace security

/-- The local values of `decryptMessage` on the Base64 text of a packet made of a
16-byte key `K` and whole blocks `C` that extend past the frame header. -/
theorem decryptLocals_packet (E : Externals) (key : List Byte) (heap : Nat → Byte)
    (K C : List Byte) (hB64 : Base64Contract E) (hK : K.length = 16)
    (hC16 : C.length % 16 = 0) (hsize : C.length + 16 < 2 ^ 31)
    (hbody : E.kMessageBodyPosition * sizeofMtpPrime < C.length) :
    decryptLocals E key heap (E.toBase64 (K ++ C))
      = .ok ⟨4 + C.length / 4, C.length / 4, C.length, K,
          intoBuffer C.length (aesIgeDecrypt E C key K),
          wordAt (intoBuffer C.length (aesIgeDecrypt E C key K)) heap
            E.kMessageLengthPosition⟩ := by
  unfold sizeofMtpPrime at hbody
  have hints : u32 ((K ++ C).length / u32 sizeofMtpPrime) = 4 + C.length / 4 := by
    unfold u32 sizeofMtpPrime
    rw [List.length_append, hK]
    norm_num
    rw [Nat.mod_eq_of_lt (by omega)]
    omega
  have hclear : clearLowTwoBits (4 + C.length / 4 - kExternalHeaderIntsCount)
      = C.length / 4 := by
    have : 4 + C.length / 4 - kExternalHeaderIntsCount = C.length / 4 := by
      unfold kExternalHeaderIntsCount; omega
    rw [this]
    exact clearLowTwoBits_eq _ (by omega) (by omega)
  have hbytes : u32 (C.length / 4 * sizeofMtpPrime) = C.length := by
    unfold u32 sizeofMtpPrime
    rw [Nat.mod_eq_of_lt (by omega)]
    omega
  have hdrop : (K ++ C).drop (kExternalHeaderIntsCount * sizeofMtpPrime) = C := by
    have : kExternalHeaderIntsCount * sizeofMtpPrime = K.length := by
      rw [hK]; rfl
    rw [this, List.drop_left]
  have htake : ((K ++ C).drop (kMessageKeyPosition * sizeofMtpPrime)).take 16 = K := by
    have : kMessageKeyPosition * sizeofMtpPrime = 0 := rfl
    rw [this, List.drop_zero, ← hK, List.take_left]
  unfold decryptLocals
  simp only [hB64 (K ++ C), hints, hclear, hbytes, hdrop, htake, List.take_length]
  rw [if_neg (by unfold kExternalHeaderIntsCount; omega), if_neg (by omega)]

/-- C1. For a handler made from a non-empty key, whose Base64 and AES-IGE primitives keep
their contracts, and a message that `SerializedRequest` frames as its contract says,
`decryptMessage(encryptMessage(m))` is `m`, for any random message id and padding and
any memory after the decrypted buffer. -/
theorem decryptMessage_encryptMessage (E : Externals) (encryptionKey : List Byte)
    (randomNum : Nat) (padding heap : Nat → Byte) (m : List Byte)
    (hkey : encryptionKey ≠ [])
    (hB64 : Base64Contract E) (hAes : AesIgeContract E)
    (hFrame : FrameContract E randomNum padding m) :
    (SecurityMessagesHandler.new E (some ⟨encryptionKey⟩)).decryptMessage E heap
      ((SecurityMessagesHandler.new E (some ⟨encryptionKey⟩)).encryptMessage E randomNum
        padding m) = m := by
  obtain ⟨header, body, pad, hF, hhdr, hbody, h16, hsize, hlen, hread⟩ := hFrame
  have hnew : SecurityMessagesHandler.new E (some ⟨encryptionKey⟩)
      = ⟨some (E.FillData encryptionKey)⟩ := by
    unfold SecurityMessagesHandler.new
    have : encryptionKey.isEmpty = false := by
      cases encryptionKey with
      | nil => exact absurd rfl hkey
      | cons a t => rfl
    simp [this]
  rw [hnew]
  generalize E.FillData encryptionKey = key
  rw [encryptMessage_packet E key randomNum padding m hAes (by rw [hF]; exact h16)
    (by rw [hF]; exact hsize)]
  rw [hF]
  generalize hFdef : header ++ body ++ pad = F at h16 hsize hlen
  have hFlen : F.length = header.length + body.length + pad.length := by
    rw [← hFdef]; simp; omega
  obtain ⟨hClen, hdec⟩ := hAes F (E.prepareAES key (computeMsgKey E key F) false).1
    (E.prepareAES key (computeMsgKey E key F) false).2 h16
  have hloc := decryptLocals_packet E key heap (computeMsgKey E key F)
    (encryptRaw E key F (computeMsgKey E key F)) hB64 (length_computeMsgKey E key F)
    (by unfold encryptRaw; rw [hClen]; exact h16)
    (by unfold encryptRaw; rw [hClen]; exact hsize)
    (by unfold encryptRaw; rw [hClen]; omega)
  have hCl : (encryptRaw E key F (computeMsgKey E key F)).length = F.length := hClen
  have hbuf : intoBuffer F.length
      (aesIgeDecrypt E (encryptRaw E key F (computeMsgKey E key F)) key (computeMsgKey E key F))
      = F := by
    have : aesIgeDecrypt E (encryptRaw E key F (computeMsgKey E key F)) key
        (computeMsgKey E key F) = F := hdec
    rw [this, intoBuffer_eq _ _ rfl]
  rw [hCl, hbuf] at hloc
  unfold SecurityMessagesHandler.decryptMessage SecurityMessagesHandler.decryptExit
  simp only [hloc]
  have hre : recomputedMsgKey E key heap
      ⟨4 + F.length / 4, F.length / 4, F.length, computeMsgKey E key F, F,
        wordAt F heap E.kMessageLengthPosition⟩ = computeMsgKey E key F := by
    unfold recomputedMsgKey
    simp only []
    have : (4 + F.length / 4 - kExternalHeaderIntsCount) * sizeofMtpPrime = F.length := by
      unfold kExternalHeaderIntsCount sizeofMtpPrime; omega
    rw [this, memSlice_all]
  rw [hre]
  simp only [ne_eq, not_true_eq_false, if_false]
  have hregion : ∃ rest, readRegion E heap
      ⟨4 + F.length / 4, F.length / 4, F.length, computeMsgKey E key F, F,
        wordAt F heap E.kMessageLengthPosition⟩ = body ++ rest := by
    unfold readRegion
    simp only []
    rw [← hhdr, ← hFdef]
    apply memSlice_covers
    have := hlen heap
    rw [← hFdef] at this
    exact this
  obtain ⟨rest, hrest⟩ := hregion
  rw [hrest, hread rest]

end security

namespace security

theorem sample_base64Contract : Base64Contract Sample.externals := by
  intro x
  exact List.reverse_reverse x

theorem sample_aesIgeContract : AesIgeContract Sample.externals := by
  intro src key iv _
  refine ⟨by simp [Sample.externals], ?_⟩
  simp only [Sample.externals, List.map_map]
  conv_rhs => rw [← List.map_id src]
  apply List.map_congr_left
  intro b _
  simp

theorem sample_frameContract : FrameContract Sample.externals 5 Sample.padding Sample.ping := by
  refine ⟨List.replicate 16 0 ++ [5, 0, 0, 0, 0, 0, 0, 0, 0, 0, 0, 0, 8, 0, 0, 0],
    [4, 112, 105, 110, 103, 0, 0, 0],
    [1, 2, 3, 4, 5, 6, 7, 8, 9, 10, 11, 12, 13, 14, 15, 16, 17, 18, 19, 20, 21, 22, 23, 24],
    by decide, by decide, by decide, by decide, by decide, ?_, ?_⟩
  · intro heap
    have : wordAt (List.replicate 16 0 ++ [5, 0, 0, 0, 0, 0, 0, 0, 0, 0, 0, 0, 8, 0, 0, 0]
        ++ [4, 112, 105, 110, 103, 0, 0, 0]
        ++ [1, 2, 3, 4, 5, 6, 7, 8, 9, 10, 11, 12, 13, 14, 15, 16, 17, 18, 19, 20, 21, 22, 23, 24])
        heap Sample.externals.kMessageLengthPosition = 8 := by
      simp [wordAt, memAt, Sample.externals, List.replicate, toInt32]
      decide
    rw [this]
    decide
  · intro rest
    have h4 : ((4 : Byte) : Nat) = 4 := rfl
    simp only [Sample.externals, Sample.readString, Sample.ping, List.cons_append, h4,
      List.length_cons]
    rw [if_pos (by omega)]
    rfl

/-- C1, for the message "ping" under the sample instance of the primitives. -/
theorem decryptMessage_encryptMessage_witness :
    Sample.keyBytes ≠ [] ∧ Base64Contract Sample.externals ∧ AesIgeContract Sample.externals ∧
    FrameContract Sample.externals 5 Sample.padding Sample.ping ∧
    (SecurityMessagesHandler.new Sample.externals (some ⟨Sample.keyBytes⟩)).decryptMessage
      Sample.externals Sample.heap
      ((SecurityMessagesHandler.new Sample.externals (some ⟨Sample.keyBytes⟩)).encryptMessage
        Sample.externals 5 Sample.padding Sample.ping) = Sample.ping :=
  ⟨by decide, sample_base64Contract, sample_aesIgeContract, sample_frameContract,
    decryptMessage_encryptMessage Sample.externals Sample.keyBytes 5 Sample.padding Sample.heap
      Sample.ping (by decide) sample_base64Contract sample_aesIgeContract sample_frameContract⟩

end security

namespace security

/-- C3. For a handler with a key and an input that passes both size checks, if the
message key recomputed by `decryptMessage` differs from the envelope's `messageKey`, the
exit taken is the failed key check and the input is returned unchanged, whatever the
string reader would have made of the decrypted bytes. -/
theorem decryptMessage_msgKey_mismatch (E : Externals) (key : List Byte) (heap : Nat → Byte)
    (message : List Byte) (l : DecryptLocals)
    (hl : decryptLocals E key heap message = .ok l)
    (hne : l.msgKey ≠ recomputedMsgKey E key heap l) :
    SecurityMessagesHandler.decryptExit E ⟨some key⟩ heap message = .msgKeyFailed ∧
    SecurityMessagesHandler.decryptMessage E ⟨some key⟩ heap message = message ∧
    ∀ read : List Byte → Option (List Byte),
      SecurityMessagesHandler.decryptMessage { E with read := read } ⟨some key⟩ heap message
        = message := by
  have hexit : ∀ read : List Byte → Option (List Byte),
      SecurityMessagesHandler.decryptExit { E with read := read } ⟨some key⟩ heap message
        = .msgKeyFailed := by
    intro read
    have hl2 : decryptLocals { E with read := read } key heap message = .ok l := hl
    have hne2 : l.msgKey ≠ recomputedMsgKey { E with read := read } key heap l := hne
    unfold SecurityMessagesHandler.decryptExit
    simp only [hl2]
    rw [if_pos hne2]
  have hexit0 : SecurityMessagesHandler.decryptExit E ⟨some key⟩ heap message
      = .msgKeyFailed := hexit E.read
  refine ⟨hexit0, ?_, ?_⟩
  · unfold SecurityMessagesHandler.decryptMessage
    rw [hexit0]
  · intro read
    unfold SecurityMessagesHandler.decryptMessage
    rw [hexit read]

/-- C3, at a forged envelope of 64 zero bytes under the sample instance. -/
theorem decryptMessage_msgKey_mismatch_witness :
    decryptLocals Sample.externals Sample.key Sample.heap Sample.forged
      = .ok Sample.forgedLocals ∧
    Sample.forgedLocals.msgKey
      ≠ recomputedMsgKey Sample.externals Sample.key Sample.heap Sample.forgedLocals ∧
    SecurityMessagesHandler.decryptMessage Sample.externals ⟨some Sample.key⟩ Sample.heap
      Sample.forged = Sample.forged :=
  ⟨by rfl, by decide,
    (decryptMessage_msgKey_mismatch Sample.externals Sample.key Sample.heap Sample.forged
      Sample.forgedLocals (by rfl) (by decide)).2.1⟩

end security

/-! ## Theorems: stored parameters across calls -/

namespace DhExchangeKey

open MTP

theorem updateDhConfig_state (IsPrimeAndGood : List Byte → Int → Bool)
    (kRandomPowerSize : Nat) (self : DHEncryptionKeyExchanger) (data : MTPmessages_DhConfig) :
    (self.updateDhConfig IsPrimeAndGood kRandomPowerSize data).1 = self ∨
    IsPrimeAndGood (self.updateDhConfig IsPrimeAndGood kRandomPowerSize data).1._dhConfig.p
      (self.updateDhConfig IsPrimeAndGood kRandomPowerSize data).1._dhConfig.g = true := by
  cases data with
  | dhConfig g p version random =>
    simp only [DHEncryptionKeyExchanger.updateDhConfig]
    by_cases hg : IsPrimeAndGood p g = true
    · by_cases hr : validRandom kRandomPowerSize random = true
      · right
        simp [hg, hr]
      · left
        simp [hg, hr]
    · left
      simp [hg]
  | dhConfigNotModified random =>
    left
    simp only [DHEncryptionKeyExchanger.updateDhConfig]
    split
    · rfl
    · split <;> rfl

theorem run_state (IsPrimeAndGood : List Byte → Int → Bool) (kRandomPowerSize : Nat)
    (responses : List MTPmessages_DhConfig) (self : DHEncryptionKeyExchanger) :
    self.run IsPrimeAndGood kRandomPowerSize responses = self ∨
    IsPrimeAndGood (self.run IsPrimeAndGood kRandomPowerSize responses)._dhConfig.p
      (self.run IsPrimeAndGood kRandomPowerSize responses)._dhConfig.g = true := by
  induction responses using List.reverseRecOn with
  | nil => left; rfl
  | append_singleton ds d ih =>
    have hstep : self.run IsPrimeAndGood kRandomPowerSize (ds ++ [d])
        = ((self.run IsPrimeAndGood kRandomPowerSize ds).updateDhConfig IsPrimeAndGood
            kRandomPowerSize d).1 := by
      simp [DHEncryptionKeyExchanger.run, List.foldl_append]
    rw [hstep]
    rcases updateDhConfig_state IsPrimeAndGood kRandomPowerSize
      (self.run IsPrimeAndGood kRandomPowerSize ds) d with h | h
    · rw [h]
      exact ih
    · right
      exact h

/-- C11 as stated fails: the constructor stores the pair it is given without the check.
With `g = 4`, `p = 8` (not a safe group) the pair is stored in the constructed state,
stays stored after a rejected fresh response, and a not-modified response is then
accepted on it. -/
theorem run_unsafe_pair_counterexample :
    (DHEncryptionKeyExchanger.new 4 [8])._dhConfig.p ≠ [] ∧
    isSafeGroup (DHEncryptionKeyExchanger.new 4 [8])._dhConfig.p
      (DHEncryptionKeyExchanger.new 4 [8])._dhConfig.g = false ∧
    ((DHEncryptionKeyExchanger.new 4 [8]).run isSafeGroup 256
      [.dhConfig 6 [9] 1 Sample.seed, .dhConfigNotModified Sample.seed])._dhConfig
      = ⟨0, 4, [8]⟩ ∧
    (((DHEncryptionKeyExchanger.new 4 [8]).run isSafeGroup 256
      [.dhConfig 6 [9] 1 Sample.seed]).updateDhConfig isSafeGroup 256
        (.dhConfigNotModified Sample.seed)).2 = Sample.seed := by
  refine ⟨by decide, by decide, by decide, by decide⟩

/-- C11, amended. In every state reached from the constructor by a sequence of
`updateDhConfig` calls, the stored parameters are either still the constructor's
(version 0 and the given `g`, `p`) or a pair that passed the safe-group check;
`updateDhConfig` never stores a pair that fails the check. -/
theorem run_stored_pair_checked (IsPrimeAndGood : List Byte → Int → Bool)
    (kRandomPowerSize : Nat) (g : Int) (p : List Byte)
    (responses : List MTPmessages_DhConfig) :
    ((DHEncryptionKeyExchanger.new g p).run IsPrimeAndGood kRandomPowerSize responses)._dhConfig
      = ⟨0, g, p⟩ ∨
    IsPrimeAndGood
      ((DHEncryptionKeyExchanger.new g p).run IsPrimeAndGood kRandomPowerSize
        responses)._dhConfig.p
      ((DHEncryptionKeyExchanger.new g p).run IsPrimeAndGood kRandomPowerSize
        responses)._dhConfig.g = true := by
  rcases run_state IsPrimeAndGood kRandomPowerSize responses (DHEncryptionKeyExchanger.new g p)
    with h | h
  · left
    rw [h]
    rfl
  · right
    exact h

/-- C12 fails on the code: an exchanger constructed with `g = 5`, `p = 23` has stored
version 0, yet `updateDhConfig` accepts a not-modified response on it and returns the
256 random bytes. -/
theorem updateDhConfig_notModified_zero_version :
    Sample.exchanger._dhConfig.version = 0 ∧
    (Sample.exchanger.updateDhConfig isSafeGroup 256 (.dhConfigNotModified Sample.seed)).2
      = Sample.seed ∧
    Sample.seed ≠ [] := by
  refine ⟨by decide, by decide, by decide⟩

/-- C20. Every non-empty result of `ñreateEncryptionKey` is 256 bytes long, so
`computeFingerprint` accepts it. -/
theorem createEncryptionKey_length (Sha1 : List Byte → Fin 20 → Byte)
    (self : DHEncryptionKeyExchanger) (g_a secretKey : List Byte)
    (hne : self.createEncryptionKey g_a secretKey ≠ []) :
    (self.createEncryptionKey g_a secretKey).length = 256 ∧
    (computeFingerprint Sha1 (self.createEncryptionKey g_a secretKey)).isSome = true := by
  have hlen : (self.createEncryptionKey g_a secretKey).length = 256 := by
    by_cases h : bytesToNat g_a = 0 ∨ bytesToNat g_a = 1
        ∨ bytesToNat self._dhConfig.p ≤ bytesToNat g_a
    · exfalso
      apply hne
      simp only [DHEncryptionKeyExchanger.createEncryptionKey, CreateAuthKey, if_pos h]
      rfl
    · rw [createEncryptionKey_of_valid self g_a secretKey (by omega) (by omega)]
      exact length_toFixedWidth _ _
  refine ⟨hlen, ?_⟩
  rw [computeFingerprint_eq Sha1 _ hlen]
  rfl

/-- C20, at the peer value 8 and the exponent 15 for the stand-in group. -/
theorem createEncryptionKey_length_witness :
    Sample.exchanger.createEncryptionKey [8] (Sample.exponent 15) ≠ [] ∧
    (Sample.exchanger.createEncryptionKey [8] (Sample.exponent 15)).length = 256 ∧
    (computeFingerprint Sample.sha1
      (Sample.exchanger.createEncryptionKey [8] (Sample.exponent 15))).isSome = true :=
  ⟨by decide,
    createEncryptionKey_length Sample.sha1 Sample.exchanger [8] (Sample.exponent 15)
      (by decide)⟩

end DhExchangeKey

/-! ## Theorems: envelope layout and rejection -/

namespace security

theorem clearLowTwoBits_eq_div (x : Nat) (hlt : x < 2 ^ 32) :
    clearLowTwoBits x = x / 4 * 4 := by
  unfold clearLowTwoBits
  apply Nat.eq_of_testBit_eq
  intro i
  rw [Nat.testBit_and]
  have hmask : (0xFFFFFFFC : Nat) = (2 ^ 30 - 1) <<< 2 := by decide
  have hdiv : x / 4 * 4 = (x >>> 2) <<< 2 := by
    rw [Nat.shiftLeft_eq, Nat.shiftRight_eq_div_pow]
  rw [hmask, hdiv, Nat.testBit_shiftLeft, Nat.testBit_shiftLeft, Nat.testBit_two_pow_sub_one,
    Nat.testBit_shiftRight]
  by_cases hi : 2 ≤ i
  · have e : 2 + (i - 2) = i := by omega
    rw [e]
    by_cases hi2 : i < 32
    · have : i - 2 < 30 := by omega
      simp [hi, this]
    · have hx : x.testBit i = false := by
        apply Nat.testBit_lt_two_pow
        calc x < 2 ^ 32 := hlt
          _ ≤ 2 ^ i := Nat.pow_le_pow_right (by decide) (by omega)
      simp [hx]
  · simp [hi]

theorem encryptMessage_buffer (E : Externals) (key : List Byte) (randomNum : Nat)
    (padding : Nat → Byte) (message : List Byte)
    (h4 : (framedPlaintext E randomNum padding message).length % 4 = 0)
    (hsize : (framedPlaintext E randomNum padding message).length + 16 < 2 ^ 31) :
    SecurityMessagesHandler.encryptMessage E ⟨some key⟩ randomNum padding message
      = E.toBase64
          (computeMsgKey E key (framedPlaintext E randomNum padding message)
            ++ intoBuffer (framedPlaintext E randomNum padding message).length
                (encryptRaw E key (framedPlaintext E randomNum padding message)
                  (computeMsgKey E key (framedPlaintext E randomNum padding message)))) := by
  unfold SecurityMessagesHandler.encryptMessage
  simp only []
  change E.toBase64 _ = _
  have hF : E.addPadding (E.setMsgId (E.Serialize message) (randomNum % 2 ^ 64)) padding
      = framedPlaintext E randomNum padding message := rfl
  rw [hF]
  generalize framedPlaintext E randomNum padding message = F at h4 hsize ⊢
  have hfull : u32 (F.length / sizeofMtpPrime) * sizeofMtpPrime = F.length := by
    unfold u32 sizeofMtpPrime
    rw [Nat.mod_eq_of_lt (by omega)]
    omega
  rw [hfull, List.take_length]

theorem sample_paddedFrame : PaddedFrame Sample.externals 5 Sample.padding Sample.ping := by
  refine ⟨by decide, by decide⟩

end security

namespace security

/-- C13. `computeMsgKey` over a buffer `d` is bytes 8..23 of the SHA-256 digest of the
slice `partForMsgKey(true)` of the key followed by all of `d`; the key `encryptMessage`
puts in front of its packet and the key `decryptMessage` compares the envelope's with
are both values of this function. -/
theorem computeMsgKey_digest_slice (E : Externals) (key d : List Byte) :
    computeMsgKey E key d
      = ((List.ofFn (E.SHA256 (E.partForMsgKey key true ++ d))).drop 8).take 16 ∧
    (∀ (randomNum : Nat) (padding : Nat → Byte) (message : List Byte), ∃ dst : List Byte,
      SecurityMessagesHandler.encryptMessage E ⟨some key⟩ randomNum padding message
        = E.toBase64 (computeMsgKey E key
            ((framedPlaintext E randomNum padding message).take
              (u32 ((framedPlaintext E randomNum padding message).length / sizeofMtpPrime)
                * sizeofMtpPrime)) ++ dst)) ∧
    (∀ (heap : Nat → Byte) (message : List Byte) (l : DecryptLocals),
      decryptLocals E key heap message = .ok l →
      (SecurityMessagesHandler.decryptExit E ⟨some key⟩ heap message = .msgKeyFailed ↔
        l.msgKey ≠ computeMsgKey E key
          (memSlice l.decryptedBuffer heap 0
            ((l.intsCount - kExternalHeaderIntsCount) * sizeofMtpPrime)))) := by
  refine ⟨?_, ?_, ?_⟩
  · apply List.ext_getElem
    · simp [computeMsgKey]
    · intro i h1 h2
      simp only [computeMsgKey, List.getElem_take, List.getElem_drop, List.getElem_ofFn]
  · intro randomNum padding message
    exact ⟨_, rfl⟩
  · intro heap message l hl
    unfold SecurityMessagesHandler.decryptExit
    simp only [hl]
    have hre : recomputedMsgKey E key heap l = computeMsgKey E key
        (memSlice l.decryptedBuffer heap 0
          ((l.intsCount - kExternalHeaderIntsCount) * sizeofMtpPrime)) := rfl
    rw [← hre]
    by_cases hk : l.msgKey = recomputedMsgKey E key heap l
    · simp only [hk, ne_eq, not_true_eq_false, if_false, iff_false]
      cases E.read (readRegion E heap l) <;> simp
    · simp [hk]

/-- C14. For a handler with a key whose AES-IGE primitive keeps its contract, and a
message framed to whole blocks, the output of `encryptMessage` is the Base64 encoding
of a 16-byte message key followed by a ciphertext: the key is `computeMsgKey` of the
framed plaintext, the ciphertext is the raw AES-IGE encryption of the whole framed
plaintext under the AES key and IV that `prepareAES` derives from the handler's key and
the message key, and it is as long as the framed plaintext. -/
theorem encryptMessage_envelope (E : Externals) (key : List Byte) (randomNum : Nat)
    (padding : Nat → Byte) (message : List Byte) (hAes : AesIgeContract E)
    (hPad : PaddedFrame E randomNum padding message) :
    ∃ msgKey cipher : List Byte,
      SecurityMessagesHandler.encryptMessage E ⟨some key⟩ randomNum padding message
        = E.toBase64 (msgKey ++ cipher) ∧
      msgKey.length = 16 ∧
      msgKey = computeMsgKey E key (framedPlaintext E randomNum padding message) ∧
      cipher = E.aesIgeEncryptRaw (framedPlaintext E randomNum padding message)
        (E.prepareAES key msgKey false).1 (E.prepareAES key msgKey false).2 ∧
      cipher.length = (framedPlaintext E randomNum padding message).length := by
  refine ⟨computeMsgKey E key (framedPlaintext E randomNum padding message),
    encryptRaw E key (framedPlaintext E randomNum padding message)
      (computeMsgKey E key (framedPlaintext E randomNum padding message)), ?_, ?_, rfl, rfl, ?_⟩
  · exact encryptMessage_packet E key randomNum padding message hAes hPad.1 hPad.2
  · exact length_computeMsgKey E key _
  · exact (hAes _ _ _ hPad.1).1

/-- C14, for the message "ping" under the sample instance. -/
theorem encryptMessage_envelope_witness :
    AesIgeContract Sample.externals ∧
    PaddedFrame Sample.externals 5 Sample.padding Sample.ping ∧
    ∃ msgKey cipher : List Byte,
      SecurityMessagesHandler.encryptMessage Sample.externals ⟨some Sample.key⟩ 5
        Sample.padding Sample.ping = Sample.externals.toBase64 (msgKey ++ cipher) ∧
      msgKey.length = 16 ∧
      msgKey = computeMsgKey Sample.externals Sample.key
        (framedPlaintext Sample.externals 5 Sample.padding Sample.ping) ∧
      cipher = Sample.externals.aesIgeEncryptRaw
        (framedPlaintext Sample.externals 5 Sample.padding Sample.ping)
        (Sample.externals.prepareAES Sample.key msgKey false).1
        (Sample.externals.prepareAES Sample.key msgKey false).2 ∧
      cipher.length = (framedPlaintext Sample.externals 5 Sample.padding Sample.ping).length :=
  ⟨sample_aesIgeContract, sample_paddedFrame,
    encryptMessage_envelope Sample.externals Sample.key 5 Sample.padding Sample.ping
      sample_aesIgeContract sample_paddedFrame⟩

/-- C15. For a handler with a key and a message framed to whole blocks, the packet
`encryptMessage` encodes is a 16-byte message key followed by a ciphertext part whose
byte length is a multiple of 16. -/
theorem encryptMessage_cipher_aligned (E : Externals) (key : List Byte) (randomNum : Nat)
    (padding : Nat → Byte) (message : List Byte)
    (hPad : PaddedFrame E randomNum padding message) :
    ∃ msgKey cipher : List Byte,
      SecurityMessagesHandler.encryptMessage E ⟨some key⟩ randomNum padding message
        = E.toBase64 (msgKey ++ cipher) ∧
      msgKey.length = 16 ∧ cipher.length % 16 = 0 := by
  refine ⟨_, _, encryptMessage_buffer E key randomNum padding message ?_ hPad.2,
    length_computeMsgKey E key _, ?_⟩
  · have := hPad.1
    omega
  · rw [length_intoBuffer]
    exact hPad.1

/-- C15, for the message "ping" under the sample instance. -/
theorem encryptMessage_cipher_aligned_witness :
    PaddedFrame Sample.externals 5 Sample.padding Sample.ping ∧
    ∃ msgKey cipher : List Byte,
      SecurityMessagesHandler.encryptMessage Sample.externals ⟨some Sample.key⟩ 5
        Sample.padding Sample.ping = Sample.externals.toBase64 (msgKey ++ cipher) ∧
      msgKey.length = 16 ∧ cipher.length % 16 = 0 :=
  ⟨sample_paddedFrame,
    encryptMessage_cipher_aligned Sample.externals Sample.key 5 Sample.padding Sample.ping
      sample_paddedFrame⟩

end security

namespace security

/-- C16. For a handler with a key and an input whose decoded payload (a byte array,
below `2^31` bytes) has at most 4 whole words, or whose block-aligned ciphertext has at
most `kMessageBodyPosition` words, `decryptMessage` takes one of the two size exits and
returns the input unchanged, whatever the decryption primitive would compute. -/
theorem decryptMessage_too_small (E : Externals) (key : List Byte) (heap : Nat → Byte)
    (message : List Byte) (hsize : (E.fromBase64 message).length < 2 ^ 31)
    (hsmall : (E.fromBase64 message).length / 4 ≤ 4 ∨
      ((E.fromBase64 message).length / 4 - 4) / 4 * 4 ≤ E.kMessageBodyPosition) :
    (SecurityMessagesHandler.decryptExit E ⟨some key⟩ heap message = .headerTooSmall ∨
      SecurityMessagesHandler.decryptExit E ⟨some key⟩ heap message = .bodyTooSmall) ∧
    SecurityMessagesHandler.decryptMessage E ⟨some key⟩ heap message = message ∧
    ∀ decrypt : List Byte → List Byte → List Byte → List Byte,
      SecurityMessagesHandler.decryptMessage { E with aesIgeDecryptRaw := decrypt }
        ⟨some key⟩ heap message = message := by
  have hexit : ∀ decrypt : List Byte → List Byte → List Byte → List Byte,
      SecurityMessagesHandler.decryptExit { E with aesIgeDecryptRaw := decrypt }
          ⟨some key⟩ heap message = .headerTooSmall ∨
      SecurityMessagesHandler.decryptExit { E with aesIgeDecryptRaw := decrypt }
          ⟨some key⟩ heap message = .bodyTooSmall := by
    intro decrypt
    have hints : u32 ((E.fromBase64 message).length / u32 sizeofMtpPrime)
        = (E.fromBase64 message).length / 4 := by
      unfold u32 sizeofMtpPrime
      norm_num
      omega
    unfold SecurityMessagesHandler.decryptExit decryptLocals
    simp only [hints]
    by_cases hh : (E.fromBase64 message).length / 4 ≤ kExternalHeaderIntsCount
    · left
      rw [if_pos hh]
    · right
      rw [if_neg hh]
      have hb : clearLowTwoBits ((E.fromBase64 message).length / 4 - kExternalHeaderIntsCount)
          ≤ E.kMessageBodyPosition := by
        rw [clearLowTwoBits_eq_div _ (by unfold kExternalHeaderIntsCount; omega)]
        unfold kExternalHeaderIntsCount at hh ⊢
        rcases hsmall with h | h
        · omega
        · exact h
      rw [if_pos hb]
  have hret : ∀ decrypt : List Byte → List Byte → List Byte → List Byte,
      SecurityMessagesHandler.decryptMessage { E with aesIgeDecryptRaw := decrypt }
        ⟨some key⟩ heap message = message := by
    intro decrypt
    unfold SecurityMessagesHandler.decryptMessage
    rcases hexit decrypt with h | h <;> rw [h]
  exact ⟨hexit E.aesIgeDecryptRaw, hret E.aesIgeDecryptRaw, hret⟩

/-- C16, at an envelope of 16 bytes under the sample instance. -/
theorem decryptMessage_too_small_witness :
    (Sample.externals.fromBase64 Sample.headerOnly).length < 2 ^ 31 ∧
    (Sample.externals.fromBase64 Sample.headerOnly).length / 4 ≤ 4 ∧
    SecurityMessagesHandler.decryptMessage Sample.externals ⟨some Sample.key⟩ Sample.heap
      Sample.headerOnly = Sample.headerOnly :=
  ⟨by decide, by decide,
    (decryptMessage_too_small Sample.externals Sample.key Sample.heap Sample.headerOnly
      (by decide) (Or.inl (by decide))).2.1⟩

/-- C17 fails on the code: the envelope of a 64-byte frame that declares a length of
100 words passes the key check, the reader is given the 400 bytes after the body
position although the buffer ends 32 bytes after it, and `decryptMessage` returns the
parsed string instead of the input. -/
theorem decryptMessage_oversized_length :
    decryptLocals Sample.externals Sample.key Sample.heap Sample.oversizedEnvelope
      = .ok Sample.oversizedLocals ∧
    Sample.oversizedLocals.msgKey
      = recomputedMsgKey Sample.externals Sample.key Sample.heap Sample.oversizedLocals ∧
    Sample.oversizedLocals.decryptedBuffer.length = 64 ∧
    (readRegion Sample.externals Sample.heap Sample.oversizedLocals).length = 400 ∧
    SecurityMessagesHandler.decryptExit Sample.externals ⟨some Sample.key⟩ Sample.heap
      Sample.oversizedEnvelope = .result Sample.ping ∧
    SecurityMessagesHandler.decryptMessage Sample.externals ⟨some Sample.key⟩ Sample.heap
      Sample.oversizedEnvelope ≠ Sample.oversizedEnvelope := by
  refine ⟨by rfl, by decide, by decide, by decide, by decide, by decide⟩

/-- C19 fails on the code: for a payload of 13 words after the key, the decrypted
buffer holds 12 words while `computeMsgKey` is given 13, so the recomputed key depends
on the memory after the buffer. -/
theorem decryptMessage_hash_overread :
    decryptLocals Sample.externals Sample.key Sample.heap Sample.unaligned
      = .ok Sample.unalignedLocals ∧
    Sample.unalignedLocals.intsCount - kExternalHeaderIntsCount = 13 ∧
    Sample.unalignedLocals.encryptedIntsCount = 12 ∧
    Sample.unalignedLocals.decryptedBuffer.length = 12 * sizeofMtpPrime ∧
    recomputedMsgKey Sample.externals Sample.key Sample.heap Sample.unalignedLocals
      ≠ recomputedMsgKey Sample.externals Sample.key Sample.zeroHeap Sample.unalignedLocals := by
  refine ⟨by rfl, by decide, by decide, by decide, by decide⟩

/-- C18 as stated fails: a handler made without encryption data has no key, and its
`encryptMessage` returns the plaintext "ping" itself. -/
theorem encryptMessage_no_key_counterexample :
    (SecurityMessagesHandler.new Sample.externals none)._encryptionKey = none ∧
    (SecurityMessagesHandler.new Sample.externals none).encryptMessage Sample.externals 5
      Sample.padding Sample.ping = Sample.ping := by
  refine ⟨by decide, by decide⟩

/-- C18, amended. A handler without a key returns the message unchanged; a handler with
a key never returns the plaintext itself, given that Base64 does not shorten its input
and that the framed plaintext, padded to whole blocks, is at least as long as the
message. -/
theorem encryptMessage_not_plaintext (E : Externals) (key : List Byte) (randomNum : Nat)
    (padding : Nat → Byte) (message : List Byte)
    (hB64 : ∀ x : List Byte, x.length ≤ (E.toBase64 x).length)
    (hPad : PaddedFrame E randomNum padding message)
    (hlen : message.length ≤ (framedPlaintext E randomNum padding message).length) :
    SecurityMessagesHandler.encryptMessage E ⟨none⟩ randomNum padding message = message ∧
    SecurityMessagesHandler.encryptMessage E ⟨some key⟩ randomNum padding message
      ≠ message := by
  refine ⟨rfl, ?_⟩
  intro heq
  have h4 : (framedPlaintext E randomNum padding message).length % 4 = 0 := by
    have := hPad.1
    omega
  rw [encryptMessage_buffer E key randomNum padding message h4 hPad.2] at heq
  have hl := congrArg List.length heq
  have hb := hB64 (computeMsgKey E key (framedPlaintext E randomNum padding message)
    ++ intoBuffer (framedPlaintext E randomNum padding message).length
        (encryptRaw E key (framedPlaintext E randomNum padding message)
          (computeMsgKey E key (framedPlaintext E randomNum padding message))))
  rw [List.length_append, length_computeMsgKey, length_intoBuffer] at hb
  omega

/-- C18 amended, for the message "ping" under the sample instance. -/
theorem encryptMessage_not_plaintext_witness :
    (∀ x : List Byte, x.length ≤ (Sample.externals.toBase64 x).length) ∧
    PaddedFrame Sample.externals 5 Sample.padding Sample.ping ∧
    Sample.ping.length
      ≤ (framedPlaintext Sample.externals 5 Sample.padding Sample.ping).length ∧
    SecurityMessagesHandler.encryptMessage Sample.externals ⟨some Sample.key⟩ 5
      Sample.padding Sample.ping ≠ Sample.ping :=
  ⟨fun x => le_of_eq (List.length_reverse x).symm, sample_paddedFrame, by decide,
    (encryptMessage_not_plaintext Sample.externals Sample.key 5 Sample.padding Sample.ping
      (fun x => le_of_eq (List.length_reverse x).symm) sample_paddedFrame (by decide)).2⟩

end security

/-! ## Theorems: requesting an encrypted chat -/

namespace DhExchangeKey

theorem isRandomIdDuplicate_iff (error : RPCError) :
    isRandomIdDuplicate error = true ↔ error = ⟨"RANDOM_ID_DUPLICATE", 400⟩ := by
  cases error with
  | mk type code =>
    simp [isRandomIdDuplicate]

theorem requestEncryption_sent_head (m : MTP.ModExpFirst) (rnd : Nat → Int) (draw : Nat)
    (replies : List Reply) :
    ∃ tail, (requestEncryption m rnd draw replies).sent = ⟨rnd draw, m.modexp⟩ :: tail := by
  cases replies with
  | nil => exact ⟨[], rfl⟩
  | cons r rs =>
    cases r with
    | done result => cases result <;> exact ⟨[], rfl⟩
    | fail error =>
      by_cases h : isRandomIdDuplicate error = true
      · exact ⟨(requestEncryption m rnd (draw + 1) rs).sent, by simp [requestEncryption, h]⟩
      · exact ⟨[], by simp [requestEncryption, h]⟩

theorem requestEncryption_duplicate (m : MTP.ModExpFirst) (rnd : Nat → Int) (draw : Nat)
    (r : Reply) (replies : List Reply) (h : r.isDuplicate = true) :
    requestEncryption m rnd draw (r :: replies)
      = ⟨⟨rnd draw, m.modexp⟩ :: (requestEncryption m rnd (draw + 1) replies).sent,
          (requestEncryption m rnd (draw + 1) replies).stored⟩ := by
  cases r with
  | done result => simp [Reply.isDuplicate] at h
  | fail error =>
    simp only [Reply.isDuplicate] at h
    simp [requestEncryption, h]

theorem requestEncryption_other (m : MTP.ModExpFirst) (rnd : Nat → Int) (draw : Nat)
    (r : Reply) (replies : List Reply) (h : r.isDuplicate = false) :
    requestEncryption m rnd draw (r :: replies)
      = ⟨[⟨rnd draw, m.modexp⟩],
          if r = .done .encryptedChatWaiting
          then some ⟨m.modexp, m.randomPower, rnd draw⟩ else none⟩ := by
  cases r with
  | done result => cases result <;> simp [requestEncryption]
  | fail error =>
    simp only [Reply.isDuplicate] at h
    simp [requestEncryption, h]

theorem reissued_eq_takeWhile (m : MTP.ModExpFirst) (rnd : Nat → Int) (draw : Nat)
    (replies : List Reply) :
    reissued (requestEncryption m rnd draw replies)
      = (replies.takeWhile Reply.isDuplicate).length := by
  induction replies generalizing draw with
  | nil => rfl
  | cons r rs ih =>
    by_cases h : r.isDuplicate = true
    · rw [requestEncryption_duplicate m rnd draw r rs h, List.takeWhile_cons_of_pos h]
      have := ih (draw + 1)
      obtain ⟨tail, ht⟩ := requestEncryption_sent_head m rnd (draw + 1) rs
      simp only [reissued, List.length_cons] at this ⊢
      rw [ht] at this ⊢
      simp only [List.length_cons] at this ⊢
      omega
    · have h' : r.isDuplicate = false := by simpa using h
      rw [requestEncryption_other m rnd draw r rs h', List.takeWhile_cons_of_neg h]
      rfl

end DhExchangeKey

namespace DhExchangeKey

/-- C22. Whatever the first reply to a request, `requestEncryption` re-issues a request
exactly when that reply is the failure of type `RANDOM_ID_DUPLICATE` and code 400; the
re-issued request carries the same public value and the next value of `getRandomNum`;
after any other reply the first request is the only one sent. -/
theorem requestEncryption_reissues_iff (m : MTP.ModExpFirst) (rnd : Nat → Int) (draw : Nat)
    (reply : Reply) (replies : List Reply) :
    (0 < reissued (requestEncryption m rnd draw (reply :: replies))
      ↔ reply = .fail ⟨"RANDOM_ID_DUPLICATE", 400⟩) ∧
    (reply = .fail ⟨"RANDOM_ID_DUPLICATE", 400⟩ →
      ∃ tail, (requestEncryption m rnd draw (reply :: replies)).sent
        = ⟨rnd draw, m.modexp⟩ :: ⟨rnd (draw + 1), m.modexp⟩ :: tail) ∧
    (reply ≠ .fail ⟨"RANDOM_ID_DUPLICATE", 400⟩ →
      (requestEncryption m rnd draw (reply :: replies)).sent = [⟨rnd draw, m.modexp⟩]) := by
  have hdup : reply.isDuplicate = true ↔ reply = .fail ⟨"RANDOM_ID_DUPLICATE", 400⟩ := by
    cases reply with
    | done result => simp [Reply.isDuplicate]
    | fail error =>
      simp only [Reply.isDuplicate, isRandomIdDuplicate_iff]
      constructor
      · intro h; rw [h]
      · intro h; injection h
  refine ⟨?_, ?_, ?_⟩
  · rw [reissued_eq_takeWhile, ← hdup]
    by_cases h : reply.isDuplicate = true
    · rw [List.takeWhile_cons_of_pos h]
      simp [h]
    · rw [List.takeWhile_cons_of_neg h]
      simp [h]
  · intro h
    have hd := hdup.mpr h
    obtain ⟨tail, ht⟩ := requestEncryption_sent_head m rnd (draw + 1) replies
    refine ⟨tail, ?_⟩
    rw [requestEncryption_duplicate m rnd draw reply replies hd, ht]
  · intro h
    have hd : reply.isDuplicate = false := by
      cases hr : reply.isDuplicate with
      | false => rfl
      | true => exact absurd (hdup.mp hr) h
    rw [requestEncryption_other m rnd draw reply replies hd]

/-- C22, at a duplicate failure followed by an accepted request. -/
theorem requestEncryption_reissues_iff_witness :
    (requestEncryption Sample.modExpFirst Sample.randomNum 0
      [Sample.duplicate, .done .encryptedChatWaiting]).sent
      = [⟨1000, [8]⟩, ⟨1001, [8]⟩] ∧
    (requestEncryption Sample.modExpFirst Sample.randomNum 0
      [.fail ⟨"RANDOM_ID_DUPLICATE", 500⟩, .done .encryptedChatWaiting]).sent
      = [⟨1000, [8]⟩] := by
  have h := requestEncryption_reissues_iff Sample.modExpFirst Sample.randomNum 0
    (.fail ⟨"RANDOM_ID_DUPLICATE", 500⟩) [.done .encryptedChatWaiting]
  exact ⟨by decide, h.2.2 (by decide)⟩

/-- C23 as stated fails: no bound holds for the number of re-issued requests; a
transport that answers `B + 1` attempts with `RANDOM_ID_DUPLICATE`/400 gets `B + 1`
re-issued requests. -/
theorem requestEncryption_unbounded_counterexample :
    ¬ ∃ B : Nat, ∀ replies : List Reply,
      reissued (requestEncryption Sample.modExpFirst Sample.randomNum 0 replies) ≤ B := by
  rintro ⟨B, hB⟩
  have h := hB (List.replicate (B + 1) Sample.duplicate)
  rw [reissued_eq_takeWhile] at h
  have hall : (List.replicate (B + 1) Sample.duplicate).takeWhile Reply.isDuplicate
      = List.replicate (B + 1) Sample.duplicate := by
    rw [List.takeWhile_eq_self_iff]
    intro x hx
    rw [List.eq_of_mem_replicate hx]
    decide
  rw [hall, List.length_replicate] at h
  omega

/-- C23, amended. The retry has no bound of its own: `requestEncryption` re-issues one
request for every `RANDOM_ID_DUPLICATE`/400 reply at the head of the replies and stops
at the first other reply, so the number of re-issued requests is the number of leading
duplicate replies. -/
theorem requestEncryption_reissued_count (m : MTP.ModExpFirst) (rnd : Nat → Int) (draw : Nat)
    (replies : List Reply) :
    reissued (requestEncryption m rnd draw replies)
      = (replies.takeWhile Reply.isDuplicate).length ∧
    ∀ n : Nat, reissued (requestEncryption m rnd draw (List.replicate n Sample.duplicate)) = n := by
  refine ⟨reissued_eq_takeWhile m rnd draw replies, ?_⟩
  intro n
  rw [reissued_eq_takeWhile]
  have hall : (List.replicate n Sample.duplicate).takeWhile Reply.isDuplicate
      = List.replicate n Sample.duplicate := by
    rw [List.takeWhile_eq_self_iff]
    intro x hx
    rw [List.eq_of_mem_replicate hx]
    decide
  rw [hall, List.length_replicate]

theorem requestEncryption_after_duplicates (m : MTP.ModExpFirst) (rnd : Nat → Int)
    (dups : List Reply) (hd : ∀ r ∈ dups, r.isDuplicate = true) (draw : Nat)
    (replies : List Reply) :
    (requestEncryption m rnd draw (dups ++ replies)).stored
      = (requestEncryption m rnd (draw + dups.length) replies).stored ∧
    (requestEncryption m rnd draw (dups ++ replies)).sent.getLast?
      = (requestEncryption m rnd (draw + dups.length) replies).sent.getLast? := by
  induction dups generalizing draw with
  | nil => simp
  | cons r rs ih =>
    have hr : r.isDuplicate = true := hd r (List.mem_cons_self _ _)
    have hrs : ∀ x ∈ rs, x.isDuplicate = true := fun x hx => hd x (List.mem_cons_of_mem _ hx)
    rw [List.cons_append, requestEncryption_duplicate m rnd draw r (rs ++ replies) hr]
    have := ih hrs (draw + 1)
    have e : draw + 1 + rs.length = draw + (r :: rs).length := by
      simp only [List.length_cons]; omega
    rw [e] at this
    refine ⟨this.1, ?_⟩
    obtain ⟨tail, ht⟩ := requestEncryption_sent_head m rnd (draw + 1) (rs ++ replies)
    simp only []
    rw [← this.2, ht]
    simp [List.getLast?_cons_cons]

/-- C27. After any number of duplicate-identifier failures, the reply that ends the run
decides what is recorded: for `encryptedChatWaiting` the call of
`setDataOfEncryptionChat` gets the `modexp` and `randomPower` of the `ModExpFirst` and
the identifier of the last request sent; for every other variant, for any other
failure, and while no reply has arrived, nothing is recorded. -/
theorem requestEncryption_stored (m : MTP.ModExpFirst) (rnd : Nat → Int) (draw : Nat)
    (dups : List Reply) (result : MTPEncryptedChat) (error : RPCError) (rest : List Reply)
    (hd : ∀ r ∈ dups, r.isDuplicate = true) (he : isRandomIdDuplicate error = false) :
    ((requestEncryption m rnd draw (dups ++ .done result :: rest)).stored
      = if result = .encryptedChatWaiting
        then some ⟨m.modexp, m.randomPower, rnd (draw + dups.length)⟩ else none) ∧
    (requestEncryption m rnd draw (dups ++ .done result :: rest)).sent.getLast?
      = some ⟨rnd (draw + dups.length), m.modexp⟩ ∧
    (requestEncryption m rnd draw (dups ++ .fail error :: rest)).stored = none ∧
    (requestEncryption m rnd draw dups).stored = none := by
  refine ⟨?_, ?_, ?_, ?_⟩
  · rw [(requestEncryption_after_duplicates m rnd dups hd draw _).1]
    cases result <;> simp [requestEncryption]
  · rw [(requestEncryption_after_duplicates m rnd dups hd draw _).2]
    cases result <;> simp [requestEncryption]
  · rw [(requestEncryption_after_duplicates m rnd dups hd draw _).1]
    simp [requestEncryption, he]
  · have := (requestEncryption_after_duplicates m rnd dups hd draw []).1
    rw [List.append_nil] at this
    rw [this]
    rfl

/-- C27, at one duplicate failure followed by `encryptedChatWaiting`. -/
theorem requestEncryption_stored_witness :
    (∀ r ∈ [Sample.duplicate], r.isDuplicate = true) ∧
    isRandomIdDuplicate ⟨"FLOOD_WAIT", 420⟩ = false ∧
    (requestEncryption Sample.modExpFirst Sample.randomNum 0
      ([Sample.duplicate] ++ .done .encryptedChatWaiting :: [])).stored
      = some ⟨[8], Sample.exponent 6, 1001⟩ :=
  ⟨by decide, by decide,
    (requestEncryption_stored Sample.modExpFirst Sample.randomNum 0 [Sample.duplicate]
      .encryptedChatWaiting ⟨"FLOOD_WAIT", 420⟩ [] (by decide) (by decide)).1⟩

end DhExchangeKey

/-! ## Theorems: what calls leave unchanged -/

namespace security

/-- C24. Whatever calls of `encryptMessage` and `decryptMessage` were made on a handler,
with whatever inputs and outcomes, the handler and its key are as before, and a
following `decryptMessage` returns what it would have returned before those calls. -/
theorem performAll_unchanged (E : Externals) (self : SecurityMessagesHandler)
    (calls : List HandlerCall) :
    self.performAll E calls = self ∧
    (self.performAll E calls)._encryptionKey = self._encryptionKey ∧
    ∀ (heap : Nat → Byte) (message : List Byte),
      (self.performAll E calls).decryptMessage E heap message
        = self.decryptMessage E heap message := by
  have h : self.performAll E calls = self := by
    induction calls generalizing self with
    | nil => rfl
    | cons c cs ih =>
      have hstep : (self.perform E c).1 = self := by
        cases c <;> rfl
      simp only [SecurityMessagesHandler.performAll, List.foldl_cons, hstep]
      exact ih self
  refine ⟨h, by rw [h], ?_⟩
  intro heap message
  rw [h]

end security

namespace DhExchangeKey

open MTP

/-- C25. For a 256-byte secret `S`, `computeFingerprint(S)` called on any two exchanger
states returns the same value, a number below `2^64` that is a function of the SHA-1
digest of `S` alone. -/
theorem computeFingerprint_deterministic (Sha1 : List Byte → Fin 20 → Byte)
    (s1 s2 : DHEncryptionKeyExchanger) (S : List Byte) (hS : S.length = 256) :
    s1.computeFingerprint Sha1 S = s2.computeFingerprint Sha1 S ∧
    ∃ fp, s1.computeFingerprint Sha1 S = some fp ∧ fp < 2 ^ 64 ∧
      fp = (Sha1 S 12).val + (Sha1 S 13).val * 2 ^ 8 + (Sha1 S 14).val * 2 ^ 16
        + (Sha1 S 15).val * 2 ^ 24 + (Sha1 S 16).val * 2 ^ 32 + (Sha1 S 17).val * 2 ^ 40
        + (Sha1 S 18).val * 2 ^ 48 + (Sha1 S 19).val * 2 ^ 56 := by
  refine ⟨rfl, _, computeFingerprint_eq Sha1 S hS, ?_, rfl⟩
  exact computeFingerprint_lt Sha1 S _ (computeFingerprint_eq Sha1 S hS)

/-- C25, at the zero key on two exchangers with different stored parameters. -/
theorem computeFingerprint_deterministic_witness :
    Sample.zeroKey.length = 256 ∧
    Sample.exchanger.computeFingerprint Sample.sha1 Sample.zeroKey
      = (DHEncryptionKeyExchanger.new 4 [8]).computeFingerprint Sample.sha1 Sample.zeroKey :=
  ⟨List.length_replicate 256 0,
    (computeFingerprint_deterministic Sample.sha1 Sample.exchanger
      (DHEncryptionKeyExchanger.new 4 [8]) Sample.zeroKey (List.length_replicate 256 0)).1⟩

/-- C26. When `updateDhConfig` accepts a fresh-parameters response (returns a non-empty
span), the stored parameters are the response's `(version, g, p)`; a not-modified
response, accepted or not, leaves the stored parameters unchanged. -/
theorem updateDhConfig_stored (IsPrimeAndGood : List Byte → Int → Bool)
    (kRandomPowerSize : Nat) (self : DHEncryptionKeyExchanger) (g version : Int)
    (p random other : List Byte)
    (hacc : (self.updateDhConfig IsPrimeAndGood kRandomPowerSize
      (.dhConfig g p version random)).2 ≠ []) :
    (self.updateDhConfig IsPrimeAndGood kRandomPowerSize
      (.dhConfig g p version random)).1._dhConfig = ⟨version, g, p⟩ ∧
    (self.updateDhConfig IsPrimeAndGood kRandomPowerSize
      (.dhConfigNotModified other)).1._dhConfig = self._dhConfig := by
  constructor
  · simp only [DHEncryptionKeyExchanger.updateDhConfig] at hacc ⊢
    by_cases hg : IsPrimeAndGood p g = true
    · by_cases hr : validRandom kRandomPowerSize random = true
      · simp [hg, hr]
      · simp [hg, hr] at hacc
    · simp [hg] at hacc
  · simp only [DHEncryptionKeyExchanger.updateDhConfig]
    split
    · rfl
    · split <;> rfl

/-- C26, at the fresh response `g = 7`, `p = 47`, version 3 with a 256-byte seed. -/
theorem updateDhConfig_stored_witness :
    (Sample.exchanger.updateDhConfig isSafeGroup 256
      (.dhConfig 7 [47] 3 Sample.seed)).2 ≠ [] ∧
    (Sample.exchanger.updateDhConfig isSafeGroup 256
      (.dhConfig 7 [47] 3 Sample.seed)).1._dhConfig = ⟨3, 7, [47]⟩ :=
  ⟨by decide,
    (updateDhConfig_stored isSafeGroup 256 Sample.exchanger 7 3 [47] Sample.seed []
      (by decide)).1⟩

end DhExchangeKey

/-! ## Theorems: serialized strings -/

namespace Export.Output

/-- C29 fails on the code: for the three bytes E2 80 A8 the escape `\u2028` is written
for the first byte only, the pointer advances by one, and the bytes 80 A8 follow
unescaped: ten bytes, not eight.  Likewise for E2 80 A9. -/
theorem SerializeString_separator :
    JsonDataBuilder.SerializeString [0xE2, 0x80, 0xA8]
      = [34, 92, 117, 50, 48, 50, 56, 0x80, 0xA8, 34] ∧
    JsonDataBuilder.SerializeString [0xE2, 0x80, 0xA9]
      = [34, 92, 117, 50, 48, 50, 57, 0x80, 0xA9, 34] ∧
    JsonDataBuilder.SerializeString [0xE2, 0x80, 0xA8] ≠ [34, 92, 117, 50, 48, 50, 56, 34] := by
  refine ⟨by decide, by decide, by decide⟩

end Export.Output

namespace Export.Output

theorem charValue_control (ch : Byte) (h : 0 ≤ charValue ch ∧ charValue ch < 32) :
    ch.val < 32 := by
  unfold charValue at h
  split at h <;> omega

theorem charValue_not_control (ch : Byte) (h : ¬ (0 ≤ charValue ch ∧ charValue ch < 32)) :
    32 ≤ ch.val := by
  unfold charValue at h
  split at h <;> omega

theorem isToken_hex : ∀ ch : Byte, ch.val < 32 →
    isToken [92, 120, Fin.ofNat (48 + (ch.val >>> 4)),
      if ch.val &&& 0x0F ≥ 10 then Fin.ofNat (65 + ((ch.val &&& 0x0F) - 10))
      else Fin.ofNat (48 + (ch.val &&& 0x0F))] = true := by
  decide

theorem isToken_raw (ch : Byte) (h1 : ch ≠ 34) (h2 : ch ≠ 92) (h3 : 32 ≤ ch.val) :
    isToken [ch] = true := by
  simp [isToken, h1, h2, h3]

theorem isToken_escapeChar (ch : Byte) (rest : List Byte) :
    isToken (escapeChar ch rest) = true := by
  unfold escapeChar
  split_ifs with h1 h2 h3 h4 h5 h6
  · decide
  · decide
  · decide
  · decide
  · decide
  · exact isToken_hex ch (charValue_control ch h6)
  · have hraw := isToken_raw ch h4 h5 (charValue_not_control ch h6)
    split
    · split_ifs
      · decide
      · decide
      · exact hraw
      · exact hraw
    · exact hraw

theorem escapeLoop_eq_join (v : List Byte) : escapeLoop v = (escapeTokens v).flatten := by
  induction v with
  | nil => rfl
  | cons ch rest ih => simp [escapeLoop, escapeTokens, ih]

/-- C28. For every byte string `v`, `SerializeString(v)` is a double quote, then the
concatenation of one token per input byte, then a double quote, where every token is
one of the escapes or a single byte that is not a double quote, not a backslash and not
below 32. -/
theorem SerializeString_tokens (v : List Byte) :
    ∃ tokens : List (List Byte),
      JsonDataBuilder.SerializeString v = [34] ++ tokens.flatten ++ [34] ∧
      tokens.length = v.length ∧
      ∀ t ∈ tokens, isToken t = true := by
  refine ⟨escapeTokens v, ?_, ?_, ?_⟩
  · simp [JsonDataBuilder.SerializeString, escapeLoop_eq_join]
  · induction v with
    | nil => rfl
    | cons ch rest ih => simp [escapeTokens, ih]
  · induction v with
    | nil => intro t ht; simp [escapeTokens] at ht
    | cons ch rest ih =>
      intro t ht
      simp only [escapeTokens, List.mem_cons] at ht
      rcases ht with rfl | ht
      · exact isToken_escapeChar ch rest
      · exact ih t ht

theorem decodeToken_hex : ∀ ch : Byte, ch.val < 32 →
    (Fin.ofNat (16 * hexValue (Fin.ofNat (48 + (ch.val >>> 4)))
      + hexValue (if ch.val &&& 0x0F ≥ 10 then Fin.ofNat (65 + ((ch.val &&& 0x0F) - 10))
          else Fin.ofNat (48 + (ch.val &&& 0x0F)))) : Byte) = ch := by
  decide

theorem decodeToken_raw (ch : Byte) (tail : List Byte) (h : ch ≠ 92) :
    decodeToken ([ch] ++ tail) = some (ch, tail) := by
  simp [decodeToken, h]

theorem decodeToken_escapeChar (ch : Byte) (rest tail : List Byte) :
    decodeToken (escapeChar ch rest ++ tail) = some (ch, tail) := by
  unfold escapeChar
  split_ifs with h1 h2 h3 h4 h5 h6
  · subst h1; rfl
  · subst h2; rfl
  · subst h3; rfl
  · subst h4; rfl
  · subst h5; rfl
  · have := decodeToken_hex ch (charValue_control ch h6)
    simp only [decodeToken, List.cons_append, List.nil_append]
    simp [this]
  · have hraw := decodeToken_raw ch tail h5
    split
    · split_ifs with ha hb hc
      · rw [ha.1]; rfl
      · rw [ha.1]; rfl
      · exact hraw
      · exact hraw
    · exact hraw

theorem escapeLoop_injective (v w : List Byte) (h : escapeLoop v = escapeLoop w) : v = w := by
  induction v generalizing w with
  | nil =>
    cases w with
    | nil => rfl
    | cons ch rest =>
      have hd := decodeToken_escapeChar ch rest (escapeLoop rest)
      simp only [escapeLoop] at h
      rw [← h] at hd
      simp [decodeToken] at hd
  | cons ch rest ih =>
    cases w with
    | nil =>
      have hd := decodeToken_escapeChar ch rest (escapeLoop rest)
      simp only [escapeLoop] at h
      rw [h] at hd
      simp [decodeToken] at hd
    | cons ch2 rest2 =>
      have hd := decodeToken_escapeChar ch rest (escapeLoop rest)
      have hd2 := decodeToken_escapeChar ch2 rest2 (escapeLoop rest2)
      simp only [escapeLoop] at h
      rw [h, hd2] at hd
      simp only [Option.some.injEq, Prod.mk.injEq] at hd
      rw [hd.1, ih rest2 hd.2.symm]

/-- C30. `SerializeString` is injective: equal serializations come from equal byte
strings. -/
theorem SerializeString_injective (v w : List Byte)
    (h : JsonDataBuilder.SerializeString v = JsonDataBuilder.SerializeString w) : v = w := by
  unfold JsonDataBuilder.SerializeString at h
  have h1 : escapeLoop v ++ [34] = escapeLoop w ++ [34] := by
    simpa using h
  exact escapeLoop_injective v w (List.append_cancel_right h1)

/-- C30, at two equal serializations of the bytes E2 80 A8. -/
theorem SerializeString_injective_witness :
    JsonDataBuilder.SerializeString [0xE2, 0x80, 0xA8]
      = JsonDataBuilder.SerializeString ([0xE2] ++ [0x80, 0xA8]) ∧
    ([0xE2, 0x80, 0xA8] : List Byte) = [0xE2] ++ [0x80, 0xA8] :=
  ⟨by decide, SerializeString_injective [0xE2, 0x80, 0xA8] ([0xE2] ++ [0x80, 0xA8]) (by decide)⟩

end Export.Output

/-! ## Theorems: the encryption-data cache -/

namespace Export.Output

theorem SerializeString_ne_nil (v : List Byte) : JsonDataBuilder.SerializeString v ≠ [] := by
  simp [JsonDataBuilder.SerializeString]

theorem serializeObject_fold_infix (next target k v : List Byte) (hv : v ≠ [])
    (htarget : target = JsonDataBuilder.SerializeString k ++ [58, 32] ++ v)
    (values : List (List Byte × List Byte)) (state : Bool × List Byte)
    (h : List.IsInfix target state.2 ∨ (k, v) ∈ values) :
    List.IsInfix target (values.foldl (serializeObjectStep next) state).2 := by
  induction values generalizing state with
  | nil =>
    rcases h with h | h
    · exact h
    · simp at h
  | cons pr rest ih =>
    rw [List.foldl_cons]
    apply ih
    rcases h with h | h
    · left
      unfold serializeObjectStep
      split_ifs
      · exact h
      · exact h.trans ⟨[], next ++ JsonDataBuilder.SerializeString pr.1 ++ [58, 32] ++ pr.2,
          by simp⟩
      · exact h.trans ⟨[], [44] ++ next ++ JsonDataBuilder.SerializeString pr.1 ++ [58, 32]
          ++ pr.2, by simp⟩
    · rcases List.mem_cons.mp h with h | h
      · left
        subst h
        have he : ((k, v) : List Byte × List Byte).2.isEmpty = false := by
          cases v with
          | nil => exact absurd rfl hv
          | cons a t => rfl
        unfold serializeObjectStep
        rw [if_neg (by simp [he])]
        subst htarget
        exact ⟨(if state.1 then state.2 else state.2 ++ [44]) ++ next, [], by simp⟩
      · right
        exact h

theorem serializeObject_infix (nesting : List Bool) (k v : List Byte) (hv : v ≠ [])
    (values : List (List Byte × List Byte)) (h : (k, v) ∈ values) :
    List.IsInfix (JsonDataBuilder.SerializeString k ++ [58, 32] ++ v)
      (JsonDataBuilder.SerializeObject nesting values).2 := by
  unfold JsonDataBuilder.SerializeObject
  simp only []
  have := serializeObject_fold_infix
    ([10] ++ JsonDataBuilder.Indentation (nesting ++ [kObject]).length) _ k v hv rfl values
    (true, [123]) (Or.inr h)
  exact this.trans ⟨[], [10] ++ JsonDataBuilder.Indentation nesting.length ++ [125], by simp⟩

theorem serializeObject_nesting (nesting : List Bool) (values : List (List Byte × List Byte)) :
    (JsonDataBuilder.SerializeObject nesting values).1 = nesting := by
  simp [JsonDataBuilder.SerializeObject]

theorem writeDataStep_nesting (toBase64 : List Byte → List Byte)
    (NumberToString : Int → List Byte) (state : JsonDataBuilder × List Byte)
    (userItem : Data.UserEncryptionData) :
    (writeDataStep toBase64 NumberToString state userItem).1.nesting = state.1.nesting := by
  simp [writeDataStep, serializeObject_nesting, JsonDataBuilder.prepareArrayItemStart]

theorem writeData_fold_nesting (toBase64 : List Byte → List Byte)
    (NumberToString : Int → List Byte) (cacheData : List Data.UserEncryptionData)
    (state : JsonDataBuilder × List Byte) :
    (cacheData.foldl (writeDataStep toBase64 NumberToString) state).1.nesting
      = state.1.nesting := by
  induction cacheData generalizing state with
  | nil => rfl
  | cons r rest ih =>
    rw [List.foldl_cons, ih, writeDataStep_nesting]

theorem writeData_fold_infix (toBase64 : List Byte → List Byte)
    (NumberToString : Int → List Byte) (target : List Byte)
    (cacheData : List Data.UserEncryptionData) (state : JsonDataBuilder × List Byte)
    (h : List.IsInfix target state.2 ∨ ∃ r ∈ cacheData, ∀ nesting,
      List.IsInfix target (JsonDataBuilder.SerializeObject nesting
        (encryptionDataPairs toBase64 NumberToString r)).2) :
    List.IsInfix target (cacheData.foldl (writeDataStep toBase64 NumberToString) state).2 := by
  induction cacheData generalizing state with
  | nil =>
    rcases h with h | ⟨r, hr, _⟩
    · exact h
    · simp at hr
  | cons item rest ih =>
    rw [List.foldl_cons]
    apply ih
    rcases h with h | ⟨r, hr, hinf⟩
    · left
      exact h.trans ⟨[], _, by simp [writeDataStep]; rfl⟩
    · rcases List.mem_cons.mp hr with hr | hr
      · left
        subst hr
        obtain ⟨s, t, hst⟩ := hinf (state.1.prepareArrayItemStart).1.nesting
        refine ⟨state.2 ++ (state.1.prepareArrayItemStart).2 ++ s, t, ?_⟩
        simp only [writeDataStep]
        rw [← hst]
        simp
      · right
        exact ⟨r, hr, hinf⟩

end Export.Output

namespace Export.Output


theorem close_nesting (filled : JsonDataBuilder × List Byte)
    (h : filled.1.nesting = [kObject, kArray]) :
    (match filled.1.popNesting with
      | none => none
      | some closedArray =>
        match closedArray.1.popNesting with
        | none => none
        | some closedRoot =>
          if closedRoot.1.isContextNestingEmpty then
            some (closedRoot.1, filled.2 ++ closedArray.2 ++ closedRoot.2)
          else none)
      = some (⟨[], true⟩, filled.2 ++ ([10] ++ JsonDataBuilder.Indentation 1 ++ [93])
          ++ ([10] ++ JsonDataBuilder.Indentation 0 ++ [125])) := by
  have h1 : filled.1.popNesting
      = some (⟨[kObject], true⟩, [10] ++ JsonDataBuilder.Indentation 1 ++ [93]) := by
    unfold JsonDataBuilder.popNesting
    rw [h]
    rfl
  rw [h1]
  rfl

theorem writeDataToCache_block (toBase64 : List Byte → List Byte)
    (NumberToString : Int → List Byte) (had : Bool)
    (cacheData : List Data.UserEncryptionData) :
    JsonEncryptionDataWriter.writeDataToCache toBase64 NumberToString ⟨[], had⟩ cacheData
      = some (⟨[], true⟩,
          (cacheData.foldl (writeDataStep toBase64 NumberToString)
            (⟨[kObject, kArray], false⟩,
              [123] ++ ([10] ++ JsonDataBuilder.Indentation 1
                ++ JsonDataBuilder.SerializeString (ascii "encData_list") ++ [58, 32])
                ++ [91])).2
            ++ ([10] ++ JsonDataBuilder.Indentation 1 ++ [93])
            ++ ([10] ++ JsonDataBuilder.Indentation 0 ++ [125])) := by
  have hn := writeData_fold_nesting toBase64 NumberToString cacheData
    (⟨[kObject, kArray], false⟩,
      [123] ++ ([10] ++ JsonDataBuilder.Indentation 1
        ++ JsonDataBuilder.SerializeString (ascii "encData_list") ++ [58, 32]) ++ [91])
  exact close_nesting _ hn

/-- C21 as stated fails: two one-record lists that differ only in `encryptionKey`, or
only in `secretKey`, give different blocks. -/
theorem writeDataToCache_key_counterexample :
    Sample.recordOtherKey = { Sample.record with encryptionKey := [2] } ∧
    JsonEncryptionDataWriter.writeDataToCache Qt.toBase64 Data.decimalString
        JsonDataBuilder.new [Sample.record]
      ≠ JsonEncryptionDataWriter.writeDataToCache Qt.toBase64 Data.decimalString
        JsonDataBuilder.new [Sample.recordOtherKey] ∧
    Sample.recordOtherSecret = { Sample.record with secretKey := [15] } ∧
    JsonEncryptionDataWriter.writeDataToCache Qt.toBase64 Data.decimalString
        JsonDataBuilder.new [Sample.record]
      ≠ JsonEncryptionDataWriter.writeDataToCache Qt.toBase64 Data.decimalString
        JsonDataBuilder.new [Sample.recordOtherSecret] := by
  refine ⟨rfl, by decide, rfl, by decide⟩

/-- C21, amended. On a builder with an empty nesting stack `writeDataToCache` returns,
and the block it writes contains, for every record of the list, the serialized Base64
text of the record's `encryptionKey` under the key `encryptionKey` and that of its
`secretKey` under the key `secretKey`. -/
theorem writeDataToCache_writes_keys (toBase64 : List Byte → List Byte)
    (NumberToString : Int → List Byte) (had : Bool)
    (cacheData : List Data.UserEncryptionData) :
    ∃ builder block,
      JsonEncryptionDataWriter.writeDataToCache toBase64 NumberToString ⟨[], had⟩ cacheData
        = some (builder, block) ∧
      ∀ r ∈ cacheData,
        List.IsInfix (JsonDataBuilder.SerializeString (ascii "encryptionKey") ++ [58, 32]
          ++ JsonDataBuilder.SerializeString (toBase64 r.encryptionKey)) block ∧
        List.IsInfix (JsonDataBuilder.SerializeString (ascii "secretKey") ++ [58, 32]
          ++ JsonDataBuilder.SerializeString (toBase64 r.secretKey)) block := by
  refine ⟨_, _, writeDataToCache_block toBase64 NumberToString had cacheData, ?_⟩
  intro r hr
  constructor
  · have h := writeData_fold_infix toBase64 NumberToString
      (JsonDataBuilder.SerializeString (ascii "encryptionKey") ++ [58, 32]
        ++ JsonDataBuilder.SerializeString (toBase64 r.encryptionKey)) cacheData
      (⟨[kObject, kArray], false⟩,
        [123] ++ ([10] ++ JsonDataBuilder.Indentation 1
          ++ JsonDataBuilder.SerializeString (ascii "encData_list") ++ [58, 32]) ++ [91])
      (Or.inr ⟨r, hr, fun nesting => serializeObject_infix nesting _ _
        (SerializeString_ne_nil _) _ (by simp [encryptionDataPairs])⟩)
    exact h.trans ⟨[], _, by simp only [List.nil_append, List.append_assoc]; rfl⟩
  · have h := writeData_fold_infix toBase64 NumberToString
      (JsonDataBuilder.SerializeString (ascii "secretKey") ++ [58, 32]
        ++ JsonDataBuilder.SerializeString (toBase64 r.secretKey)) cacheData
      (⟨[kObject, kArray], false⟩,
        [123] ++ ([10] ++ JsonDataBuilder.Indentation 1
          ++ JsonDataBuilder.SerializeString (ascii "encData_list") ++ [58, 32]) ++ [91])
      (Or.inr ⟨r, hr, fun nesting => serializeObject_infix nesting _ _
        (SerializeString_ne_nil _) _ (by simp [encryptionDataPairs])⟩)
    exact h.trans ⟨[], _, by simp only [List.nil_append, List.append_assoc]; rfl⟩

end Export.Output

/-! ## Theorems: the texts of `SerializeObject` and of the cache -/

namespace Export.Output

theorem flatten_intersperse_cons (sep x : List Byte) (xs : List (List Byte)) :
    (List.intersperse sep (x :: xs)).flatten = x ++ (xs.map (fun y => sep ++ y)).flatten := by
  induction xs generalizing x with
  | nil => simp
  | cons y ys ih =>
    rw [List.intersperse_cons_cons, List.flatten_cons, List.flatten_cons, ih]
    simp

theorem serializeObject_fold (d : Nat) (values : List (List Byte × List Byte))
    (state : Bool × List Byte) :
    (values.foldl (serializeObjectStep ([10] ++ JsonDataBuilder.Indentation (d + 1))) state).2
      = state.2 ++
        (if state.1 then
          (List.intersperse [44]
            ((values.filter (fun pair => !pair.2.isEmpty)).map (objectItem d))).flatten
        else
          (((values.filter (fun pair => !pair.2.isEmpty)).map (objectItem d)).map
            (fun y => [44] ++ y)).flatten) := by
  induction values generalizing state with
  | nil => cases state.1 <;> simp
  | cons pair rest ih =>
    rw [List.foldl_cons, ih]
    unfold serializeObjectStep
    by_cases hp : pair.2.isEmpty = true
    · simp [hp]
    · simp only [hp, if_false, Bool.false_eq_true]
      rw [List.filter_cons_of_pos (by simpa using hp), List.map_cons]
      cases state.1
      · simp [objectItem, JsonDataBuilder.Indentation]
      · simp only [if_true, flatten_intersperse_cons]
        simp [objectItem, JsonDataBuilder.Indentation]

theorem serializeObject_text (nesting : List Bool) (values : List (List Byte × List Byte)) :
    (JsonDataBuilder.SerializeObject nesting values).2 = objectText nesting.length values := by
  unfold JsonDataBuilder.SerializeObject objectText
  simp only [List.length_append, List.length_singleton]
  rw [serializeObject_fold]
  simp [JsonDataBuilder.Indentation]

theorem writeData_fold_text (toBase64 : List Byte → List Byte)
    (NumberToString : Int → List Byte) (nesting : List Bool)
    (cacheData : List Data.UserEncryptionData) (had : Bool) (block : List Byte) :
    (cacheData.foldl (writeDataStep toBase64 NumberToString) (⟨nesting, had⟩, block)).2
      = block ++
        (if had then
          ((cacheData.map (fun userItem => [10] ++ List.replicate nesting.length 32
            ++ objectText nesting.length (encryptionDataPairs toBase64 NumberToString userItem))).map
            (fun y => [44] ++ y)).flatten
        else
          (List.intersperse [44]
            (cacheData.map (fun userItem => [10] ++ List.replicate nesting.length 32
              ++ objectText nesting.length
                (encryptionDataPairs toBase64 NumberToString userItem)))).flatten) := by
  induction cacheData generalizing had block with
  | nil => cases had <;> simp
  | cons r rest ih =>
    rw [List.foldl_cons]
    have hstep : writeDataStep toBase64 NumberToString (⟨nesting, had⟩, block) r
        = (⟨nesting, true⟩, block ++ ((if had then [44, 10] else [10])
            ++ List.replicate nesting.length 32)
            ++ objectText nesting.length (encryptionDataPairs toBase64 NumberToString r)) := by
      simp only [writeDataStep, JsonDataBuilder.prepareArrayItemStart, serializeObject_nesting,
        serializeObject_text, JsonDataBuilder.Indentation]
    rw [hstep, ih]
    cases had
    · simp only [if_true, List.map_cons, flatten_intersperse_cons]
      simp
    · simp

theorem objectText_all (d : Nat) (values : List (List Byte × List Byte))
    (h : ∀ pair ∈ values, pair.2 ≠ []) :
    objectText d values
      = [123] ++ (List.intersperse [44] (values.map (objectItem d))).flatten
          ++ [10] ++ List.replicate d 32 ++ [125] := by
  unfold objectText
  have hf : values.filter (fun pair => !pair.2.isEmpty) = values := by
    rw [List.filter_eq_self]
    intro pair hp
    have := h pair hp
    cases hv : pair.2 with
    | nil => exact absurd hv this
    | cons a t => rfl
  rw [hf]

/-- C31. For every nesting stack of depth `d` and every list of pairs, the static
`SerializeObject` returns an opening brace, then, for each pair with a non-empty value,
in input order and separated by commas, a newline, `d + 1` spaces, the serialized key,
a colon with a space and the value, then a newline, `d` spaces and a closing brace;
pairs with an empty value are left out, and a list whose values are all empty gives an
opening brace, a newline, `d` spaces and a closing brace. -/
theorem SerializeObject_format (nesting : List Bool) (values : List (List Byte × List Byte))
    (keys : List (List Byte)) :
    (JsonDataBuilder.SerializeObject nesting values).2 = objectText nesting.length values ∧
    (JsonDataBuilder.SerializeObject nesting (keys.map (fun key => (key, [])))).2
      = [123] ++ [10] ++ List.replicate nesting.length 32 ++ [125] := by
  refine ⟨serializeObject_text nesting values, ?_⟩
  rw [serializeObject_text]
  unfold objectText
  have hf : (keys.map (fun key => ((key, []) : List Byte × List Byte))).filter
      (fun pair => !pair.2.isEmpty) = [] := by
    rw [List.filter_eq_nil_iff]
    intro pair hp
    obtain ⟨key, _, rfl⟩ := List.mem_map.mp hp
    simp
  rw [hf]
  simp

/-- C36. For every list of records, the empty list included, `writeDataToCache` on a
builder with an empty nesting stack reaches its closing assertion and returns with the
nesting stack empty, and the block it writes is one root object whose single key
`encData_list` holds an array with one object per record, in input order, each object
with all nine keys, whatever the byte fields of the record are, given that
`NumberToString` gives a non-empty text for the four numbers of each record. -/
theorem writeDataToCache_shape (toBase64 : List Byte → List Byte)
    (NumberToString : Int → List Byte) (had : Bool)
    (cacheData : List Data.UserEncryptionData)
    (hnum : ∀ userItem ∈ cacheData,
      ∀ n ∈ [userItem.user_id, userItem.g, userItem.encryptionChatId, userItem.dhConfigVersion],
        NumberToString n ≠ []) :
    JsonEncryptionDataWriter.writeDataToCache toBase64 NumberToString ⟨[], had⟩ cacheData
      = some (⟨[], true⟩, cacheBlock toBase64 NumberToString cacheData) ∧
    ∀ userItem,
      (encryptionDataPairs toBase64 NumberToString userItem).map Prod.fst
        = [ascii "user_id", ascii "g", ascii "p", ascii "g_a", ascii "g_b", ascii "secretKey",
            ascii "encryptionKey", ascii "encryptionChatId", ascii "dhConfigVersion"] := by
  refine ⟨?_, fun _ => rfl⟩
  rw [writeDataToCache_block, writeData_fold_text]
  have hmap : cacheData.map (fun userItem => [10] ++ List.replicate [kObject, kArray].length 32
        ++ objectText [kObject, kArray].length
          (encryptionDataPairs toBase64 NumberToString userItem))
      = cacheData.map (fun userItem =>
          [10] ++ List.replicate 2 32 ++ recordObject toBase64 NumberToString userItem) := by
    apply List.map_congr_left
    intro r hr
    have h := hnum r hr
    rw [objectText_all]
    · rfl
    · intro pair hp
      simp only [encryptionDataPairs, List.mem_cons, List.mem_singleton, List.not_mem_nil,
        or_false] at hp
      rcases hp with rfl | rfl | rfl | rfl | rfl | rfl | rfl | rfl | rfl
      · exact h _ (by simp)
      · exact h _ (by simp)
      · exact SerializeString_ne_nil _
      · exact SerializeString_ne_nil _
      · exact SerializeString_ne_nil _
      · exact SerializeString_ne_nil _
      · exact SerializeString_ne_nil _
      · exact h _ (by simp)
      · exact h _ (by simp)
  rw [hmap]
  simp [cacheBlock, JsonDataBuilder.Indentation]

/-- C36, at the empty list and at a list of three records, one of them with an empty
byte field. -/
theorem writeDataToCache_shape_witness :
    (∀ userItem ∈ [Sample.record, Sample.recordEmptyField, Sample.recordOtherKey],
      ∀ n ∈ [userItem.user_id, userItem.g, userItem.encryptionChatId, userItem.dhConfigVersion],
        Data.decimalString n ≠ []) ∧
    JsonEncryptionDataWriter.writeDataToCache Qt.toBase64 Data.decimalString JsonDataBuilder.new
        [Sample.record, Sample.recordEmptyField, Sample.recordOtherKey]
      = some (⟨[], true⟩, cacheBlock Qt.toBase64 Data.decimalString
          [Sample.record, Sample.recordEmptyField, Sample.recordOtherKey]) ∧
    JsonEncryptionDataWriter.writeDataToCache Qt.toBase64 Data.decimalString JsonDataBuilder.new []
      = some (⟨[], true⟩, ascii "\x7b\n \"encData_list\": [\n ]\n\x7d") :=
  ⟨by decide, (writeDataToCache_shape Qt.toBase64 Data.decimalString false
    [Sample.record, Sample.recordEmptyField, Sample.recordOtherKey] (by decide)).1, by decide⟩

end Export.Output

/-! ## Theorems: separators -/

namespace Export.Output

theorem call_tracks (self : JsonDataBuilder) (containers : List OpenContainer)
    (introduced : Bool) (call : BuilderCall) (h : Tracks self containers introduced)
    (hallowed : allowedCall containers introduced call = true) :
    ∃ next, self.call call = some (next, expectedText containers call) ∧
      Tracks next (trackCall containers call) (introducesChild call) := by
  obtain ⟨hn, htail, hhead⟩ := h
  cases call with
  | pushNesting type =>
    refine ⟨(self.pushNesting type).1, rfl, ?_, ?_, ?_⟩
    · simp [JsonDataBuilder.pushNesting, trackCall, hn]
    · intro c hc
      simp only [trackCall, List.tail_cons] at hc
      cases containers with
      | nil => simp at hc
      | cons inner outer =>
        rcases List.mem_cons.mp hc with rfl | hc
        · simp only [allowedCall, List.isEmpty_cons, Bool.false_or] at hallowed
          exact (hhead c rfl).2 hallowed
        · exact htail c hc
    · intro c hc
      simp only [trackCall, List.head?_cons, Option.some.injEq] at hc
      subst hc
      simp [JsonDataBuilder.pushNesting, introducesChild]
  | prepareObjectItemStart key =>
    cases containers with
    | nil => simp [allowedCall] at hallowed
    | cons inner outer =>
      refine ⟨(self.prepareObjectItemStart key).1, ?_, ?_, ?_, ?_⟩
      · have hflag := (hhead inner rfl).1
        simp only [JsonDataBuilder.call, JsonDataBuilder.prepareObjectItemStart, expectedText,
          itemSeparator, JsonDataBuilder.Indentation, hn]
        by_cases hc : inner.children = 0
        · have : self._currentNestingHadItem = false := by
            cases hf : self._currentNestingHadItem with
            | false => rfl
            | true => have := hflag.mp hf; omega
          simp [this, hc]
        · have : self._currentNestingHadItem = true := hflag.mpr (by omega)
          simp [this, hc]
      · simp [JsonDataBuilder.prepareObjectItemStart, trackCall, hn]
      · simpa [trackCall] using htail
      · intro c hc
        simp only [trackCall, List.head?_cons, Option.some.injEq] at hc
        subst hc
        simp [JsonDataBuilder.prepareObjectItemStart]
  | prepareArrayItemStart =>
    cases containers with
    | nil => simp [allowedCall] at hallowed
    | cons inner outer =>
      refine ⟨(self.prepareArrayItemStart).1, ?_, ?_, ?_, ?_⟩
      · have hflag := (hhead inner rfl).1
        simp only [JsonDataBuilder.call, JsonDataBuilder.prepareArrayItemStart, expectedText,
          itemSeparator, JsonDataBuilder.Indentation, hn]
        by_cases hc : inner.children = 0
        · have : self._currentNestingHadItem = false := by
            cases hf : self._currentNestingHadItem with
            | false => rfl
            | true => have := hflag.mp hf; omega
          simp [this, hc]
        · have : self._currentNestingHadItem = true := hflag.mpr (by omega)
          simp [this, hc]
      · simp [JsonDataBuilder.prepareArrayItemStart, trackCall, hn]
      · simpa [trackCall] using htail
      · intro c hc
        simp only [trackCall, List.head?_cons, Option.some.injEq] at hc
        subst hc
        simp [JsonDataBuilder.prepareArrayItemStart]
  | popNesting =>
    cases containers with
    | nil => simp [allowedCall] at hallowed
    | cons inner outer =>
      have hn2 : self.nesting = (outer.map (fun c => c.type)).reverse ++ [inner.type] := by
        simpa using hn
      refine ⟨⟨(outer.map (fun c => c.type)).reverse, true⟩, ?_, ?_, ?_, ?_⟩
      · simp [JsonDataBuilder.call, JsonDataBuilder.popNesting, hn2, expectedText,
          JsonDataBuilder.Indentation]
      · simp [trackCall]
      · intro c hc
        simp only [trackCall, List.tail_cons] at hc
        exact htail c (by simpa using List.mem_of_mem_tail hc)
      · intro c hc
        simp only [trackCall, List.tail_cons] at hc
        have hmem : c ∈ outer := by
          cases outer with
          | nil => simp at hc
          | cons x xs => simp at hc; simp [hc]
        have := htail c (by simpa using hmem)
        simp [this, introducesChild]

theorem run_tracks (calls : List BuilderCall) (self : JsonDataBuilder)
    (containers : List OpenContainer) (introduced : Bool)
    (h : Tracks self containers introduced)
    (hd : disciplined containers introduced calls = true) :
    self.run calls = some (expectedTexts containers calls) := by
  induction calls generalizing self containers introduced with
  | nil => rfl
  | cons call rest ih =>
    simp only [disciplined, Bool.and_eq_true] at hd
    obtain ⟨next, hcall, hnext⟩ := call_tracks self containers introduced call h hd.1
    simp only [JsonDataBuilder.run, hcall, ih next _ _ hnext hd.2, expectedTexts]

/-- C33. For every sequence of `pushNesting`, `prepareObjectItemStart`,
`prepareArrayItemStart` and `popNesting` calls on a builder with an empty nesting stack
in which every child of a container is introduced by a `prepare` call, no `Expects`
fails and every call returns the text described: the text of a `prepare` call starts
with a comma exactly when the item is not the first child of its enclosing container,
and then has a newline and as many spaces as the nesting depth. -/
theorem run_separators (self : JsonDataBuilder) (calls : List BuilderCall)
    (hempty : self.nesting = []) (hd : disciplined [] false calls = true) :
    self.run calls = some (expectedTexts [] calls) := by
  apply run_tracks calls self [] false _ hd
  exact ⟨by simp [hempty], by simp, by simp⟩

/-- C33, at an object with a value, an array of two values and one more value. -/
theorem run_separators_witness :
    (JsonDataBuilder.new.nesting = [] ∧ disciplined [] false Sample.calls = true) ∧
    JsonDataBuilder.new.run Sample.calls = some (expectedTexts [] Sample.calls) ∧
    expectedTexts [] Sample.calls
      = [ascii "\x7b", ascii "\n \"a\": ", ascii ",\n \"list\": ", ascii "[", ascii "\n  ",
          ascii ",\n  ", ascii "\n ]", ascii ",\n \"b\": ", ascii "\n\x7d"] :=
  ⟨⟨rfl, by decide⟩, run_separators JsonDataBuilder.new Sample.calls rfl (by decide), by decide⟩

end Export.Output

/-! ## Theorems: the lists of dialogs -/

namespace Export.Output

theorem start_new (fileWrite : List (List Byte) → List Byte → Result) (directory : List Char)
    (environment : Environment) :
    JsonWriter.new.start fileWrite (directory ++ ['/']) environment
      = some (⟨environment, ⟨[kObject], true⟩, DialogsMode.None,
            some [[123] ++ ([10] ++ List.replicate 1 32
              ++ JsonDataBuilder.SerializeString (ascii "about") ++ [58, 32])
              ++ JsonDataBuilder.SerializeString environment.aboutTelegram]⟩,
          fileWrite [] ([123] ++ ([10] ++ List.replicate 1 32
              ++ JsonDataBuilder.SerializeString (ascii "about") ++ [58, 32])
              ++ JsonDataBuilder.SerializeString environment.aboutTelegram)) := by
  simp [JsonWriter.start, JsonWriter.new, JsonWriter.writeBlock, JsonDataBuilder.new,
    JsonDataBuilder.pushNesting, JsonDataBuilder.prepareObjectItemStart,
    JsonDataBuilder.Indentation, kObject]

/-- C34 fails on the code. After `start` and `writeDialogsStart` the nesting stack
holds the root object only; `writeDialogsEnd` calls `writeChatsEnd`, whose first
`popNesting` closes the root object and whose second `popNesting` runs on an empty
stack, so that the `Expects` of `popNesting` fails.  With one dialog in between the same
calls succeed and `finish` finds the stack empty. -/
theorem writeDialogsEnd_without_dialogs
    (fileWrite : List (List Byte) → List Byte → Result) (directory : List Char)
    (environment : Environment) :
    ∃ started result,
      JsonWriter.new.start fileWrite (directory ++ ['/']) environment = some (started, result) ∧
      started._dataBuilder.nesting = [kObject] ∧
      started.writeDialogsStart = some (started, Result.success) ∧
      (∃ closed, started._dataBuilder.popNesting = some closed ∧
        closed.1.nesting = [] ∧ closed.1.popNesting = none) ∧
      started.writeDialogsEnd fileWrite = none ∧
      Sample.oneDialogRun.map (fun finished => (finished.1._dataBuilder.nesting, finished.2))
        = some ([], Result.success) :=
  ⟨_, _, start_new fileWrite directory environment, rfl, rfl, ⟨_, rfl, rfl, rfl⟩, rfl,
    by decide⟩

theorem writeChatsStart_root (fileWrite : List (List Byte) → List Byte → Result)
    (environment : Environment) (had : Bool) (mode : DialogsMode) (blocks : List (List Byte))
    (listName about : List Byte) :
    JsonWriter.writeChatsStart fileWrite ⟨environment, ⟨[kObject], had⟩, mode, some blocks⟩
        listName about
      = some (⟨environment, ⟨[kObject, kObject, kArray], false⟩, mode,
            some (blocks ++ [listOpening had listName about])⟩,
          fileWrite blocks (listOpening had listName about)) := by
  cases had <;>
  simp [JsonWriter.writeChatsStart, JsonWriter.writeBlock, JsonDataBuilder.pushNesting,
    JsonDataBuilder.prepareObjectItemStart, JsonDataBuilder.Indentation, kObject, kArray,
    listOpening]

theorem writeChatsEnd_list (fileWrite : List (List Byte) → List Byte → Result)
    (environment : Environment) (had : Bool) (mode : DialogsMode) (blocks : List (List Byte)) :
    JsonWriter.writeChatsEnd fileWrite
        ⟨environment, ⟨[kObject, kObject, kArray], had⟩, mode, some blocks⟩
      = some (⟨environment, ⟨[kObject], true⟩, mode, some (blocks ++ [listClosing])⟩,
          fileWrite blocks listClosing) := by
  simp [JsonWriter.writeChatsEnd, JsonWriter.writeBlock, JsonDataBuilder.popNesting,
    JsonDataBuilder.Indentation, kObject, kArray, listClosing]

/-- C35 as stated fails: the writer does not keep the nesting in step with the mode.
After `start`, `writeDialogStart`, `writeDialogEnd` and `writeDialogsEnd`, all
successful, the mode is still `Chats` and the nesting is the root object, since
`writeChatsEnd` does not reset `_dialogsMode`; `validateDialogsMode(false)` then returns
success, writes nothing and leaves the nesting at the root object.  The same state is
left by the error branch of `validateDialogsMode` itself, when the block that closes
the list `chats` is not written. -/
theorem validateDialogsMode_depth_counterexample :
    Sample.dialogsEndRun.map
        (fun ended => (ended.1._dialogsMode, ended.1._dataBuilder.nesting, ended.2))
      = some (DialogsMode.Chats, [kObject], Result.success) ∧
    (Sample.dialogsEndRun.bind
        (fun ended => (ended.1.validateDialogsMode Sample.fileWrite false).map
          (fun outcome => (decide (outcome.1 = ended.1), outcome.1._dialogsMode,
            outcome.1._dataBuilder.nesting, outcome.2))))
      = some (true, DialogsMode.Chats, [kObject], Result.success) ∧
    (Sample.writerInChats.validateDialogsMode Sample.fileFails true).map
        (fun failed => (failed.1._dialogsMode, failed.1._dataBuilder.nesting, failed.2))
      = some (DialogsMode.Chats, [kObject], Result.error) ∧
    ((Sample.writerInChats.validateDialogsMode Sample.fileFails true).bind
        (fun failed => (failed.1.validateDialogsMode Sample.fileWrite false).map
          (fun outcome => (outcome.1._dialogsMode, outcome.1._dataBuilder.nesting, outcome.2))))
      = some (DialogsMode.Chats, [kObject], Result.success) ∧
    [kObject] ≠ [kObject, kObject, kArray] := by
  refine ⟨by decide, by decide, by decide, by decide, by decide⟩

/-- C35, amended. On a writer with its file open and in a state between two dialogs (no list
open and the nesting at the root object, or a list open and the nesting at the root
object, the list object and the list array), `validateDialogsMode` returns, and: when
the mode equals the requested one it writes nothing and changes nothing; when the mode is
`None` it opens the requested list; when the mode is the other list it closes that list
with two pops and, if that block was written, opens the requested one; after every
successful call from such a state the mode is the requested one and the nesting is the
root object, the list object and the list array. -/
theorem validateDialogsMode_machine (fileWrite : List (List Byte) → List Byte → Result)
    (self : JsonWriter) (isLeftChannel : Bool) (blocks : List (List Byte))
    (hout : self._output = some blocks) (hcons : self.ListsConsistent) :
    ∃ outcome, self.validateDialogsMode fileWrite isLeftChannel = some outcome ∧
      (self._dialogsMode = (if isLeftChannel then DialogsMode.Left else DialogsMode.Chats) →
        outcome = (self, Result.success)) ∧
      (self._dialogsMode = DialogsMode.None →
        outcome =
          (⟨self._environment, ⟨[kObject, kObject, kArray], false⟩,
              if isLeftChannel then DialogsMode.Left else DialogsMode.Chats,
              some (blocks ++ [listOpening self._dataBuilder._currentNestingHadItem
                (if isLeftChannel then ascii "left_chats" else ascii "chats")
                (if isLeftChannel then self._environment.aboutLeftChats
                  else self._environment.aboutChats)])⟩,
            fileWrite blocks (listOpening self._dataBuilder._currentNestingHadItem
                (if isLeftChannel then ascii "left_chats" else ascii "chats")
                (if isLeftChannel then self._environment.aboutLeftChats
                  else self._environment.aboutChats)))) ∧
      (self._dialogsMode ≠ DialogsMode.None →
        self._dialogsMode ≠ (if isLeftChannel then DialogsMode.Left else DialogsMode.Chats) →
        outcome =
          if fileWrite blocks listClosing = Result.error then
            (⟨self._environment, ⟨[kObject], true⟩, self._dialogsMode,
              some (blocks ++ [listClosing])⟩, Result.error)
          else
            (⟨self._environment, ⟨[kObject, kObject, kArray], false⟩,
              if isLeftChannel then DialogsMode.Left else DialogsMode.Chats,
              some (blocks ++ [listClosing] ++ [listOpening true
                (if isLeftChannel then ascii "left_chats" else ascii "chats")
                (if isLeftChannel then self._environment.aboutLeftChats
                  else self._environment.aboutChats)])⟩,
            fileWrite (blocks ++ [listClosing]) (listOpening true
                (if isLeftChannel then ascii "left_chats" else ascii "chats")
                (if isLeftChannel then self._environment.aboutLeftChats
                  else self._environment.aboutChats)))) ∧
      (outcome.2 = Result.success →
        outcome.1._dialogsMode = (if isLeftChannel then DialogsMode.Left else DialogsMode.Chats) ∧
        outcome.1._dataBuilder.nesting = [kObject, kObject, kArray]) := by
  obtain ⟨environment, ⟨nesting, had⟩, mode, output⟩ := self
  simp only at hout
  subst hout
  rcases hcons with ⟨hmode, hnest⟩ | ⟨hmode, hnest⟩
  · simp only at hmode hnest
    subst hmode hnest
    have hval : JsonWriter.validateDialogsMode fileWrite
        ⟨environment, ⟨[kObject], had⟩, DialogsMode.None, some blocks⟩ isLeftChannel
        = some (⟨environment, ⟨[kObject, kObject, kArray], false⟩,
              if isLeftChannel then DialogsMode.Left else DialogsMode.Chats,
              some (blocks ++ [listOpening had
                (if isLeftChannel then ascii "left_chats" else ascii "chats")
                (if isLeftChannel then environment.aboutLeftChats else environment.aboutChats)])⟩,
            fileWrite blocks (listOpening had
                (if isLeftChannel then ascii "left_chats" else ascii "chats")
                (if isLeftChannel then environment.aboutLeftChats
                  else environment.aboutChats))) := by
      unfold JsonWriter.validateDialogsMode
      simp only []
      rw [if_neg (by cases isLeftChannel <;> simp), if_neg (by simp)]
      exact writeChatsStart_root _ _ _ _ _ _ _
    refine ⟨_, hval, ?_, ?_, ?_, ?_⟩
    · intro h; cases isLeftChannel <;> simp at h
    · intro _; rfl
    · intro h; simp at h
    · intro _; exact ⟨rfl, rfl⟩
  · simp only at hmode hnest
    subst hnest
    by_cases hsame : mode = (if isLeftChannel then DialogsMode.Left else DialogsMode.Chats)
    · have hval : JsonWriter.validateDialogsMode fileWrite
          ⟨environment, ⟨[kObject, kObject, kArray], had⟩, mode, some blocks⟩ isLeftChannel
          = some (⟨environment, ⟨[kObject, kObject, kArray], had⟩, mode, some blocks⟩,
              Result.success) := by
        unfold JsonWriter.validateDialogsMode
        simp only []
        rw [if_pos hsame]
      refine ⟨_, hval, ?_, ?_, ?_, ?_⟩
      · intro _; rfl
      · intro h; exact absurd h hmode
      · intro _ h; exact absurd hsame h
      · intro _; exact ⟨hsame, rfl⟩
    · have hval : JsonWriter.validateDialogsMode fileWrite
          ⟨environment, ⟨[kObject, kObject, kArray], had⟩, mode, some blocks⟩ isLeftChannel
          = some (if fileWrite blocks listClosing = Result.error then
            (⟨environment, ⟨[kObject], true⟩, mode, some (blocks ++ [listClosing])⟩, Result.error)
          else
            (⟨environment, ⟨[kObject, kObject, kArray], false⟩,
              if isLeftChannel then DialogsMode.Left else DialogsMode.Chats,
              some (blocks ++ [listClosing] ++ [listOpening true
                (if isLeftChannel then ascii "left_chats" else ascii "chats")
                (if isLeftChannel then environment.aboutLeftChats else environment.aboutChats)])⟩,
            fileWrite (blocks ++ [listClosing]) (listOpening true
                (if isLeftChannel then ascii "left_chats" else ascii "chats")
                (if isLeftChannel then environment.aboutLeftChats
                  else environment.aboutChats)))) := by
        unfold JsonWriter.validateDialogsMode
        simp only []
        rw [if_neg hsame, if_pos hmode, writeChatsEnd_list]
        simp only []
        by_cases herr : fileWrite blocks listClosing = Result.error
        · rw [if_pos herr, if_pos herr, herr]
        · rw [if_neg herr, if_neg herr, writeChatsStart_root]
      refine ⟨_, hval, ?_, ?_, ?_, ?_⟩
      · intro h; exact absurd h hsame
      · intro h; exact absurd h hmode
      · intro _ _; rfl
      · intro hs
        by_cases herr : fileWrite blocks listClosing = Result.error
        · rw [if_pos herr] at hs
          simp at hs
        · rw [if_neg herr]
          exact ⟨rfl, rfl⟩

/-- C35, amended, at a writer in the list `chats` asked for the list of left chats. -/
theorem validateDialogsMode_machine_witness :
    (Sample.writerInChats._output = some [] ∧ Sample.writerInChats.ListsConsistent) ∧
    ∃ outcome, Sample.writerInChats.validateDialogsMode Sample.fileWrite true = some outcome ∧
      outcome.1._dialogsMode = DialogsMode.Left ∧
      outcome.1._dataBuilder.nesting = [kObject, kObject, kArray] := by
  refine ⟨⟨rfl, Or.inr ⟨by decide, rfl⟩⟩, ?_⟩
  obtain ⟨outcome, h, _, _, h3, h4⟩ := validateDialogsMode_machine Sample.fileWrite
    Sample.writerInChats true [] rfl (Or.inr ⟨by decide, rfl⟩)
  refine ⟨outcome, h, ?_⟩
  apply h4
  rw [h3 (by decide) (by decide)]
  rfl

end Export.Output

/-! ## Theorems: nesting balance of the serializers -/

namespace Export.Output

theorem serializeArray_nesting (nesting : List Bool) (values : List (List Byte)) :
    (JsonDataBuilder.SerializeArray nesting values).1 = nesting := rfl

theorem serializeTextStep_nesting (state : List Bool × List (List Byte)) (part : Data.TextPart) :
    (serializeTextStep state part).1 = state.1 := by
  unfold serializeTextStep
  by_cases h : part.type = Data.TextPartType.Text
  · rw [if_pos h]
  · rw [if_neg h]
    simp only [serializeObject_nesting]

theorem serializeText_fold_nesting (data : List Data.TextPart)
    (state : List Bool × List (List Byte)) :
    (data.foldl serializeTextStep state).1 = state.1 := by
  induction data generalizing state with
  | nil => rfl
  | cons part rest ih => rw [List.foldl_cons, ih, serializeTextStep_nesting]

theorem serializeText_nesting (nesting : List Bool) (data : List Data.TextPart) :
    (SerializeText nesting data).1 = nesting := by
  unfold SerializeText
  split_ifs
  · rfl
  · simp only []
    split
    · split_ifs
      · simp [serializeText_fold_nesting, serializeTextStep_nesting]
      · simp [serializeArray_nesting, serializeText_fold_nesting, serializeTextStep_nesting]
    · simp [serializeArray_nesting, serializeText_fold_nesting]

theorem serializeAnswerStep_nesting (E : Formats) (state : List Bool × List (List Byte))
    (answer : Data.PollAnswer) : (serializeAnswerStep E state answer).1 = state.1 := by
  simp [serializeAnswerStep, serializeObject_nesting]

theorem serializeAnswers_nesting (E : Formats) (answers : List Data.PollAnswer)
    (state : List Bool × List (List Byte)) :
    (answers.foldl (serializeAnswerStep E) state).1 = state.1 := by
  induction answers generalizing state with
  | nil => rfl
  | cons answer rest ih => rw [List.foldl_cons, ih, serializeAnswerStep_nesting]

theorem serializePoll_nesting (E : Formats) (nesting : List Bool) (data : Data.Poll) :
    (serializePoll E nesting data).1 = nesting := by
  simp [serializePoll, serializeObject_nesting, serializeArray_nesting, serializeAnswers_nesting]

theorem pushPath_eq (file : Data.File) (label name : List Byte) :
    (pushPath file label name).isSome = pathExpected file := by
  unfold pushPath pathExpected
  by_cases h : (!file.relativePath.isEmpty || decide (file.skipReason ≠ Data.SkipReason.None))
      = true
  · rw [if_pos h, h]
    rfl
  · rw [if_neg h]
    simp only [Bool.not_eq_true] at h
    rw [h]
    rfl

theorem pushPhoto_eq (E : Formats) (image : Data.Image) :
    (pushPhoto E image).isSome = pathExpected image.file := by
  unfold pushPhoto
  rw [← pushPath_eq image.file (ascii "photo") []]
  cases pushPath image.file (ascii "photo") [] <;> rfl

theorem serializeAction_nesting (E : Formats) (peers : Peers) (nesting : List Bool)
    (message : Data.Message) :
    (serializeAction E peers nesting message).map Prod.fst
      = if (match message.action with
            | some (.ActionChatEditPhoto image) => pathExpected image.file
            | _ => true) = true
        then some nesting else none := by
  unfold serializeAction
  cases message.action with
  | none => rfl
  | some action =>
    cases action <;> try rfl
    case ActionChatEditPhoto image =>
      have hp := pushPhoto_eq E image
      cases hph : pushPhoto E image <;> rw [hph] at hp <;>
        simp only [Option.isSome_none, Option.isSome_some] at hp <;>
        simp only [hph, ← hp] <;> rfl

theorem serializeDocument_isSome (E : Formats) (message : Data.Message) (data : Data.Document) :
    (serializeDocument E message data).isSome
      = (pathExpected data.file
          && (decide (data.thumb.width ≤ 0) || pathExpected data.thumb.file)) := by
  unfold serializeDocument
  rw [← pushPath_eq data.file (ascii "file") [], ← pushPath_eq data.thumb.file (ascii "thumbnail") []]
  cases pushPath data.file (ascii "file") [] with
  | none => rfl
  | some file =>
    by_cases hw : data.thumb.width > 0
    · simp only [if_pos hw]
      have : decide (data.thumb.width ≤ 0) = false := by simp; omega
      rw [this]
      cases pushPath data.thumb.file (ascii "thumbnail") [] <;> rfl
    · simp only [if_neg hw]
      have : decide (data.thumb.width ≤ 0) = true := by simp; omega
      rw [this]
      rfl

theorem serializeMedia_nesting (E : Formats) (peers : Peers) (internalLinksDomain : List Byte)
    (nesting : List Bool) (message : Data.Message)
    (h : message.media.content ≠ some Data.MediaContent.UnsupportedMedia) :
    (serializeMedia E peers internalLinksDomain nesting message).map Prod.fst
      = if (match message.media.content with
            | some (.Photo image) => pathExpected image.file
            | some (.Document data) =>
              pathExpected data.file
                && (decide (data.thumb.width ≤ 0) || pathExpected data.thumb.file)
            | some (.SharedContact data) =>
              data.vcard.content.isEmpty || pathExpected data.vcard
            | _ => true) = true
        then some nesting else none := by
  unfold serializeMedia
  cases hc : message.media.content with
  | none => rfl
  | some content =>
    cases content with
    | Photo image =>
      have hp := pushPhoto_eq E image
      cases hph : pushPhoto E image <;> rw [hph] at hp <;>
        simp only [Option.isSome_none, Option.isSome_some] at hp <;>
        simp only [hph, ← hp] <;> rfl
    | Document data =>
      have hp := serializeDocument_isSome E message data
      cases hd : serializeDocument E message data <;> rw [hd] at hp <;>
        simp only [Option.isSome_none, Option.isSome_some] at hp <;>
        simp only [hd, ← hp] <;> rfl
    | SharedContact data =>
      have hp := pushPath_eq data.vcard (ascii "contact_vcard") []
      cases hv : data.vcard.content.isEmpty
      · cases hd : pushPath data.vcard (ascii "contact_vcard") [] <;> rw [hd] at hp <;>
          simp only [Option.isSome_none, Option.isSome_some] at hp <;>
          simp [hv, hd, ← hp, serializeObject_nesting]
      · simp [hv, serializeObject_nesting]
    | GeoPoint data =>
      simp only []
      cases data.valid <;> simp [serializeObject_nesting]
    | Venue data =>
      simp only []
      cases data.point.valid <;> simp [serializeObject_nesting]
    | Game data => rfl
    | Invoice data => simp [serializeObject_nesting]
    | Poll data => simp [serializePoll_nesting]
    | UnsupportedMedia => exact absurd hc h

/-- C32. Nesting balance: for every nesting stack and every input, the static
`SerializeObject`, `SerializeArray` and `SerializeText` return with the nesting stack
they were entered with, and `SerializeMessage` returns exactly when every `Expects` it
evaluates holds, and then with the nesting stack it was entered with, on every path,
the early return for unsupported media and the branch of polls included. -/
theorem serializers_balanced (E : Formats) (peers : Peers) (internalLinksDomain : List Byte)
    (nesting : List Bool) (values : List (List Byte × List Byte)) (texts : List (List Byte))
    (data : List Data.TextPart) (message : Data.Message) :
    (JsonDataBuilder.SerializeObject nesting values).1 = nesting ∧
    (JsonDataBuilder.SerializeArray nesting texts).1 = nesting ∧
    (SerializeText nesting data).1 = nesting ∧
    (SerializeMessage E peers internalLinksDomain nesting message).map Prod.fst
      = if expectsHold message = true then some nesting else none := by
  refine ⟨serializeObject_nesting _ _, rfl, serializeText_nesting _ _, ?_⟩
  unfold SerializeMessage expectsHold
  by_cases hu : message.media.content = some Data.MediaContent.UnsupportedMedia
  · simp [hu, serializeObject_nesting]
  · rw [if_neg hu, if_neg hu]
    have ha := serializeAction_nesting E peers (nesting ++ [kObject]) message
    cases hact : serializeAction E peers (nesting ++ [kObject]) message with
    | none =>
      rw [hact] at ha
      have hfalse : (match message.action with
            | some (.ActionChatEditPhoto image) => pathExpected image.file
            | _ => true) = false := by
        by_contra hne
        rw [if_pos (by simpa using hne)] at ha
        exact absurd ha (by simp)
      simp [hact, hfalse]
    | some action =>
      rw [hact] at ha
      have htrue : (match message.action with
            | some (.ActionChatEditPhoto image) => pathExpected image.file
            | _ => true) = true := by
        by_contra hne
        rw [if_neg hne] at ha
        exact absurd ha (by simp)
      rw [if_pos htrue] at ha
      have ha1 : action.1 = nesting ++ [kObject] := by simpa using ha
      have hm := serializeMedia_nesting E peers internalLinksDomain action.1 message hu
      cases hmed : serializeMedia E peers internalLinksDomain action.1 message with
      | none =>
        rw [hmed] at hm
        by_cases hq : (match message.media.content with
            | some (.Photo image) => pathExpected image.file
            | some (.Document data) =>
              pathExpected data.file
                && (decide (data.thumb.width ≤ 0) || pathExpected data.thumb.file)
            | some (.SharedContact data) =>
              data.vcard.content.isEmpty || pathExpected data.vcard
            | _ => true) = true
        · rw [if_pos hq] at hm
          simp at hm
        · simp only [Bool.not_eq_true] at hq
          rw [ha1] at hmed
          simp [hact, hmed, hq, ha1]
      | some media =>
        rw [hmed] at hm
        by_cases hq : (match message.media.content with
            | some (.Photo image) => pathExpected image.file
            | some (.Document data) =>
              pathExpected data.file
                && (decide (data.thumb.width ≤ 0) || pathExpected data.thumb.file)
            | some (.SharedContact data) =>
              data.vcard.content.isEmpty || pathExpected data.vcard
            | _ => true) = true
        · rw [if_pos hq] at hm
          have hm1 : media.1 = action.1 := by simpa using hm
          rw [ha1] at hmed hm1
          simp [hact, hmed, hq, htrue, serializeObject_nesting, serializeText_nesting, hm1, ha1]
        · rw [if_neg hq] at hm
          simp at hm

theorem SerializeMessage_samples :
    (SerializeMessage Sample.formats Sample.peers [] [kObject, kArray] Sample.pollMessage).map
        Prod.fst = some [kObject, kArray] ∧
    (SerializeMessage Sample.formats Sample.peers [] [kObject, kArray]
        Sample.unsupportedMessage).map Prod.fst = some [kObject, kArray] ∧
    SerializeMessage Sample.formats Sample.peers [] [kObject, kArray] Sample.photoMessage
      = none := by
  refine ⟨by decide, by decide, by decide⟩

end Export.Output
